import Mathlib

/-!
# Verification of the grid-square-locator coverage engine

Shallow embedding of the core of the `grid-square-locator` repository:

* the Maidenhead grid codec (`src/utils/maidenhead.ts`),
* the locator validator (`src/utils/validation.ts`),
* the radial sampler and the horizon / line-of-sight calculator
  (`src/utils/losCalculation.ts`),
* the throttled, cancellable elevation-fetch pipeline
  (`src/services/elevationService.ts`) and its caller (`src/hooks/useCoverage.ts`).

Modelling conventions:

* JavaScript numbers are modelled as exact rationals (`ℚ`).  Every arithmetic
  operation appearing in the embedded code (`+`, `-`, `*`, `/`, `Math.floor`,
  `%`, `Math.pow(2, n)`) is rational-closed, so the embedding is executable.
* The transcendental functions `Math.sin`, `Math.cos`, `Math.asin`,
  `Math.atan2` and the constant `Math.PI` used by `calculatePointAtBearing`
  are abstracted as a parameter (`TrigOps`); the theorems below hold for
  every interpretation of that parameter, in particular the real one.
* `Math.atan2(y, x)` in the horizon calculator is only ever *compared* and
  always receives a positive second argument `x` (the distance in metres, the
  claims instantiate `intervalKm > 0`).  Since `atan2 (y, x) = arctan (y / x)`
  for `x > 0` and `arctan` is strictly monotone, every comparison
  `atan2 (y₁, x₁) ≥ atan2 (y₂, x₂)` with `x₁, x₂ > 0` is equivalent to the
  rational comparison `y₁ / x₁ ≥ y₂ / x₂`.  The embedding therefore stores the
  tangent (slope) of each angle and compares slopes.
* Asynchrony: the pipeline's network completion order inside a
  `Promise.all` group is modelled as an explicit arrival-order parameter,
  and the `AbortSignal` as a predicate on group boundaries.  `await delay(...)`
  performs no computation; the retry delays are recorded as a trace so that the
  backoff schedule can be stated.
-/

/-! ## Constants (`src/utils/constants.ts`, `LOS_CONFIG`) -/

def MAX_DISTANCE_KM : ℚ := 300

def SAMPLE_INTERVAL_KM : ℚ := 1

def EARTH_RADIUS_KM : ℚ := 6371

def K_FACTOR : ℚ := 4 / 3

def BATCH_SIZE : ℕ := 100

def MAX_CONCURRENT_REQUESTS : ℕ := 5

def NUM_RADIALS : ℕ := 720

/-! ## Data model (`src/types.ts`) -/

/-- `LatLng` from `src/types.ts`: a geographic point. -/
structure LatLng where
  lat : ℚ
  lng : ℚ
deriving DecidableEq, Repr

/-- `GridSquareBounds` from `src/types.ts`. -/
structure GridSquareBounds where
  southwest : LatLng
  northeast : LatLng
  center : LatLng
deriving DecidableEq, Repr

/-- Abstraction of the transcendental pieces of `Math` used by
`calculatePointAtBearing` (`Math.PI`, `Math.sin`, `Math.cos`, `Math.asin`,
`Math.atan2`).  All theorems about the sampler hold for every `TrigOps`. -/
structure TrigOps where
  pi : ℚ
  sin : ℚ → ℚ
  cos : ℚ → ℚ
  asin : ℚ → ℚ
  atan2 : ℚ → ℚ → ℚ

/-- A concrete interpretation used by closed witnesses. -/
def trigZero : TrigOps :=
  { pi := 0, sin := fun _ => 0, cos := fun _ => 0, asin := fun _ => 0,
    atan2 := fun _ _ => 0 }

/-! ## Radial sampler (`src/utils/losCalculation.ts`) -/

/-- `calculatePointAtBearing` from `src/utils/losCalculation.ts`:
spherical destination point for a start point, bearing and distance.
`DEG_TO_RAD = Math.PI / 180` and `RAD_TO_DEG = 180 / Math.PI` are inlined
through the trig oracle `T`. -/
def calculatePointAtBearing (T : TrigOps) (origin : LatLng) (bearing : ℚ)
    (distanceKm : ℚ) : LatLng :=
  let DEG_TO_RAD := T.pi / 180
  let RAD_TO_DEG := 180 / T.pi
  let lat1 := origin.lat * DEG_TO_RAD
  let lng1 := origin.lng * DEG_TO_RAD
  let bearingRad := bearing * DEG_TO_RAD
  let angularDistance := distanceKm / EARTH_RADIUS_KM
  let lat2 := T.asin
    (T.sin lat1 * T.cos angularDistance +
      T.cos lat1 * T.sin angularDistance * T.cos bearingRad)
  let lng2 := lng1 + T.atan2
    (T.sin bearingRad * T.sin angularDistance * T.cos lat1)
    (T.cos angularDistance - T.sin lat1 * T.sin lat2)
  { lat := lat2 * RAD_TO_DEG, lng := lng2 * RAD_TO_DEG }

/-- `getElevationSamplePoints` from `src/utils/losCalculation.ts`:
`numPoints = Math.floor(maxDistanceKm / intervalKm)` loop iterations,
the `i`-th (1-based) point at distance `i * intervalKm`.  The JS loop
`for (i = 1; i <= numPoints; i++)` runs zero times when `numPoints ≤ 0`. -/
def getElevationSamplePoints (T : TrigOps) (origin : LatLng) (bearing : ℚ)
    (maxDistanceKm : ℚ := MAX_DISTANCE_KM)
    (intervalKm : ℚ := SAMPLE_INTERVAL_KM) : List LatLng :=
  let numPoints : ℤ := ⌊maxDistanceKm / intervalKm⌋
  (List.range numPoints.toNat).map fun i =>
    calculatePointAtBearing T origin bearing ((i + 1 : ℕ) * intervalKm)

/-- `flattenSamplePoints` from `src/utils/losCalculation.ts`: all radials'
sample points in one flat list, plus the index map from flat position back to
(bearing, sampleIndex). -/
structure FlattenedSamplePoints where
  points : List LatLng
  indexMap : List (ℚ × ℕ)
  numRadials : ℕ
  pointsPerBearing : ℕ
deriving Repr

/-- `flattenSamplePoints` from `src/utils/losCalculation.ts`. -/
def flattenSamplePoints (T : TrigOps) (origin : LatLng) : FlattenedSamplePoints :=
  let numRadials := NUM_RADIALS
  let step : ℚ := 360 / (numRadials : ℚ)
  let pointsPerBearing : ℕ := (⌊MAX_DISTANCE_KM / SAMPLE_INTERVAL_KM⌋ : ℤ).toNat
  let perRadial : ℕ → List LatLng × List (ℚ × ℕ) := fun i =>
    let bearing := (i : ℚ) * step
    let samplePoints := getElevationSamplePoints T origin bearing
    (samplePoints, (List.range samplePoints.length).map fun j => (bearing, j))
  { points := (List.range numRadials).flatMap fun i => (perRadial i).1
    indexMap := (List.range numRadials).flatMap fun i => (perRadial i).2
    numRadials := numRadials
    pointsPerBearing := pointsPerBearing }

/-! ## Horizon / line-of-sight calculator (`src/utils/losCalculation.ts`) -/

/-- `calculateEarthCurvatureDrop` from `src/utils/losCalculation.ts`:
`drop = d² / (2 · K · R)` with `d` in metres. -/
def calculateEarthCurvatureDrop (distanceKm : ℚ) : ℚ :=
  let distanceM := distanceKm * 1000
  let effectiveRadius := K_FACTOR * EARTH_RADIUS_KM * 1000
  (distanceM * distanceM) / (2 * effectiveRadius)

/-- The tangent (slope) of the elevation angle
`atan2(effectiveTerrainHeight - observerHeight, distanceM)` from the
observer to the sample at 0-based index `i` of the profile (distance
`(i+1) * intervalKm`).  Comparisons of these slopes coincide with the
source's comparisons of `Math.atan2` angles because the second `atan2`
argument (the distance in metres) is positive in every use. -/
def terrainSlope (observerHeight intervalKm : ℚ) (elev : ℚ) (i : ℕ) : ℚ :=
  let distance := ((i : ℚ) + 1) * intervalKm
  let distanceM := distance * 1000
  let curvatureDrop := calculateEarthCurvatureDrop distance
  let effectiveTerrainHeight := elev - curvatureDrop
  let heightDiff := effectiveTerrainHeight - observerHeight
  heightDiff / distanceM

/-- One step of the second loop of `calculateLOSDistance`
(`src/utils/losCalculation.ts` lines 158-177).  State:
`(lastVisibleDistance, cumulativeMaxAngle)`, with `none` standing for the
initial `-Infinity`.  The update fires exactly when
`angleToTerrain >= cumulativeMaxAngle`. -/
def losStep (observerHeight intervalKm : ℚ) (st : ℚ × Option ℚ)
    (p : ℕ × ℚ) : ℚ × Option ℚ :=
  let distance := ((p.1 : ℚ) + 1) * intervalKm
  let slope := terrainSlope observerHeight intervalKm p.2 p.1
  match st.2 with
  | none => (distance, some slope)
  | some m => if m ≤ slope then (distance, some slope) else st

/-- `calculateLOSDistance` from `src/utils/losCalculation.ts`:
maximum line-of-sight distance for an elevation profile.  The source's first
loop only computes a `maxBlockingAngle` that is never read afterwards (dead
code), so it is not part of the state here.  The final clamp returns
`MAX_DISTANCE_KM` when `lastVisibleDistance >= MAX_DISTANCE_KM - intervalKm`. -/
def calculateLOSDistance (observerElevation antennaHeight : ℚ)
    (elevationProfile : List ℚ)
    (intervalKm : ℚ := SAMPLE_INTERVAL_KM) : ℚ :=
  let observerHeight := observerElevation + antennaHeight
  let final := elevationProfile.enum.foldl (losStep observerHeight intervalKm)
    (0, none)
  if MAX_DISTANCE_KM - intervalKm ≤ final.1 then MAX_DISTANCE_KM else final.1

/-- One step of the visibility fold: also records each visible sample's
distance, in increasing order. -/
def visStep (observerHeight intervalKm : ℚ) (st : List ℚ × Option ℚ)
    (p : ℕ × ℚ) : List ℚ × Option ℚ :=
  let distance := ((p.1 : ℚ) + 1) * intervalKm
  let slope := terrainSlope observerHeight intervalKm p.2 p.1
  match st.2 with
  | none => (st.1 ++ [distance], some slope)
  | some m => if m ≤ slope then (st.1 ++ [distance], some slope) else st

/-- Modelled from the spec: `calculateVisiblePoints` — the richer horizon
variant returning the full visible set — is imported and called by
`src/hooks/useCoverage.ts` but its implementation is not among the source
files under `src/`.  Modelled from spec §4.4: a sample is visible iff its
elevation angle is `≥` the maximum elevation angle of all closer samples
(the same cumulative-horizon rule as `calculateLOSDistance`'s second loop);
the result is the ordered list of visible distances together with
`maxVisibleDistance`, reported as the configured maximum range when every
sample is visible and as the last visible distance (0 for an empty profile)
otherwise. -/
def calculateVisiblePoints (observerElevation antennaHeight : ℚ)
    (elevationProfile : List ℚ)
    (intervalKm : ℚ := SAMPLE_INTERVAL_KM) : List ℚ × ℚ :=
  let observerHeight := observerElevation + antennaHeight
  let final := elevationProfile.enum.foldl (visStep observerHeight intervalKm)
    ([], none)
  let maxDistance :=
    if final.1.length = elevationProfile.length then MAX_DISTANCE_KM
    else (final.1.getLastD 0)
  (final.1, maxDistance)

/-! ## Elevation fetch pipeline (`src/services/elevationService.ts`)

The pipeline is embedded with its effects made explicit:

* the network is a deterministic provider function (per spec §8's
  "mocked, deterministic provider");
* the completion order of the at-most-`maxConcurrent` simultaneous requests
  of one `Promise.all` group is an explicit `arrivalOrder` parameter;
* the `AbortSignal` is a predicate on group boundaries (`signal g = true`
  iff `signal.aborted` holds when the loop checks it before group `g`);
* `await delay(ms)` performs no computation; `getElevationBatch` returns the
  list of backoff delays it slept as a trace;
* the `onProgress` callback and the fixed inter-group delay have no effect on
  the returned data and are omitted.
-/

/-- Splitting into batches: the loop
`for (i = 0; i < all.length; i += size) batches.push(all.slice(i, i + size))`.
(`size = 0` never occurs; the branch only serves termination.) -/
def chunkList (n : ℕ) (l : List α) : List (List α) :=
  if l.isEmpty then []
  else if n = 0 then [l]
  else l.take n :: chunkList n (l.drop n)
termination_by l.length
decreasing_by
  rename_i h1 h2
  simp only [List.length_drop]
  cases l with
  | nil => simp at h1
  | cons a t => simp; omega

/-- Outcome of one pipeline run, as observed by the caller.  The source
signals cancellation by throwing `DOMException('Aborted', 'AbortError')`,
which the caller distinguishes from errors by name; the embedding keeps the
three terminal states apart. -/
inductive FetchResult (β : Type) where
  | ok (results : List β)
  | cancelled
  | error (msg : String)
deriving DecidableEq, Repr

/-- A mocked HTTP response for the elevation API (`fetch` + `response.json()`):
`status`, `statusText` and the optional `data.results` payload. -/
structure ApiResponse (β : Type) where
  status : ℕ
  statusText : String
  results : Option (List β)

/-- `response.ok`: status in the 2xx range. -/
def respOk (r : ApiResponse β) : Bool := 200 ≤ r.status && r.status < 300

def MAX_RETRIES : ℕ := 3

def BASE_DELAY_MS : ℕ := 1000

/-- The retry loop of `getElevationBatch` (`src/services/elevationService.ts`
lines 66-88) for a non-empty location list: `fetchResp r` is the response the
network gives to the attempt carrying `retryCount = r`.  Returns the result
together with the trace of backoff delays slept
(`retryDelay = BASE_DELAY_MS * Math.pow(2, retryCount)`). -/
def getElevationBatchAux (fetchResp : ℕ → ApiResponse β) (retryCount : ℕ) :
    Except String (List β) × List ℕ :=
  let response := fetchResp retryCount
  if response.status = 429 ∧ retryCount < MAX_RETRIES then
    let retryDelay := BASE_DELAY_MS * 2 ^ retryCount
    let rest := getElevationBatchAux fetchResp (retryCount + 1)
    (rest.1, retryDelay :: rest.2)
  else if ¬ respOk response then
    (.error ("Elevation API error: " ++ toString response.status ++ " "
      ++ response.statusText), [])
  else
    match response.results with
    | none => (.error "No elevation data returned", [])
    | some rs => (.ok rs, [])
termination_by MAX_RETRIES - retryCount
decreasing_by omega

/-- `getElevationBatch` from `src/services/elevationService.ts`: empty
location lists return `[]` without a request; otherwise the retry loop runs. -/
def getElevationBatch (fetchResp : ℕ → ApiResponse β) (locations : List α)
    (retryCount : ℕ := 0) : Except String (List β) × List ℕ :=
  if locations.isEmpty then (.ok [], [])
  else getElevationBatchAux fetchResp retryCount

/-- `Promise.all(batchGroup.map(batch => getElevationBatch(batch, signal)))`:
the group's requests complete in `arrivalOrder`, but `Promise.all` delivers
the resolved values reassembled by original batch index (and rejects if any
request rejects).  The `"missing batch"` branch is unreachable whenever
`arrivalOrder` is a permutation of the group's indices. -/
def resolveGroup (provider : List α → Except String (List β))
    (batchGroup : List (List α)) (arrivalOrder : List ℕ) :
    Except String (List (List β)) :=
  let arrivals := arrivalOrder.map fun j => (j, provider (batchGroup.getD j []))
  (List.range batchGroup.length).mapM fun i =>
    match arrivals.lookup i with
    | some r => r
    | none => .error "missing batch"

/-- The group loop of `getElevationsWithThrottling`
(`src/services/elevationService.ts` lines 116-138): `g` is the index of the
next group boundary; the second component counts the groups actually
dispatched to the network.  The abort check happens at every boundary before
the group is dispatched. -/
def getElevationsWithThrottlingAux (provider : List α → Except String (List β))
    (signal : ℕ → Bool) (orders : ℕ → List ℕ) :
    List (List (List α)) → ℕ → List β → FetchResult β × ℕ
  | [], g, acc => (.ok acc, g)
  | group :: rest, g, acc =>
    if signal g then (.cancelled, g)
    else
      match resolveGroup provider group (orders g) with
      | .error e => (.error e, g + 1)
      | .ok rs =>
        getElevationsWithThrottlingAux provider signal orders rest (g + 1)
          (acc ++ rs.flatten)

/-- `getElevationsWithThrottling` from `src/services/elevationService.ts`:
split into batches of `BATCH_SIZE`, process them in groups of at most
`MAX_CONCURRENT_REQUESTS`, checking the abort signal at every group boundary
and concatenating each group's batch results in original batch order. -/
def getElevationsWithThrottling (provider : List α → Except String (List β))
    (signal : ℕ → Bool) (orders : ℕ → List ℕ) (allLocations : List α) :
    FetchResult β × ℕ :=
  let batches := chunkList BATCH_SIZE allLocations
  let groups := chunkList MAX_CONCURRENT_REQUESTS batches
  getElevationsWithThrottlingAux provider signal orders groups 0 []

/-- The caller's handling of the pipeline outcome (`src/hooks/useCoverage.ts`
catch block): a thrown `AbortError` is swallowed — no error message is set
and no result is stored; any other rejection sets the error message; success
stores a result.  Returned as (error message, whether a result is stored). -/
def coverageOutcome (r : FetchResult β) : Option String × Bool :=
  match r with
  | .ok _ => (none, true)
  | .cancelled => (none, false)
  | .error e => (some e, false)

/-! ## Maidenhead grid codec (`src/utils/maidenhead.ts`) -/

/-- JS truncation: `Math.trunc`, the rounding used by the `%` operator. -/
def ratTrunc (q : ℚ) : ℤ := if q < 0 then ⌈q⌉ else ⌊q⌋

/-- The JS `%` operator on numbers (truncated remainder).  For the
non-negative operands arising in the codec it coincides with the floor-based
remainder. -/
def jsMod (a b : ℚ) : ℚ := a - b * ratTrunc (a / b)

/-- `latLngToMaidenhead` from `src/utils/maidenhead.ts`.  Tier digits are
emitted as single characters (`Char.ofNat (48 + d)` models
`d.toString()` — every tier index produced by the `Math.floor`/`%`
arithmetic on in-range coordinates is a single digit `0..9`). -/
def latLngToMaidenhead (lat lng : ℚ) (precision : ℕ := 6) : String :=
  let normLng := lng + 180
  let normLat := lat + 90
  let fieldLng := ⌊normLng / 20⌋
  let fieldLat := ⌊normLat / 10⌋
  let l2 : List Char :=
    [Char.ofNat (65 + fieldLng.toNat), Char.ofNat (65 + fieldLat.toNat)]
  if precision = 2 then ⟨l2⟩ else
  let squareLng := ⌊jsMod normLng 20 / 2⌋
  let squareLat := ⌊jsMod normLat 10 / 1⌋
  let l4 := l2 ++
    [Char.ofNat (48 + squareLng.toNat), Char.ofNat (48 + squareLat.toNat)]
  if precision = 4 then ⟨l4⟩ else
  let subsquareLng := ⌊jsMod normLng 2 / (2 / 24)⌋
  let subsquareLat := ⌊jsMod normLat 1 / (1 / 24)⌋
  let l6 := l4 ++
    [Char.ofNat (97 + subsquareLng.toNat), Char.ofNat (97 + subsquareLat.toNat)]
  if precision = 6 then ⟨l6⟩ else
  let extendedLng := ⌊jsMod normLng (2 / 24) / (2 / 240)⌋
  let extendedLat := ⌊jsMod normLat (1 / 24) / (1 / 240)⌋
  let l8 := l6 ++
    [Char.ofNat (48 + extendedLng.toNat), Char.ofNat (48 + extendedLat.toNat)]
  if precision = 8 then ⟨l8⟩ else
  let superLng := ⌊jsMod normLng (2 / 240) / (2 / 5760)⌋
  let superLat := ⌊jsMod normLat (1 / 240) / (1 / 5760)⌋
  ⟨l8 ++
    [Char.ofNat (97 + superLng.toNat), Char.ofNat (97 + superLat.toNat)]⟩

/-- `maidenheadToBounds` from `src/utils/maidenhead.ts`.  `charCodeAt(i)` on
the upper-cased locator minus `'A'` is `letterVal i`; `parseInt(charAt(i))`
is `digitVal i` (`parseInt` yields `NaN` on a non-digit; the claims below
apply the decoder only to pattern-valid locators, where those positions hold
digits).  Each `if (length >= k)` block shifts the running southwest corner
and shrinks the tier size, exactly as in the source. -/
def maidenheadToBounds (locator : String) : GridSquareBounds :=
  let upper := locator.data.map Char.toUpper
  let len := upper.length
  let letterVal : ℕ → ℤ := fun i => ((upper.getD i 'A').toNat : ℤ) - 65
  let digitVal : ℕ → ℤ := fun i => ((upper.getD i '0').toNat : ℤ) - 48
  -- state: (lng, lat, lngSize, latSize)
  let st0 : ℚ × ℚ × ℚ × ℚ := (-180, -90, 360, 180)
  let st1 := if 2 ≤ len then
      (-180 + (letterVal 0 : ℚ) * 20, -90 + (letterVal 1 : ℚ) * 10,
        (20 : ℚ), (10 : ℚ))
    else st0
  let st2 := if 4 ≤ len then
      (st1.1 + (digitVal 2 : ℚ) * 2, st1.2.1 + (digitVal 3 : ℚ) * 1,
        (2 : ℚ), (1 : ℚ))
    else st1
  let st3 := if 6 ≤ len then
      (st2.1 + (letterVal 4 : ℚ) * (2 / 24), st2.2.1 + (letterVal 5 : ℚ) * (1 / 24),
        (2 / 24 : ℚ), (1 / 24 : ℚ))
    else st2
  let st4 := if 8 ≤ len then
      (st3.1 + (digitVal 6 : ℚ) * (2 / 240), st3.2.1 + (digitVal 7 : ℚ) * (1 / 240),
        (2 / 240 : ℚ), (1 / 240 : ℚ))
    else st3
  let st5 := if 10 ≤ len then
      (st4.1 + (letterVal 8 : ℚ) * (2 / 5760), st4.2.1 + (letterVal 9 : ℚ) * (1 / 5760),
        (2 / 5760 : ℚ), (1 / 5760 : ℚ))
    else st4
  { southwest := ⟨st5.2.1, st5.1⟩
    northeast := ⟨st5.2.1 + st5.2.2.2, st5.1 + st5.2.2.1⟩
    center := ⟨st5.2.1 + st5.2.2.2 / 2, st5.1 + st5.2.2.1 / 2⟩ }

/-! ## Locator validation (`src/utils/validation.ts`, `src/utils/constants.ts`) -/

/-- The character class `[a-zA-Z]` of `GRID_SQUARE_PATTERN`. -/
def isAsciiLetter (c : Char) : Bool :=
  ('a' ≤ c && c ≤ 'z') || ('A' ≤ c && c ≤ 'Z')

/-- The character class `[0-9]` of `GRID_SQUARE_PATTERN`. -/
def isAsciiDigit (c : Char) : Bool := '0' ≤ c && c ≤ '9'

/-- Innermost optional group `([a-zA-Z]{2})?$` of `GRID_SQUARE_PATTERN`. -/
def gsTail4 : List Char → Bool
  | [] => true
  | [c8, c9] => isAsciiLetter c8 && isAsciiLetter c9
  | _ => false

/-- Optional group `([0-9]{2}([a-zA-Z]{2})?)?$` of `GRID_SQUARE_PATTERN`. -/
def gsTail3 : List Char → Bool
  | [] => true
  | c6 :: c7 :: rest => isAsciiDigit c6 && isAsciiDigit c7 && gsTail4 rest
  | _ => false

/-- Optional group `([a-zA-Z]{2}([0-9]{2}([a-zA-Z]{2})?)?)?$`. -/
def gsTail2 : List Char → Bool
  | [] => true
  | c4 :: c5 :: rest => isAsciiLetter c4 && isAsciiLetter c5 && gsTail3 rest
  | _ => false

/-- Optional group `([0-9]{2}([a-zA-Z]{2}([0-9]{2}([a-zA-Z]{2})?)?)?)?$`. -/
def gsTail1 : List Char → Bool
  | [] => true
  | c2 :: c3 :: rest => isAsciiDigit c2 && isAsciiDigit c3 && gsTail2 rest
  | _ => false

/-- `GRID_SQUARE_PATTERN` from `src/utils/constants.ts`:
`/^[a-zA-Z]{2}([0-9]{2}([a-zA-Z]{2}([0-9]{2}([a-zA-Z]{2})?)?)?)?$/`,
structured exactly as the regex's nesting of optional pair groups. -/
def gridSquarePatternMatch : List Char → Bool
  | c0 :: c1 :: rest => isAsciiLetter c0 && isAsciiLetter c1 && gsTail1 rest
  | _ => false

/-- The whitespace class trimmed by JS `String.prototype.trim` (the ASCII
white space characters plus NBSP and BOM; other exotic Unicode spaces do not
occur in the claims). -/
def isJsWhitespace (c : Char) : Bool :=
  c.toNat = 9 || c.toNat = 10 || c.toNat = 11 || c.toNat = 12 || c.toNat = 13
    || c.toNat = 32 || c.toNat = 160 || c.toNat = 65279

/-- JS `value.trim()`. -/
def jsTrim (cs : List Char) : List Char :=
  ((cs.dropWhile isJsWhitespace).reverse.dropWhile isJsWhitespace).reverse

/-- `isValidGridSquare` from `src/utils/validation.ts`:
`GRID_SQUARE_PATTERN.test(value.trim())`. -/
def isValidGridSquare (value : String) : Bool :=
  gridSquarePatternMatch (jsTrim value.data)

/-- `normalizeGridSquare` from `src/utils/validation.ts`. -/
def normalizeGridSquare (value : String) : String :=
  ⟨(jsTrim value.data).map Char.toUpper⟩

/-- The validated decode path (`src/hooks/useSearchWithResults.ts` lines
38-41): `maidenheadToBounds` itself never fails, so "fails with
`InvalidLocator`" (spec §7) is the guard `isValidGridSquare` rejecting the
input before the caller decodes the trimmed query. -/
def decodeLocator (s : String) : Except String GridSquareBounds :=
  if isValidGridSquare s then .ok (maidenheadToBounds ⟨jsTrim s.data⟩)
  else .error "InvalidLocator"

/-! ## Claim-level predicates -/

/-- The longitude span of one tile at a given locator precision
(spec §4.1: field 20°, square 2°, subsquare (2/24)°, extended (2/240)°,
super-extended (2/5760)°). -/
def lngTierSize : ℕ → ℚ
  | 2 => 20
  | 4 => 2
  | 6 => 2 / 24
  | 8 => 2 / 240
  | 10 => 2 / 5760
  | _ => 360

/-- The latitude span of one tile at a given locator precision. -/
def latTierSize : ℕ → ℚ
  | 2 => 10
  | 4 => 1
  | 6 => 1 / 24
  | 8 => 1 / 240
  | 10 => 1 / 5760
  | _ => 180

/-- A point lies on a tile boundary of the precision-`p` grid iff its
normalized longitude (resp. latitude) is an integer multiple of the tier
span — i.e. the quotient has denominator 1. -/
def onTileBoundary (lat lng : ℚ) (p : ℕ) : Bool :=
  ((lng + 180) / lngTierSize p).den == 1 || ((lat + 90) / latTierSize p).den == 1

/-- `bounds.contains(point)`: the point lies between the southwest and
northeast corners (inclusive). -/
def containsPoint (b : GridSquareBounds) (pt : LatLng) : Prop :=
  b.southwest.lat ≤ pt.lat ∧ pt.lat ≤ b.northeast.lat ∧
    b.southwest.lng ≤ pt.lng ∧ pt.lng ≤ b.northeast.lng

/-- The claim's flat characterization of what `GRID_SQUARE_PATTERN` accepts:
length in {2,4,6,8,10} and, at position `i`, a (any-case) letter when
`i % 4 < 2` (positions 0,1,4,5,8,9) and a digit otherwise (2,3,6,7). -/
def locatorShape (cs : List Char) : Bool :=
  (cs.length = 2 || cs.length = 4 || cs.length = 6 || cs.length = 8
      || cs.length = 10)
    && cs.enum.all fun p => if p.1 % 4 < 2 then isAsciiLetter p.2 else isAsciiDigit p.2

/-- Canonical-form locator characters: uppercase `A`–`R` in the field pair,
digits in the square/extended pairs, lowercase `a`–`x` in the
subsquare/super-extended pairs — the exact alphabet and case the encoder
emits for in-range coordinates. -/
def canonicalGridChar (i : ℕ) (c : Char) : Bool :=
  if i < 2 then 'A' ≤ c && c ≤ 'R'
  else if i % 4 < 2 then 'a' ≤ c && c ≤ 'x'
  else '0' ≤ c && c ≤ '9'

/-- A canonical-form locator: length in {2,4,6,8,10} and every character in
the canonical alphabet/case for its position. -/
def canonicalLocator (s : String) : Bool :=
  (s.length = 2 || s.length = 4 || s.length = 6 || s.length = 8
      || s.length = 10)
    && s.data.enum.all fun p => canonicalGridChar p.1 p.2

/-! ## Helper lemmas

`Rat`'s arithmetic operations are `@[irreducible]` in Batteries; the
`attribute [local semireducible] ... in` prefixes below restore default
transparency for individual closed evaluations so that `decide` can reduce
the (fully executable) definitions inside the kernel. -/

theorem char_toNat_ofNat (n : ℕ) (h : n < 55296) : (Char.ofNat n).toNat = n := by
  have hv : n.isValidChar := Or.inl h
  simp [Char.ofNat, dif_pos hv, Char.ofNatAux, Char.toNat, UInt32.toNat,
    BitVec.toNat_ofNatLt]

theorem char_ofNat_toNat (c : Char) : Char.ofNat c.toNat = c := by
  have hv : c.toNat.isValidChar := c.valid
  apply Char.eq_of_val_eq
  rw [Char.ofNat, dif_pos hv]
  apply UInt32.eq_of_toBitVec_eq
  apply BitVec.eq_of_toNat_eq
  simp [Char.ofNatAux, Char.toNat, UInt32.toNat, BitVec.toNat_ofNatLt]

theorem toUpper_of_lt (c : Char) (h : c.toNat < 97) : c.toUpper = c := by
  simp [Char.toUpper]
  omega

theorem toUpper_ofNat_lower (k : ℕ) (h : k < 26) :
    (Char.ofNat (97 + k)).toUpper = Char.ofNat (65 + k) := by
  have h1 : (Char.ofNat (97 + k)).toNat = 97 + k := char_toNat_ofNat _ (by omega)
  rw [Char.toUpper, h1]
  rw [if_pos (by omega)]
  congr 1
  omega

theorem range_flatMap_length {γ : Type} (n L : ℕ) (f : ℕ → List γ)
    (h : ∀ i < n, (f i).length = L) :
    ((List.range n).flatMap f).length = n * L := by
  induction n with
  | zero => simp
  | succ m ih =>
      rw [List.range_succ, List.flatMap_append]
      simp only [List.length_append, List.flatMap_cons, List.flatMap_nil,
        List.append_nil]
      rw [ih (fun i hi => h i (by omega)), h m (by omega)]
      ring

theorem range_flatMap_getD {γ : Type} (n L : ℕ) (f : ℕ → List γ) (d : γ)
    (q r : ℕ) (h : ∀ i < n, (f i).length = L) (hq : q < n) (hr : r < L) :
    ((List.range n).flatMap f).getD (q * L + r) d = (f q).getD r d := by
  induction n with
  | zero => omega
  | succ m ih =>
      rw [List.range_succ, List.flatMap_append]
      simp only [List.flatMap_cons, List.flatMap_nil, List.append_nil]
      have hlen : ((List.range m).flatMap f).length = m * L :=
        range_flatMap_length m L f (fun i hi => h i (by omega))
      rcases Nat.lt_or_ge q m with hqm | hqm
      · rw [List.getD_append _ _ _ _ (by rw [hlen]; nlinarith)]
        exact ih (fun i hi => h i (by omega)) hqm
      · have hqm' : q = m := by omega
        subst hqm'
        rw [List.getD_append_right _ _ _ _ (by rw [hlen]; nlinarith)]
        congr 1
        omega

theorem range_flatMap_slice {γ : Type} (n L : ℕ) (f : ℕ → List γ) (i : ℕ)
    (h : ∀ j < n, (f j).length = L) (hi : i < n) :
    (((List.range n).flatMap f).drop (i * L)).take L = f i := by
  induction n with
  | zero => omega
  | succ m ih =>
      rw [List.range_succ, List.flatMap_append]
      simp only [List.flatMap_cons, List.flatMap_nil, List.append_nil]
      have hlen : ((List.range m).flatMap f).length = m * L :=
        range_flatMap_length m L f (fun j hj => h j (by omega))
      rcases Nat.lt_or_ge i m with him | him
      · rw [List.drop_append_of_le_length (by rw [hlen]; nlinarith)]
        rw [List.take_append_of_le_length]
        · exact ih (fun j hj => h j (by omega)) him
        · rw [List.length_drop, hlen]
          have h1 : i * L + L ≤ m * L := by nlinarith
          omega
      · have him' : i = m := by omega
        subst him'
        rw [show i * L = ((List.range i).flatMap f).length by rw [hlen],
          List.drop_left]
        exact List.take_of_length_le (by rw [h i (by omega)])

/-! ## C9 — radial sampler contract -/

attribute [local semireducible] Rat.add Rat.mul Rat.inv Rat.sub in
/-- C9, counterexample: with `maxDistanceKm = -10` and `intervalKm = -1` the
sampler does not reject the negative inputs — it silently produces
`Math.floor((-10)/(-1)) = 10` output points (at negative distances
`-1, -2, …`), so negative distances/intervals are not "rejected as
input-validation failures rather than producing output". -/
theorem getElevationSamplePoints_no_validation :
    (getElevationSamplePoints trigZero ⟨0, 0⟩ 0 (-10) (-1)).length = 10
      ∧ (getElevationSamplePoints trigZero ⟨0, 0⟩ 0 (-10) (-1)).getD 0 ⟨0, 0⟩
          = calculatePointAtBearing trigZero ⟨0, 0⟩ 0 (-1) := by
  constructor
  · decide
  · decide

/-- C9 (amended): for every trig interpretation, origin, bearing and every
`maxDistanceKm`, `intervalKm`, the sampler returns an ordered sequence of
exactly `(⌊maxDistanceKm / intervalKm⌋).toNat` points whose `i`-th (0-based)
entry is the destination point at distance `(i+1)·intervalKm` along the
bearing.  No input validation occurs: a negative step count just yields the
empty list. -/
theorem getElevationSamplePoints_spec (T : TrigOps) (origin : LatLng)
    (bearing maxD intD : ℚ) :
    (getElevationSamplePoints T origin bearing maxD intD).length
        = (⌊maxD / intD⌋).toNat
      ∧ ∀ i, i < (⌊maxD / intD⌋).toNat →
        (getElevationSamplePoints T origin bearing maxD intD).getD i ⟨0, 0⟩
          = calculatePointAtBearing T origin bearing ((i + 1 : ℕ) * intD) := by
  constructor
  · simp [getElevationSamplePoints]
  · intro i hi
    rw [List.getD_eq_getElem _ _ (by simpa [getElevationSamplePoints] using hi)]
    simp [getElevationSamplePoints]

attribute [local semireducible] Rat.add Rat.mul Rat.inv Rat.sub in
/-- C9 witness: the amended theorem applied at a concrete sampler call
(`max = 3 km`, `interval = 1 km`, second sample at distance 2 km). -/
theorem getElevationSamplePoints_spec_witness :
    (getElevationSamplePoints trigZero ⟨0, 0⟩ 0 3 1).getD 1 ⟨0, 0⟩
      = calculatePointAtBearing trigZero ⟨0, 0⟩ 0 ((1 + 1 : ℕ) * 1) :=
  (getElevationSamplePoints_spec trigZero ⟨0, 0⟩ 0 3 1).2 1 (by decide)

/-! ## C10 — flattened sample points and the per-bearing slicing invariant -/

theorem getElevationSamplePoints_default_length (T : TrigOps) (origin : LatLng)
    (bearing : ℚ) :
    (getElevationSamplePoints T origin bearing).length = 300 := by
  simp [getElevationSamplePoints]
  norm_num [MAX_DISTANCE_KM, SAMPLE_INTERVAL_KM]
  rfl

theorem flattenSamplePoints_points_eq (T : TrigOps) (origin : LatLng) :
    (flattenSamplePoints T origin).points
      = (List.range 720).flatMap fun i =>
          getElevationSamplePoints T origin ((i : ℚ) * (360 / 720)) := by
  simp [flattenSamplePoints, NUM_RADIALS]

theorem flattenSamplePoints_indexMap_eq (T : TrigOps) (origin : LatLng) :
    (flattenSamplePoints T origin).indexMap
      = (List.range 720).flatMap fun i =>
          (List.range
            (getElevationSamplePoints T origin ((i : ℚ) * (360 / 720))).length).map
            fun j => (((i : ℚ) * (360 / 720) : ℚ), j) := by
  simp [flattenSamplePoints, NUM_RADIALS]

attribute [local semireducible] Rat.add Rat.mul Rat.inv Rat.sub in
/-- C10 (confirmed): `flattenSamplePoints` returns exactly
`numRadials · pointsPerBearing = 720 · 300` points (and index-map entries);
for every flat index `k` the index-map entry is
`(bearing, sampleIndex) = ((k / 300) · (360/720), k % 300)`; and the
contiguous slice `[i·300, (i+1)·300)` of the flat point list is exactly
bearing `i · (360/720)`'s sample sequence in increasing-distance order —
the invariant `useCoverage.calculateCoverage`'s per-bearing slicing of the
fetched elevations relies on. -/
theorem flattenSamplePoints_spec (T : TrigOps) (origin : LatLng) :
    (flattenSamplePoints T origin).numRadials = 720
      ∧ (flattenSamplePoints T origin).pointsPerBearing = 300
      ∧ (flattenSamplePoints T origin).points.length = 720 * 300
      ∧ (flattenSamplePoints T origin).indexMap.length = 720 * 300
      ∧ (∀ k, k < 720 * 300 →
          (flattenSamplePoints T origin).indexMap.getD k (0, 0)
            = (((k / 300 : ℕ) : ℚ) * (360 / 720), k % 300))
      ∧ ∀ i, i < 720 →
          ((flattenSamplePoints T origin).points.drop (i * 300)).take 300
            = getElevationSamplePoints T origin ((i : ℚ) * (360 / 720)) := by
  refine ⟨rfl, rfl, ?_, ?_, ?_, ?_⟩
  · rw [flattenSamplePoints_points_eq]
    exact range_flatMap_length 720 300 _
      (fun i _ => getElevationSamplePoints_default_length T origin _)
  · rw [flattenSamplePoints_indexMap_eq]
    exact range_flatMap_length 720 300 _
      (fun i _ => by simp [getElevationSamplePoints_default_length T origin])
  · intro k hk
    rw [flattenSamplePoints_indexMap_eq]
    have hdecomp : k = (k / 300) * 300 + k % 300 := by omega
    conv_lhs => rw [hdecomp]
    rw [range_flatMap_getD 720 300 _ _ (k / 300) (k % 300)
      (fun i _ => by simp [getElevationSamplePoints_default_length T origin])
      (by omega) (by omega)]
    rw [List.getD_eq_getElem _ _ (by
      simp [getElevationSamplePoints_default_length T origin]
      omega)]
    simp
  · intro i hi
    rw [flattenSamplePoints_points_eq]
    exact range_flatMap_slice 720 300 _ i
      (fun j _ => getElevationSamplePoints_default_length T origin _) hi

/-- C10 witness: the theorem applied at a concrete trig interpretation and
origin, reading the index-map entry at flat index 301 (bearing index 1,
sample index 1) and the slice of bearing index 1. -/
theorem flattenSamplePoints_spec_witness :
    (flattenSamplePoints trigZero ⟨0, 0⟩).indexMap.getD 301 (0, 0)
        = (((301 / 300 : ℕ) : ℚ) * (360 / 720), 301 % 300)
      ∧ ((flattenSamplePoints trigZero ⟨0, 0⟩).points.drop (1 * 300)).take 300
          = getElevationSamplePoints trigZero ⟨0, 0⟩ ((1 : ℚ) * (360 / 720)) :=
  ⟨(flattenSamplePoints_spec trigZero ⟨0, 0⟩).2.2.2.2.1 301 (by decide),
    (flattenSamplePoints_spec trigZero ⟨0, 0⟩).2.2.2.2.2 1 (by decide)⟩

/-! ## Pipeline lemmas -/

theorem chunkList_flatten (n : ℕ) (l : List α) : (chunkList n l).flatten = l := by
  generalize hm : l.length = m
  induction m using Nat.strong_induction_on generalizing l with
  | _ m ih =>
    rw [chunkList]
    by_cases h1 : l.isEmpty
    · simp only [h1, if_true, List.flatten_nil]
      exact (List.isEmpty_iff.mp h1).symm
    · by_cases h2 : n = 0
      · simp [h1, h2]
      · simp only [h1, h2, if_false, Bool.false_eq_true, List.flatten_cons]
        rw [ih (l.drop n).length (by
          subst hm
          cases l with
          | nil => simp at h1
          | cons a t => simp; omega) _ rfl]
        exact List.take_append_drop n l

theorem chunkList_cons_eq (n : ℕ) (l : List α) (hn : n ≠ 0) (hl : l ≠ []) :
    chunkList n l = l.take n :: chunkList n (l.drop n) := by
  rw [chunkList]
  simp [hl, hn]

theorem mapM_ok_of_all {γ δ : Type} (l : List γ) (F : γ → Except String δ)
    (g : γ → δ) (h : ∀ x ∈ l, F x = .ok (g x)) : l.mapM F = .ok (l.map g) := by
  induction l with
  | nil => simp; rfl
  | cons a t ih =>
      rw [List.mapM_cons, h a (by simp)]
      rw [ih (fun x hx => h x (by simp [hx]))]
      rfl

theorem range_map_getD {γ : Type} (l : List γ) (d : γ) :
    (List.range l.length).map (fun i => l.getD i d) = l := by
  apply List.ext_getElem
  · simp
  · intro i h1 h2
    simp [List.getD_eq_getElem, List.getElem?_eq_getElem, h2]

theorem lookup_map_key {β : Type} (order : List ℕ) (f : ℕ → β) (i : ℕ)
    (h : i ∈ order) :
    (order.map fun j => (j, f j)).lookup i = some (f i) := by
  induction order with
  | nil => cases h
  | cons a t ih =>
      simp only [List.map_cons, List.lookup_cons]
      by_cases hai : i = a
      · subst hai; simp
      · have hba : (i == a) = false := by simpa using hai
        rw [hba]
        rcases List.mem_cons.mp h with h1 | h1
        · exact absurd h1 hai
        · exact ih h1

theorem resolveGroup_ok {α β : Type} (F : List α → List β)
    (group : List (List α)) (order : List ℕ)
    (hperm : order.Perm (List.range group.length)) :
    resolveGroup (fun b => .ok (F b)) group order = .ok (group.map F) := by
  unfold resolveGroup
  dsimp only
  have hmem : ∀ i, i < group.length → i ∈ order := fun i hi =>
    hperm.mem_iff.mpr (List.mem_range.mpr hi)
  have hlook : ∀ i ∈ List.range group.length,
      (match (order.map fun j =>
          (j, (Except.ok (F (group.getD j [])) : Except String (List β)))).lookup i with
        | some r => r
        | none => Except.error "missing batch")
        = Except.ok (F (group.getD i [])) := by
    intro i hi
    rw [lookup_map_key order _ i (hmem i (List.mem_range.mp hi))]
  refine (mapM_ok_of_all _ _ (fun i => F (group.getD i [])) hlook).trans ?_
  congr 1
  have hgd := range_map_getD group ([] : List α)
  calc (List.range group.length).map (fun i => F (group.getD i []))
      = ((List.range group.length).map (fun i => group.getD i [])).map F := by
        rw [List.map_map]
        rfl
    _ = group.map F := by rw [hgd]

theorem throttling_aux_ok {α β : Type} (F : List α → List β)
    (signal : ℕ → Bool) (orders : ℕ → List ℕ) :
    ∀ (groups : List (List (List α))) (g : ℕ) (acc : List β),
    (∀ j, j < groups.length → signal (g + j) = false) →
    (∀ j, j < groups.length →
      (orders (g + j)).Perm (List.range ((groups.getD j []).length))) →
    getElevationsWithThrottlingAux (fun b => .ok (F b)) signal orders groups g acc
      = (.ok (acc ++ (groups.flatten.map F).flatten), g + groups.length) := by
  intro groups
  induction groups with
  | nil => intro g acc _ _; simp [getElevationsWithThrottlingAux]
  | cons gr rest ih =>
      intro g acc hsig hord
      rw [getElevationsWithThrottlingAux]
      have h0 : signal g = false := by simpa using hsig 0 (by simp)
      rw [h0, if_neg (by simp)]
      rw [resolveGroup_ok F gr (orders g) (by simpa using hord 0 (by simp))]
      dsimp only
      rw [ih (g + 1) (acc ++ (gr.map F).flatten)
        (fun j hj => by rw [show g + 1 + j = g + (j + 1) by omega]
                        exact hsig (j + 1) (by simpa using hj))
        (fun j hj => by rw [show g + 1 + j = g + (j + 1) by omega]
                        simpa using hord (j + 1) (by simpa using hj))]
      simp only [List.flatten_cons, List.map_append, List.flatten_append,
        List.append_assoc]
      congr 1
      simp only [List.length_cons]
      omega

theorem throttling_aux_cancel {α β : Type} (F : List α → List β)
    (signal : ℕ → Bool) (orders : ℕ → List ℕ) :
    ∀ (k : ℕ) (groups : List (List (List α))) (g : ℕ) (acc : List β),
    k < groups.length →
    signal (g + k) = true →
    (∀ j, j < k → signal (g + j) = false) →
    (∀ j, j < k →
      (orders (g + j)).Perm (List.range ((groups.getD j []).length))) →
    getElevationsWithThrottlingAux (fun b => .ok (F b)) signal orders groups g acc
      = (.cancelled, g + k) := by
  intro k
  induction k with
  | zero =>
      intro groups g acc hk hsig _ _
      cases groups with
      | nil => simp at hk
      | cons gr rest =>
          rw [getElevationsWithThrottlingAux]
          have h0 : signal g = true := by simpa using hsig
          rw [h0]
          simp
  | succ m ih =>
      intro groups g acc hk hsig hbefore hord
      cases groups with
      | nil => simp at hk
      | cons gr rest =>
          rw [getElevationsWithThrottlingAux]
          have h0 : signal g = false := by simpa using hbefore 0 (by omega)
          rw [h0, if_neg (by simp)]
          rw [resolveGroup_ok F gr (orders g) (by simpa using hord 0 (by omega))]
          dsimp only
          rw [ih rest (g + 1) (acc ++ (gr.map F).flatten)
            (by simpa using hk)
            (by rw [show g + 1 + m = g + (m + 1) by omega]; exact hsig)
            (fun j hj => by rw [show g + 1 + j = g + (j + 1) by omega]
                            exact hbefore (j + 1) (by omega))
            (fun j hj => by rw [show g + 1 + j = g + (j + 1) by omega]
                            simpa using hord (j + 1) (by omega))]
          congr 1
          omega

theorem resolveGroup_first_error {α β : Type}
    (provider : List α → Except String (List β)) (group : List (List α))
    (order : List ℕ) (e : String) (hne : group ≠ []) (h0 : 0 ∈ order)
    (herr : provider (group.getD 0 []) = .error e) :
    resolveGroup provider group order = .error e := by
  unfold resolveGroup
  dsimp only
  cases group with
  | nil => exact absurd rfl hne
  | cons b rest =>
      rw [List.length_cons, List.range_succ_eq_map, List.mapM_cons]
      rw [lookup_map_key order (fun j => provider ((b :: rest).getD j [])) 0 h0]
      simp only [List.getD_cons_zero] at herr ⊢
      rw [herr]
      rfl

/-! ## C3 — cancellation at a group boundary -/

/-- C3 (confirmed): if the cancellation token is signalled at group boundary
`k` inside the fetch loop (and not before), the pipeline stops there — only
the `k` groups before the boundary were dispatched — and terminates in the
`cancelled` state, which the caller maps to "no error message, no stored
result".  (`provider`/`orders` describe an otherwise-successful fetch: every
batch resolves, and each group's completion order is a permutation of its
indices.) -/
theorem getElevationsWithThrottling_cancelled {α β : Type}
    (F : List α → List β) (signal : ℕ → Bool) (orders : ℕ → List ℕ)
    (points : List α) (k : ℕ)
    (hk : k < (chunkList MAX_CONCURRENT_REQUESTS (chunkList BATCH_SIZE points)).length)
    (hsig : signal k = true)
    (hbefore : ∀ j, j < k → signal j = false)
    (hord : ∀ j, j < k → (orders j).Perm (List.range
      (((chunkList MAX_CONCURRENT_REQUESTS (chunkList BATCH_SIZE points)).getD j []).length))) :
    getElevationsWithThrottling (fun b => .ok (F b)) signal orders points
        = (.cancelled, k)
      ∧ coverageOutcome
          (getElevationsWithThrottling (fun b => .ok (F b)) signal orders points).1
        = (none, false) := by
  have h := throttling_aux_cancel F signal orders k
    (chunkList MAX_CONCURRENT_REQUESTS (chunkList BATCH_SIZE points)) 0 []
    hk (by simpa using hsig) (fun j hj => by simpa using hbefore j hj)
    (fun j hj => by simpa using hord j hj)
  unfold getElevationsWithThrottling
  rw [h]
  simp [coverageOutcome]

/-- C3 witness: one point, one batch, one group; the signal is already
aborted at the first boundary. -/
theorem getElevationsWithThrottling_cancelled_witness :
    getElevationsWithThrottling (α := ℕ) (β := ℕ)
        (fun b => .ok (id b)) (fun _ => true) (fun _ => [0]) [7]
        = (.cancelled, 0)
      ∧ coverageOutcome
          (getElevationsWithThrottling (α := ℕ) (β := ℕ)
            (fun b => .ok (id b)) (fun _ => true) (fun _ => [0]) [7]).1
        = (none, false) :=
  getElevationsWithThrottling_cancelled id (fun _ => true) (fun _ => [0]) [7] 0
    (by simp [chunkList, BATCH_SIZE, MAX_CONCURRENT_REQUESTS])
    (by decide) (fun j hj => absurd hj (by omega))
    (fun j hj => absurd hj (by omega))

/-! ## C4 — ordering and determinism of the fetch pipeline -/

/-- C4 (confirmed): with a deterministic provider that returns one elevation
per input point in request order, the pipeline's flattened output equals the
input list mapped pointwise — flattened output order exactly matches input
order — for *every* assignment of per-group completion orders (each a
permutation of the group's batch indices); consequently two runs with
different completion orders produce identical outputs. -/
theorem getElevationsWithThrottling_deterministic {α β : Type}
    (points : List α) (e : α → β) (orders orders' : ℕ → List ℕ)
    (hord : ∀ j, j < (chunkList MAX_CONCURRENT_REQUESTS (chunkList BATCH_SIZE points)).length →
      (orders j).Perm (List.range
        (((chunkList MAX_CONCURRENT_REQUESTS (chunkList BATCH_SIZE points)).getD j []).length)))
    (hord' : ∀ j, j < (chunkList MAX_CONCURRENT_REQUESTS (chunkList BATCH_SIZE points)).length →
      (orders' j).Perm (List.range
        (((chunkList MAX_CONCURRENT_REQUESTS (chunkList BATCH_SIZE points)).getD j []).length))) :
    getElevationsWithThrottling (fun b => .ok (b.map e)) (fun _ => false) orders points
        = (.ok (points.map e),
          (chunkList MAX_CONCURRENT_REQUESTS (chunkList BATCH_SIZE points)).length)
      ∧ getElevationsWithThrottling (fun b => .ok (b.map e)) (fun _ => false) orders points
        = getElevationsWithThrottling (fun b => .ok (b.map e)) (fun _ => false) orders' points := by
  have key : ∀ (os : ℕ → List ℕ),
      (∀ j, j < (chunkList MAX_CONCURRENT_REQUESTS (chunkList BATCH_SIZE points)).length →
        (os j).Perm (List.range
          (((chunkList MAX_CONCURRENT_REQUESTS (chunkList BATCH_SIZE points)).getD j []).length))) →
      getElevationsWithThrottling (fun b => .ok (b.map e)) (fun _ => false) os points
        = (.ok (points.map e),
          (chunkList MAX_CONCURRENT_REQUESTS (chunkList BATCH_SIZE points)).length) := by
    intro os hos
    have h := throttling_aux_ok (fun b => b.map e) (fun _ => false) os
      (chunkList MAX_CONCURRENT_REQUESTS (chunkList BATCH_SIZE points)) 0 []
      (fun j _ => rfl) (fun j hj => by simpa using hos j hj)
    unfold getElevationsWithThrottling
    rw [h]
    rw [chunkList_flatten]
    rw [← List.map_flatten, chunkList_flatten]
    simp
  exact ⟨key orders hord, (key orders hord).trans (key orders' hord').symm⟩

/-- C4 witness: three points (one batch, one group), two different completion
orders. -/
theorem getElevationsWithThrottling_deterministic_witness :
    getElevationsWithThrottling (α := ℕ) (β := ℕ)
        (fun b => .ok (b.map Nat.succ)) (fun _ => false) (fun _ => [0]) [3, 1, 2]
        = (.ok ([3, 1, 2].map Nat.succ),
          (chunkList MAX_CONCURRENT_REQUESTS (chunkList BATCH_SIZE [3, 1, 2])).length) :=
  (getElevationsWithThrottling_deterministic [3, 1, 2] Nat.succ
    (fun _ => [0]) (fun _ => [0])
    (by intro j hj
        simp [chunkList, BATCH_SIZE, MAX_CONCURRENT_REQUESTS] at hj
        subst hj
        simp [chunkList, BATCH_SIZE, MAX_CONCURRENT_REQUESTS]
        decide)
    (by intro j hj
        simp [chunkList, BATCH_SIZE, MAX_CONCURRENT_REQUESTS] at hj
        subst hj
        simp [chunkList, BATCH_SIZE, MAX_CONCURRENT_REQUESTS]
        decide)).1

/-! ## C5 — 429 retry with exponential backoff, fatal past the ceiling -/

theorem getElevationBatchAux_429 {β : Type} (fetchResp : ℕ → ApiResponse β)
    (h : ∀ i, i ≤ MAX_RETRIES → (fetchResp i).status = 429) :
    getElevationBatchAux fetchResp 0
      = (.error ("Elevation API error: 429 " ++ (fetchResp MAX_RETRIES).statusText),
        [BASE_DELAY_MS, 2 * BASE_DELAY_MS, 4 * BASE_DELAY_MS]) := by
  rw [getElevationBatchAux, getElevationBatchAux, getElevationBatchAux,
    getElevationBatchAux]
  simp only [h 0 (by norm_num [MAX_RETRIES]), h 1 (by norm_num [MAX_RETRIES]),
    h 2 (by norm_num [MAX_RETRIES]), h 3 (by norm_num [MAX_RETRIES]),
    MAX_RETRIES, BASE_DELAY_MS, respOk]
  norm_num
  show "Elevation API error: " ++ toString (429 : ℕ) ++ " " ++ (fetchResp 3).statusText
    = "Elevation API error: 429 " ++ (fetchResp 3).statusText
  rfl

theorem throttling_first_batch_error {α β : Type}
    (provider : List α → Except String (List β)) (signal : ℕ → Bool)
    (orders : ℕ → List ℕ) (points : List α) (e : String)
    (hsig : signal 0 = false) (hpts : points ≠ []) (hord0 : 0 ∈ orders 0)
    (herr : provider (points.take BATCH_SIZE) = .error e) :
    getElevationsWithThrottling provider signal orders points = (.error e, 1) := by
  unfold getElevationsWithThrottling
  dsimp only
  rw [chunkList_cons_eq BATCH_SIZE points (by norm_num [BATCH_SIZE]) hpts]
  rw [chunkList_cons_eq MAX_CONCURRENT_REQUESTS _
    (by norm_num [MAX_CONCURRENT_REQUESTS]) (by simp)]
  rw [getElevationsWithThrottlingAux, hsig, if_neg (by simp)]
  rw [resolveGroup_first_error provider _ (orders 0) e
    (by simp [MAX_CONCURRENT_REQUESTS]) hord0
    (by simpa [MAX_CONCURRENT_REQUESTS] using herr)]

/-- C5 (confirmed): when every attempt of a batch request is answered with
HTTP 429, the request is retried `MAX_RETRIES = 3` times with exponential
backoff — the slept delays are `1000, 2000, 4000` ms, the base delay doubling
on each attempt — after which the batch fails with the rate-limit error; and
that error is surfaced as the outcome of the whole pipeline (no partial
result is returned). -/
theorem rateLimit_retry_exhaustion {α β : Type} (fetchResp : ℕ → ApiResponse β)
    (locations : List α) (points : List α) (orders : ℕ → List ℕ)
    (h429 : ∀ i, i ≤ MAX_RETRIES → (fetchResp i).status = 429)
    (hloc : locations ≠ []) (hpts : points ≠ []) (hord0 : 0 ∈ orders 0) :
    getElevationBatch fetchResp locations
        = (.error ("Elevation API error: 429 " ++ (fetchResp MAX_RETRIES).statusText),
          [BASE_DELAY_MS, 2 * BASE_DELAY_MS, 4 * BASE_DELAY_MS])
      ∧ getElevationsWithThrottling
            (fun locs => (getElevationBatch fetchResp locs).1)
            (fun _ => false) orders points
          = (.error ("Elevation API error: 429 " ++ (fetchResp MAX_RETRIES).statusText), 1) := by
  have hbatch : ∀ (l : List α), l ≠ [] → getElevationBatch fetchResp l
      = (.error ("Elevation API error: 429 " ++ (fetchResp MAX_RETRIES).statusText),
        [BASE_DELAY_MS, 2 * BASE_DELAY_MS, 4 * BASE_DELAY_MS]) := by
    intro l hl
    unfold getElevationBatch
    rw [if_neg (by simpa [List.isEmpty_iff] using hl)]
    exact getElevationBatchAux_429 fetchResp h429
  refine ⟨hbatch locations hloc, ?_⟩
  exact throttling_first_batch_error _ _ orders points _ rfl hpts hord0
    (by rw [hbatch (points.take BATCH_SIZE) (by
          cases points with
          | nil => exact absurd rfl hpts
          | cons a t => simp [BATCH_SIZE])])

/-- C5 witness: a mock that always answers 429; one location, one point. -/
theorem rateLimit_retry_exhaustion_witness :
    getElevationBatch (α := ℕ) (β := ℕ)
        (fun _ => ⟨429, "Too Many Requests", none⟩) [5]
        = (.error ("Elevation API error: 429 Too Many Requests"),
          [BASE_DELAY_MS, 2 * BASE_DELAY_MS, 4 * BASE_DELAY_MS])
      ∧ getElevationsWithThrottling
            (fun locs => (getElevationBatch (α := ℕ) (β := ℕ)
              (fun _ => ⟨429, "Too Many Requests", none⟩) locs).1)
            (fun _ => false) (fun _ => [0]) [5]
          = (.error ("Elevation API error: 429 Too Many Requests"), 1) :=
  rateLimit_retry_exhaustion (fun _ => ⟨429, "Too Many Requests", none⟩)
    [5] [5] (fun _ => [0]) (fun i _ => rfl) (by decide) (by decide) (by decide)

/-! ## C2 — monotonically rising profile -/

attribute [local semireducible] Rat.add Rat.mul Rat.inv Rat.sub in
/-- C2, counterexample: the monotonically increasing profile `[100, 200]`
(observer ground elevation 0, antenna 5 m, 1 km spacing) has *both* samples
visible — the second sample's elevation angle exceeds the first's, so it
clears the running horizon — whereas the claim says the visible set is
exactly the first sample.  `calculateLOSDistance` agrees (LOS distance 2, not
1). -/
theorem risingSlope_not_first_only :
    (calculateVisiblePoints 0 5 [100, 200] 1).1 = [1, 2]
      ∧ (calculateVisiblePoints 0 5 [100, 200] 1).1 ≠ [1]
      ∧ calculateLOSDistance 0 5 [100, 200] 1 = 2 :=
  ⟨by decide, by decide, by decide⟩

theorem visStep_foldl_head (oh iv : ℚ) :
    ∀ (l : List (ℕ × ℚ)) (st : List ℚ × Option ℚ), st.1 ≠ [] →
      (l.foldl (visStep oh iv) st).1.head? = st.1.head? := by
  intro l
  induction l with
  | nil => intro st _; rfl
  | cons p rest ih =>
      intro st h
      rw [List.foldl_cons]
      have hstep : (visStep oh iv st p).1.head? = st.1.head?
          ∧ (visStep oh iv st p).1 ≠ [] := by
        unfold visStep
        cases hst : st.2 with
        | none =>
            dsimp only
            cases hl : st.1 with
            | nil => exact absurd hl h
            | cons x xs => simp
        | some m =>
            dsimp only
            by_cases hc : m ≤ terrainSlope oh iv p.2 p.1
            · rw [if_pos hc]
              cases hl : st.1 with
              | nil => exact absurd hl h
              | cons x xs => simp
            · rw [if_neg hc]
              exact ⟨rfl, h⟩
      rw [ih _ hstep.2, hstep.1]

/-- C2 (amended): for every non-empty monotonically increasing profile the
*first* sample is always visible (it heads the visible list); farther samples
are not necessarily occluded — see the counterexample, where a rising slope
makes every sample visible.  The "exactly the first sample" behaviour only
occurs when every later elevation angle stays strictly below the running
maximum. -/
theorem risingSlope_first_visible (observerElevation antennaHeight : ℚ)
    (profile : List ℚ) (intervalKm : ℚ) (hne : profile ≠ [])
    (hmono : profile.Chain' (· < ·)) :
    (calculateVisiblePoints observerElevation antennaHeight profile
        intervalKm).1.head? = some intervalKm := by
  unfold calculateVisiblePoints
  dsimp only
  cases profile with
  | nil => exact absurd rfl hne
  | cons a t =>
      rw [List.enum_cons, List.foldl_cons]
      rw [visStep_foldl_head _ _ _ _ (by
        unfold visStep
        dsimp only
        simp)]
      unfold visStep
      dsimp only
      norm_num

/-- C2 witness: the amended theorem applied to the rising profile
`[100, 200]`. -/
theorem risingSlope_first_visible_witness :
    ([100, 200] : List ℚ) ≠ []
      ∧ ([100, 200] : List ℚ).Chain' (· < ·)
      ∧ (calculateVisiblePoints 0 5 [100, 200] 1).1.head? = some 1 :=
  ⟨by decide, by norm_num [List.chain'_cons, List.chain'_singleton],
    risingSlope_first_visible 0 5 [100, 200] 1 (by decide)
      (by norm_num [List.chain'_cons, List.chain'_singleton])⟩

/-! ## C1 — flat profile is horizon-limited, not range-limited -/

attribute [local semireducible] Rat.add Rat.mul Rat.inv Rat.sub in
set_option maxRecDepth 100000 in
/-- C1, counterexample: with the flat all-zero 300-sample profile at 1 km
spacing and antenna height 25 m, an observer ground elevation of 40 m (the
approximate terrain elevation at (41.0082, 28.9784)) gives a maximum LOS
distance of 33 km — the K-corrected radio horizon — not the configured
maximum range 300 km. -/
theorem flatProfile_at_40m_is_33km :
    calculateLOSDistance 40 25 (List.replicate 300 0) 1 = 33
      ∧ calculateLOSDistance 40 25 (List.replicate 300 0) 1 ≠ 300 := by
  constructor
  · decide
  · decide

theorem enum_replicate {γ : Type} (n : ℕ) (a : γ) :
    (List.replicate n a).enum = (List.range n).map fun i => (i, a) := by
  apply List.ext_getElem
  · simp
  · intro i h1 h2
    simp

/-- The slope of the elevation angle for a zero-elevation sample at index
`i` (distance `i+1` km), as an explicit rational function. -/
theorem terrainSlope_flat_eval (H : ℚ) (i : ℕ) :
    terrainSlope H 1 0 i
      = -((375 : ℚ) / 6371 * ((i : ℚ) + 1) ^ 2 + H) / (((i : ℚ) + 1) * 1000) := by
  unfold terrainSlope calculateEarthCurvatureDrop K_FACTOR EARTH_RADIUS_KM
  have hpos : ((i : ℚ) + 1) ≠ 0 := by positivity
  field_simp
  ring

theorem terrainSlope_flat_lt_260 (H : ℚ) (hH : H ≤ 4525) (i : ℕ)
    (hi : i = 298 ∨ i = 299) :
    terrainSlope H 1 0 i < terrainSlope H 1 0 260 := by
  rcases hi with hi | hi <;> subst hi <;>
    rw [terrainSlope_flat_eval, terrainSlope_flat_eval] <;>
    rw [div_lt_div_iff₀ (by norm_num) (by norm_num)] <;>
    push_cast <;> nlinarith

/-- Invariant of the horizon fold over the all-zero profile: after `n`
samples the last visible distance is at most `n`, and (for `n > 0`) the
cumulative maximum angle slope dominates all processed slopes. -/
theorem losStep_eval (H iv : ℚ) (st : ℚ × Option ℚ) (p : ℕ × ℚ) :
    losStep H iv st p = match st.2 with
      | none => (((p.1 : ℚ) + 1) * iv, some (terrainSlope H iv p.2 p.1))
      | some m => if m ≤ terrainSlope H iv p.2 p.1
          then (((p.1 : ℚ) + 1) * iv, some (terrainSlope H iv p.2 p.1))
          else st := rfl

/-- Invariant of the horizon fold over the all-zero profile: after `n`
samples the last visible distance is at most `n`, and (for `n > 0`) the
cumulative maximum angle slope dominates all processed slopes. -/
theorem losFold_zero_inv (H : ℚ) (n : ℕ) :
    (((List.range n).map fun i => (i, (0 : ℚ))).foldl (losStep H 1) (0, none)).1
        ≤ (n : ℚ)
      ∧ (∀ M, (((List.range n).map fun i => (i, (0 : ℚ))).foldl (losStep H 1)
            (0, none)).2 = some M → ∀ j, j < n → terrainSlope H 1 0 j ≤ M)
      ∧ (0 < n → ∃ M, (((List.range n).map fun i => (i, (0 : ℚ))).foldl
            (losStep H 1) (0, none)).2 = some M) := by
  induction n with
  | zero =>
      refine ⟨by norm_num [List.foldl_nil], ?_, by omega⟩
      intro M hM
      simp [List.foldl_nil] at hM
  | succ m ih =>
      obtain ⟨ih1, ih2, ih3⟩ := ih
      rw [List.range_succ, List.map_append, List.foldl_append]
      simp only [List.map_cons, List.map_nil, List.foldl_cons, List.foldl_nil]
      rw [losStep_eval]
      rcases hst : (((List.range m).map fun i => (i, (0 : ℚ))).foldl (losStep H 1)
          (0, none)).2 with _ | M
      · -- cumulative max still `none`: no sample processed yet, so `m = 0`
        have hm0 : m = 0 := by
          by_contra hm
          obtain ⟨M, hM⟩ := ih3 (by omega)
          rw [hst] at hM
          cases hM
        subst hm0
        dsimp only
        refine ⟨by push_cast; norm_num, ?_, fun _ => ⟨_, rfl⟩⟩
        intro M hM j hj
        have hj0 : j = 0 := by omega
        subst hj0
        injection hM with hM'
        rw [← hM']
      · dsimp only
        by_cases hc : M ≤ terrainSlope H 1 0 m
        · rw [if_pos hc]
          refine ⟨by push_cast; norm_num, ?_, fun _ => ⟨_, rfl⟩⟩
          intro M' hM' j hj
          injection hM' with hM''
          rcases Nat.lt_or_ge j m with hjm | hjm
          · exact le_trans (ih2 M hst j hjm) (hM'' ▸ hc)
          · have hj' : j = m := by omega
            subst hj'
            rw [← hM'']
        · rw [if_neg hc]
          refine ⟨le_trans ih1 (by push_cast; norm_num), ?_, fun _ => ⟨M, hst⟩⟩
          intro M' hM' j hj
          rw [hst] at hM'
          injection hM' with hM''
          subst hM''
          rcases Nat.lt_or_ge j m with hjm | hjm
          · exact ih2 M hst j hjm
          · have hj' : j = m := by omega
            subst hj'
            exact le_of_lt (lt_of_not_le hc)

set_option maxRecDepth 10000 in
/-- C1 (amended): with the K = 4/3 curvature model, the flat all-zero
300-sample profile is *horizon-limited*, not range-limited: for every
fetched observer ground elevation `h ∈ [0, 4500]` m (any real terrain
elevation at (41.0082, 28.9784) — about 40 m — lies in this range) and
antenna height 25 m, `calculateLOSDistance` is strictly below the configured
maximum range 300 km, for every bearing (the result depends only on the
profile, which is the same on all bearings).  Reaching 300 km would require
an eye height above ≈ 4600 m. -/
theorem flatProfile_horizon_limited (h : ℚ) (h0 : 0 ≤ h) (h1 : h ≤ 4500) :
    calculateLOSDistance h 25 (List.replicate 300 0) 1 < 300 := by
  unfold calculateLOSDistance
  dsimp only
  rw [enum_replicate]
  obtain ⟨hle, hallM, hsome⟩ := losFold_zero_inv (h + 25) 298
  obtain ⟨M, hM⟩ := hsome (by norm_num)
  have h260 := hallM M hM 260 (by norm_num)
  have hH : h + 25 ≤ 4525 := by linarith
  have hs298 : terrainSlope (h + 25) 1 0 298 < M :=
    lt_of_lt_of_le (terrainSlope_flat_lt_260 (h + 25) hH 298 (Or.inl rfl)) h260
  have hs299 : terrainSlope (h + 25) 1 0 299 < M :=
    lt_of_lt_of_le (terrainSlope_flat_lt_260 (h + 25) hH 299 (Or.inr rfl)) h260
  have hr : List.range 300 = (List.range 298 ++ [298]) ++ [299] := by
    rw [← List.range_succ, ← List.range_succ]
  rw [hr, List.map_append, List.map_append, List.foldl_append, List.foldl_append]
  simp only [List.map_cons, List.map_nil, List.foldl_cons, List.foldl_nil]
  rw [losStep_eval (h + 25) 1
    (((List.range 298).map fun i => (i, (0 : ℚ))).foldl (losStep (h + 25) 1)
      (0, none)) (298, (0 : ℚ)), hM]
  dsimp only
  rw [if_neg (not_le.mpr hs298)]
  rw [losStep_eval, hM]
  dsimp only
  rw [if_neg (not_le.mpr hs299)]
  rw [if_neg (not_le.mpr (lt_of_le_of_lt hle (by norm_num [MAX_DISTANCE_KM])))]
  exact lt_of_le_of_lt hle (by norm_num)

/-- C1 witness: the amended theorem applied at ground elevation 40 m. -/
theorem flatProfile_horizon_limited_witness :
    (0 : ℚ) ≤ 40 ∧ (40 : ℚ) ≤ 4500
      ∧ calculateLOSDistance 40 25 (List.replicate 300 0) 1 < 300 :=
  ⟨by norm_num, by norm_num,
    flatProfile_horizon_limited 40 (by norm_num) (by norm_num)⟩

/-! ## C6 — locator validation on the decode path -/

theorem gridSquarePatternMatch_eq_locatorShape (cs : List Char) :
    gridSquarePatternMatch cs = locatorShape cs := by
  rcases cs with _ | ⟨c0, _ | ⟨c1, _ | ⟨c2, _ | ⟨c3, _ | ⟨c4, _ | ⟨c5, _ | ⟨c6,
    _ | ⟨c7, _ | ⟨c8, _ | ⟨c9, _ | ⟨c10, rest⟩⟩⟩⟩⟩⟩⟩⟩⟩⟩⟩ <;>
    simp [gridSquarePatternMatch, gsTail1, gsTail2, gsTail3, gsTail4,
      locatorShape, List.enum, List.enumFrom, Bool.and_assoc]

deriving instance DecidableEq for Except

attribute [local semireducible] Rat.add Rat.mul Rat.inv Rat.sub in
/-- C6, counterexample: `"ZZ"` — field letters beyond the Maidenhead field
range `A`–`R` — is accepted by the validator and decodes successfully, to
bounds *outside the world* (southwest latitude 160, longitude 320), even
though the claim requires an `InvalidLocator` failure for characters out of
the valid range for their position. -/
theorem decodeLocator_ZZ_accepted :
    decodeLocator "ZZ" = .ok ⟨⟨160, 320⟩, ⟨170, 340⟩, ⟨165, 330⟩⟩
      ∧ isValidGridSquare "ZZ" = true :=
  ⟨by decide, by decide⟩

/-- C6 (amended): the validated decode path fails with `InvalidLocator`
exactly when, after JS trimming, the input fails the length/character-class
shape: length in {2,4,6,8,10}, any-case ASCII letters at positions
0,1,4,5,8,9 and digits at positions 2,3,6,7.  Letters are *not* checked
against the tier's nominal range (`A`–`R`/`a`–`x`), so e.g. `"ZZ"` is
accepted.  When the shape holds, decoding succeeds with the bounds of the
trimmed locator. -/
theorem decodeLocator_spec (s : String) :
    (decodeLocator s = .error "InvalidLocator"
        ↔ locatorShape (jsTrim s.data) = false)
      ∧ (locatorShape (jsTrim s.data) = true →
          decodeLocator s = .ok (maidenheadToBounds ⟨jsTrim s.data⟩)) := by
  unfold decodeLocator isValidGridSquare
  rw [gridSquarePatternMatch_eq_locatorShape]
  by_cases hsh : locatorShape (jsTrim s.data) = true
  · simp [hsh]
  · simp [hsh]

/-! ## jsMod / floor arithmetic -/

theorem ratTrunc_nonneg (q : ℚ) (h : 0 ≤ q) : ratTrunc q = ⌊q⌋ := by
  unfold ratTrunc
  rw [if_neg (not_lt.mpr h)]

theorem jsMod_eq_floor (a b : ℚ) (ha : 0 ≤ a) (hb : 0 < b) :
    jsMod a b = a - b * ⌊a / b⌋ := by
  unfold jsMod
  rw [ratTrunc_nonneg _ (div_nonneg ha hb.le)]

theorem jsMod_bounds (a b : ℚ) (ha : 0 ≤ a) (hb : 0 < b) :
    0 ≤ jsMod a b ∧ jsMod a b < b := by
  rw [jsMod_eq_floor a b ha hb]
  constructor
  · have h1 : (⌊a / b⌋ : ℚ) ≤ a / b := Int.floor_le _
    have h2 : b * (⌊a / b⌋ : ℚ) ≤ b * (a / b) := by
      exact mul_le_mul_of_nonneg_left h1 hb.le
    rw [mul_div_cancel₀ _ (ne_of_gt hb)] at h2
    linarith
  · have h1 : a / b < ⌊a / b⌋ + 1 := Int.lt_floor_add_one _
    have h2 : a < b * (⌊a / b⌋ + 1) := by
      rw [← div_lt_iff₀' hb]
      exact h1
    nlinarith

theorem floor_mul_add (t : ℚ) (K : ℤ) (r : ℚ) (ht : 0 < t) (hr0 : 0 ≤ r)
    (hrt : r < t) : ⌊((K : ℚ) * t + r) / t⌋ = K := by
  rw [add_div, mul_div_cancel_right₀ _ (ne_of_gt ht)]
  rw [Int.floor_int_add]
  rw [Int.floor_eq_zero_iff.mpr]
  · omega
  · constructor
    · exact div_nonneg hr0 ht.le
    · rw [div_lt_one ht]
      exact hrt

theorem jsMod_mul_add (t : ℚ) (K : ℤ) (r : ℚ) (ht : 0 < t) (hK : 0 ≤ K)
    (hr0 : 0 ≤ r) (hrt : r < t) : jsMod ((K : ℚ) * t + r) t = r := by
  have ha : 0 ≤ (K : ℚ) * t + r := by
    have : (0 : ℚ) ≤ (K : ℚ) := by exact_mod_cast hK
    nlinarith
  rw [jsMod_eq_floor _ _ ha ht, floor_mul_add t K r ht hr0 hrt]
  ring

/-! ## C7 — encode-decode round trip at fixed precision -/

theorem decode_center_10 (f1 f2 s1 s2 u1 u2 e1 e2 v1 v2 : ℕ)
    (hf1 : f1 ≤ 25) (hf2 : f2 ≤ 25) (hs1 : s1 ≤ 9) (hs2 : s2 ≤ 9)
    (hu1 : u1 ≤ 25) (hu2 : u2 ≤ 25) (he1 : e1 ≤ 9) (he2 : e2 ≤ 9)
    (hv1 : v1 ≤ 25) (hv2 : v2 ≤ 25) :
    (maidenheadToBounds ⟨[Char.ofNat (65 + f1), Char.ofNat (65 + f2),
        Char.ofNat (48 + s1), Char.ofNat (48 + s2),
        Char.ofNat (97 + u1), Char.ofNat (97 + u2),
        Char.ofNat (48 + e1), Char.ofNat (48 + e2),
        Char.ofNat (97 + v1), Char.ofNat (97 + v2)]⟩).center
      = ⟨-90 + (f2 : ℚ) * 10 + (s2 : ℚ) * 1 + (u2 : ℚ) * (1 / 24)
            + (e2 : ℚ) * (1 / 240) + (v2 : ℚ) * (1 / 5760) + 1 / 11520,
         -180 + (f1 : ℚ) * 20 + (s1 : ℚ) * 2 + (u1 : ℚ) * (2 / 24)
            + (e1 : ℚ) * (2 / 240) + (v1 : ℚ) * (2 / 5760) + 1 / 5760⟩ := by
  have tf1 : (Char.ofNat (65 + f1)).toUpper = Char.ofNat (65 + f1) :=
    toUpper_of_lt _ (by rw [char_toNat_ofNat _ (by omega)]; omega)
  have tf2 : (Char.ofNat (65 + f2)).toUpper = Char.ofNat (65 + f2) :=
    toUpper_of_lt _ (by rw [char_toNat_ofNat _ (by omega)]; omega)
  have ts1 : (Char.ofNat (48 + s1)).toUpper = Char.ofNat (48 + s1) :=
    toUpper_of_lt _ (by rw [char_toNat_ofNat _ (by omega)]; omega)
  have ts2 : (Char.ofNat (48 + s2)).toUpper = Char.ofNat (48 + s2) :=
    toUpper_of_lt _ (by rw [char_toNat_ofNat _ (by omega)]; omega)
  have tu1 : (Char.ofNat (97 + u1)).toUpper = Char.ofNat (65 + u1) :=
    toUpper_ofNat_lower u1 (by omega)
  have tu2 : (Char.ofNat (97 + u2)).toUpper = Char.ofNat (65 + u2) :=
    toUpper_ofNat_lower u2 (by omega)
  have te1 : (Char.ofNat (48 + e1)).toUpper = Char.ofNat (48 + e1) :=
    toUpper_of_lt _ (by rw [char_toNat_ofNat _ (by omega)]; omega)
  have te2 : (Char.ofNat (48 + e2)).toUpper = Char.ofNat (48 + e2) :=
    toUpper_of_lt _ (by rw [char_toNat_ofNat _ (by omega)]; omega)
  have tv1 : (Char.ofNat (97 + v1)).toUpper = Char.ofNat (65 + v1) :=
    toUpper_ofNat_lower v1 (by omega)
  have tv2 : (Char.ofNat (97 + v2)).toUpper = Char.ofNat (65 + v2) :=
    toUpper_ofNat_lower v2 (by omega)
  have nf1 : (Char.ofNat (65 + f1)).toNat = 65 + f1 := char_toNat_ofNat _ (by omega)
  have nf2 : (Char.ofNat (65 + f2)).toNat = 65 + f2 := char_toNat_ofNat _ (by omega)
  have ns1 : (Char.ofNat (48 + s1)).toNat = 48 + s1 := char_toNat_ofNat _ (by omega)
  have ns2 : (Char.ofNat (48 + s2)).toNat = 48 + s2 := char_toNat_ofNat _ (by omega)
  have nu1 : (Char.ofNat (65 + u1)).toNat = 65 + u1 := char_toNat_ofNat _ (by omega)
  have nu2 : (Char.ofNat (65 + u2)).toNat = 65 + u2 := char_toNat_ofNat _ (by omega)
  have ne1 : (Char.ofNat (48 + e1)).toNat = 48 + e1 := char_toNat_ofNat _ (by omega)
  have ne2 : (Char.ofNat (48 + e2)).toNat = 48 + e2 := char_toNat_ofNat _ (by omega)
  have nv1 : (Char.ofNat (65 + v1)).toNat = 65 + v1 := char_toNat_ofNat _ (by omega)
  have nv2 : (Char.ofNat (65 + v2)).toNat = 65 + v2 := char_toNat_ofNat _ (by omega)
  unfold maidenheadToBounds
  simp only [List.map_cons, List.map_nil, tf1, tf2, ts1, ts2, tu1, tu2,
    te1, te2, tv1, tv2, List.length_cons, List.length_nil,
    List.getD_cons_zero, List.getD_cons_succ]
  norm_num [nf1, nf2, ns1, ns2, nu1, nu2, ne1, ne2, nv1, nv2]

set_option maxHeartbeats 3200000 in
theorem encode_10 (f1 f2 s1 s2 u1 u2 e1 e2 v1 v2 : ℕ)
    (hf1 : f1 ≤ 17) (hf2 : f2 ≤ 17) (hs1 : s1 ≤ 9) (hs2 : s2 ≤ 9)
    (hu1 : u1 ≤ 23) (hu2 : u2 ≤ 23) (he1 : e1 ≤ 9) (he2 : e2 ≤ 9)
    (hv1 : v1 ≤ 23) (hv2 : v2 ≤ 23) :
    latLngToMaidenhead
      (-90 + (f2 : ℚ) * 10 + (s2 : ℚ) * 1 + (u2 : ℚ) * (1 / 24)
        + (e2 : ℚ) * (1 / 240) + (v2 : ℚ) * (1 / 5760) + 1 / 11520)
      (-180 + (f1 : ℚ) * 20 + (s1 : ℚ) * 2 + (u1 : ℚ) * (2 / 24)
        + (e1 : ℚ) * (2 / 240) + (v1 : ℚ) * (2 / 5760) + 1 / 5760)
      10
      = ⟨[Char.ofNat (65 + f1), Char.ofNat (65 + f2),
          Char.ofNat (48 + s1), Char.ofNat (48 + s2),
          Char.ofNat (97 + u1), Char.ofNat (97 + u2),
          Char.ofNat (48 + e1), Char.ofNat (48 + e2),
          Char.ofNat (97 + v1), Char.ofNat (97 + v2)]⟩ := by
  have cf1 : (f1 : ℚ) ≤ 17 := by exact_mod_cast hf1
  have cf2 : (f2 : ℚ) ≤ 17 := by exact_mod_cast hf2
  have cs1 : (s1 : ℚ) ≤ 9 := by exact_mod_cast hs1
  have cs2 : (s2 : ℚ) ≤ 9 := by exact_mod_cast hs2
  have cu1 : (u1 : ℚ) ≤ 23 := by exact_mod_cast hu1
  have cu2 : (u2 : ℚ) ≤ 23 := by exact_mod_cast hu2
  have ce1 : (e1 : ℚ) ≤ 9 := by exact_mod_cast he1
  have ce2 : (e2 : ℚ) ≤ 9 := by exact_mod_cast he2
  have cv1 : (v1 : ℚ) ≤ 23 := by exact_mod_cast hv1
  have cv2 : (v2 : ℚ) ≤ 23 := by exact_mod_cast hv2
  have p1 : (0 : ℚ) ≤ (f1 : ℚ) := Nat.cast_nonneg f1
  have p2 : (0 : ℚ) ≤ (f2 : ℚ) := Nat.cast_nonneg f2
  have p3 : (0 : ℚ) ≤ (s1 : ℚ) := Nat.cast_nonneg s1
  have p4 : (0 : ℚ) ≤ (s2 : ℚ) := Nat.cast_nonneg s2
  have p5 : (0 : ℚ) ≤ (u1 : ℚ) := Nat.cast_nonneg u1
  have p6 : (0 : ℚ) ≤ (u2 : ℚ) := Nat.cast_nonneg u2
  have p7 : (0 : ℚ) ≤ (e1 : ℚ) := Nat.cast_nonneg e1
  have p8 : (0 : ℚ) ≤ (e2 : ℚ) := Nat.cast_nonneg e2
  have p9 : (0 : ℚ) ≤ (v1 : ℚ) := Nat.cast_nonneg v1
  have p10 : (0 : ℚ) ≤ (v2 : ℚ) := Nat.cast_nonneg v2
  -- longitude tier extraction
  have hLng : (-180 + (f1 : ℚ) * 20 + (s1 : ℚ) * 2 + (u1 : ℚ) * (2 / 24)
      + (e1 : ℚ) * (2 / 240) + (v1 : ℚ) * (2 / 5760) + 1 / 5760) + 180
      = ((f1 : ℤ) : ℚ) * 20 + ((s1 : ℚ) * 2 + (u1 : ℚ) * (2 / 24)
        + (e1 : ℚ) * (2 / 240) + (v1 : ℚ) * (2 / 5760) + 1 / 5760) := by
    push_cast; ring
  have A1 : ⌊((-180 + (f1 : ℚ) * 20 + (s1 : ℚ) * 2 + (u1 : ℚ) * (2 / 24)
      + (e1 : ℚ) * (2 / 240) + (v1 : ℚ) * (2 / 5760) + 1 / 5760) + 180) / 20⌋
      = (f1 : ℤ) := by
    rw [hLng]
    refine floor_mul_add _ _ _ ?_ ?_ ?_
    · norm_num
    · positivity
    · linarith
  have A2 : jsMod ((-180 + (f1 : ℚ) * 20 + (s1 : ℚ) * 2 + (u1 : ℚ) * (2 / 24)
      + (e1 : ℚ) * (2 / 240) + (v1 : ℚ) * (2 / 5760) + 1 / 5760) + 180) 20
      = (s1 : ℚ) * 2 + (u1 : ℚ) * (2 / 24)
        + (e1 : ℚ) * (2 / 240) + (v1 : ℚ) * (2 / 5760) + 1 / 5760 := by
    rw [hLng]
    refine jsMod_mul_add _ _ _ ?_ ?_ ?_ ?_
    · norm_num
    · omega
    · positivity
    · linarith
  have A3 : ⌊((s1 : ℚ) * 2 + (u1 : ℚ) * (2 / 24)
      + (e1 : ℚ) * (2 / 240) + (v1 : ℚ) * (2 / 5760) + 1 / 5760) / 2⌋
      = (s1 : ℤ) := by
    rw [show (s1 : ℚ) * 2 + (u1 : ℚ) * (2 / 24)
        + (e1 : ℚ) * (2 / 240) + (v1 : ℚ) * (2 / 5760) + 1 / 5760
      = ((s1 : ℤ) : ℚ) * 2 + ((u1 : ℚ) * (2 / 24)
        + (e1 : ℚ) * (2 / 240) + (v1 : ℚ) * (2 / 5760) + 1 / 5760) by push_cast; ring]
    refine floor_mul_add _ _ _ ?_ ?_ ?_
    · norm_num
    · positivity
    · linarith
  have A4 : jsMod ((-180 + (f1 : ℚ) * 20 + (s1 : ℚ) * 2 + (u1 : ℚ) * (2 / 24)
      + (e1 : ℚ) * (2 / 240) + (v1 : ℚ) * (2 / 5760) + 1 / 5760) + 180) 2
      = (u1 : ℚ) * (2 / 24) + (e1 : ℚ) * (2 / 240) + (v1 : ℚ) * (2 / 5760)
        + 1 / 5760 := by
    rw [show (-180 + (f1 : ℚ) * 20 + (s1 : ℚ) * 2 + (u1 : ℚ) * (2 / 24)
        + (e1 : ℚ) * (2 / 240) + (v1 : ℚ) * (2 / 5760) + 1 / 5760) + 180
      = (↑(10 * (f1 : ℤ) + (s1 : ℤ)) : ℚ) * 2 + ((u1 : ℚ) * (2 / 24)
        + (e1 : ℚ) * (2 / 240) + (v1 : ℚ) * (2 / 5760) + 1 / 5760) by push_cast; ring]
    refine jsMod_mul_add _ _ _ ?_ ?_ ?_ ?_
    · norm_num
    · omega
    · positivity
    · linarith
  have A5 : ⌊((u1 : ℚ) * (2 / 24) + (e1 : ℚ) * (2 / 240) + (v1 : ℚ) * (2 / 5760)
      + 1 / 5760) / (2 / 24)⌋ = (u1 : ℤ) := by
    rw [show (u1 : ℚ) * (2 / 24) + (e1 : ℚ) * (2 / 240) + (v1 : ℚ) * (2 / 5760)
        + 1 / 5760
      = ((u1 : ℤ) : ℚ) * (2 / 24) + ((e1 : ℚ) * (2 / 240)
        + (v1 : ℚ) * (2 / 5760) + 1 / 5760) by push_cast; ring]
    refine floor_mul_add _ _ _ ?_ ?_ ?_
    · norm_num
    · positivity
    · linarith
  have A6 : jsMod ((-180 + (f1 : ℚ) * 20 + (s1 : ℚ) * 2 + (u1 : ℚ) * (2 / 24)
      + (e1 : ℚ) * (2 / 240) + (v1 : ℚ) * (2 / 5760) + 1 / 5760) + 180) (2 / 24)
      = (e1 : ℚ) * (2 / 240) + (v1 : ℚ) * (2 / 5760) + 1 / 5760 := by
    rw [show (-180 + (f1 : ℚ) * 20 + (s1 : ℚ) * 2 + (u1 : ℚ) * (2 / 24)
        + (e1 : ℚ) * (2 / 240) + (v1 : ℚ) * (2 / 5760) + 1 / 5760) + 180
      = (↑(240 * (f1 : ℤ) + 24 * (s1 : ℤ) + (u1 : ℤ)) : ℚ) * (2 / 24)
        + ((e1 : ℚ) * (2 / 240) + (v1 : ℚ) * (2 / 5760) + 1 / 5760) by
      push_cast; ring]
    refine jsMod_mul_add _ _ _ ?_ ?_ ?_ ?_
    · norm_num
    · omega
    · positivity
    · linarith
  have A7 : ⌊((e1 : ℚ) * (2 / 240) + (v1 : ℚ) * (2 / 5760) + 1 / 5760)
      / (2 / 240)⌋ = (e1 : ℤ) := by
    rw [show (e1 : ℚ) * (2 / 240) + (v1 : ℚ) * (2 / 5760) + 1 / 5760
      = ((e1 : ℤ) : ℚ) * (2 / 240) + ((v1 : ℚ) * (2 / 5760) + 1 / 5760) by
      push_cast; ring]
    refine floor_mul_add _ _ _ ?_ ?_ ?_
    · norm_num
    · positivity
    · linarith
  have A8 : jsMod ((-180 + (f1 : ℚ) * 20 + (s1 : ℚ) * 2 + (u1 : ℚ) * (2 / 24)
      + (e1 : ℚ) * (2 / 240) + (v1 : ℚ) * (2 / 5760) + 1 / 5760) + 180) (2 / 240)
      = (v1 : ℚ) * (2 / 5760) + 1 / 5760 := by
    rw [show (-180 + (f1 : ℚ) * 20 + (s1 : ℚ) * 2 + (u1 : ℚ) * (2 / 24)
        + (e1 : ℚ) * (2 / 240) + (v1 : ℚ) * (2 / 5760) + 1 / 5760) + 180
      = (↑(2400 * (f1 : ℤ) + 240 * (s1 : ℤ) + 10 * (u1 : ℤ) + (e1 : ℤ)) : ℚ)
          * (2 / 240) + ((v1 : ℚ) * (2 / 5760) + 1 / 5760) by push_cast; ring]
    refine jsMod_mul_add _ _ _ ?_ ?_ ?_ ?_
    · norm_num
    · omega
    · positivity
    · linarith
  have A9 : ⌊((v1 : ℚ) * (2 / 5760) + 1 / 5760) / (2 / 5760)⌋ = (v1 : ℤ) := by
    rw [show (v1 : ℚ) * (2 / 5760) + 1 / 5760
      = ((v1 : ℤ) : ℚ) * (2 / 5760) + (1 / 5760) by push_cast; ring]
    refine floor_mul_add _ _ _ ?_ ?_ ?_
    · norm_num
    · positivity
    · linarith
  have B1 : ⌊((-90 + (f2 : ℚ) * 10 + (s2 : ℚ) * 1 + (u2 : ℚ) * (1 / 24)
      + (e2 : ℚ) * (1 / 240) + (v2 : ℚ) * (1 / 5760) + 1 / 11520) + 90) / 10⌋
      = (f2 : ℤ) := by
    rw [show (-90 + (f2 : ℚ) * 10 + (s2 : ℚ) * 1 + (u2 : ℚ) * (1 / 24)
        + (e2 : ℚ) * (1 / 240) + (v2 : ℚ) * (1 / 5760) + 1 / 11520) + 90
      = ((f2 : ℤ) : ℚ) * 10 + ((s2 : ℚ) * 1 + (u2 : ℚ) * (1 / 24)
        + (e2 : ℚ) * (1 / 240) + (v2 : ℚ) * (1 / 5760) + 1 / 11520) by
      push_cast; ring]
    refine floor_mul_add _ _ _ ?_ ?_ ?_
    · norm_num
    · positivity
    · linarith
  have B2 : jsMod ((-90 + (f2 : ℚ) * 10 + (s2 : ℚ) * 1 + (u2 : ℚ) * (1 / 24)
      + (e2 : ℚ) * (1 / 240) + (v2 : ℚ) * (1 / 5760) + 1 / 11520) + 90) 10
      = (s2 : ℚ) * 1 + (u2 : ℚ) * (1 / 24) + (e2 : ℚ) * (1 / 240)
        + (v2 : ℚ) * (1 / 5760) + 1 / 11520 := by
    rw [show (-90 + (f2 : ℚ) * 10 + (s2 : ℚ) * 1 + (u2 : ℚ) * (1 / 24)
        + (e2 : ℚ) * (1 / 240) + (v2 : ℚ) * (1 / 5760) + 1 / 11520) + 90
      = ((f2 : ℤ) : ℚ) * 10 + ((s2 : ℚ) * 1 + (u2 : ℚ) * (1 / 24)
        + (e2 : ℚ) * (1 / 240) + (v2 : ℚ) * (1 / 5760) + 1 / 11520) by
      push_cast; ring]
    refine jsMod_mul_add _ _ _ ?_ ?_ ?_ ?_
    · norm_num
    · omega
    · positivity
    · linarith
  have B3 : ⌊((s2 : ℚ) * 1 + (u2 : ℚ) * (1 / 24) + (e2 : ℚ) * (1 / 240)
      + (v2 : ℚ) * (1 / 5760) + 1 / 11520) / 1⌋ = (s2 : ℤ) := by
    rw [show (s2 : ℚ) * 1 + (u2 : ℚ) * (1 / 24) + (e2 : ℚ) * (1 / 240)
        + (v2 : ℚ) * (1 / 5760) + 1 / 11520
      = ((s2 : ℤ) : ℚ) * 1 + ((u2 : ℚ) * (1 / 24) + (e2 : ℚ) * (1 / 240)
        + (v2 : ℚ) * (1 / 5760) + 1 / 11520) by push_cast; ring]
    refine floor_mul_add _ _ _ ?_ ?_ ?_
    · norm_num
    · positivity
    · linarith
  have B4 : jsMod ((-90 + (f2 : ℚ) * 10 + (s2 : ℚ) * 1 + (u2 : ℚ) * (1 / 24)
      + (e2 : ℚ) * (1 / 240) + (v2 : ℚ) * (1 / 5760) + 1 / 11520) + 90) 1
      = (u2 : ℚ) * (1 / 24) + (e2 : ℚ) * (1 / 240) + (v2 : ℚ) * (1 / 5760)
        + 1 / 11520 := by
    rw [show (-90 + (f2 : ℚ) * 10 + (s2 : ℚ) * 1 + (u2 : ℚ) * (1 / 24)
        + (e2 : ℚ) * (1 / 240) + (v2 : ℚ) * (1 / 5760) + 1 / 11520) + 90
      = (↑(10 * (f2 : ℤ) + (s2 : ℤ)) : ℚ) * 1 + ((u2 : ℚ) * (1 / 24)
        + (e2 : ℚ) * (1 / 240) + (v2 : ℚ) * (1 / 5760) + 1 / 11520) by
      push_cast; ring]
    refine jsMod_mul_add _ _ _ ?_ ?_ ?_ ?_
    · norm_num
    · omega
    · positivity
    · linarith
  have B5 : ⌊((u2 : ℚ) * (1 / 24) + (e2 : ℚ) * (1 / 240) + (v2 : ℚ) * (1 / 5760)
      + 1 / 11520) / (1 / 24)⌋ = (u2 : ℤ) := by
    rw [show (u2 : ℚ) * (1 / 24) + (e2 : ℚ) * (1 / 240) + (v2 : ℚ) * (1 / 5760)
        + 1 / 11520
      = ((u2 : ℤ) : ℚ) * (1 / 24) + ((e2 : ℚ) * (1 / 240)
        + (v2 : ℚ) * (1 / 5760) + 1 / 11520) by push_cast; ring]
    refine floor_mul_add _ _ _ ?_ ?_ ?_
    · norm_num
    · positivity
    · linarith
  have B6 : jsMod ((-90 + (f2 : ℚ) * 10 + (s2 : ℚ) * 1 + (u2 : ℚ) * (1 / 24)
      + (e2 : ℚ) * (1 / 240) + (v2 : ℚ) * (1 / 5760) + 1 / 11520) + 90) (1 / 24)
      = (e2 : ℚ) * (1 / 240) + (v2 : ℚ) * (1 / 5760) + 1 / 11520 := by
    rw [show (-90 + (f2 : ℚ) * 10 + (s2 : ℚ) * 1 + (u2 : ℚ) * (1 / 24)
        + (e2 : ℚ) * (1 / 240) + (v2 : ℚ) * (1 / 5760) + 1 / 11520) + 90
      = (↑(240 * (f2 : ℤ) + 24 * (s2 : ℤ) + (u2 : ℤ)) : ℚ) * (1 / 24)
        + ((e2 : ℚ) * (1 / 240) + (v2 : ℚ) * (1 / 5760) + 1 / 11520) by
      push_cast; ring]
    refine jsMod_mul_add _ _ _ ?_ ?_ ?_ ?_
    · norm_num
    · omega
    · positivity
    · linarith
  have B7 : ⌊((e2 : ℚ) * (1 / 240) + (v2 : ℚ) * (1 / 5760) + 1 / 11520)
      / (1 / 240)⌋ = (e2 : ℤ) := by
    rw [show (e2 : ℚ) * (1 / 240) + (v2 : ℚ) * (1 / 5760) + 1 / 11520
      = ((e2 : ℤ) : ℚ) * (1 / 240) + ((v2 : ℚ) * (1 / 5760) + 1 / 11520) by
      push_cast; ring]
    refine floor_mul_add _ _ _ ?_ ?_ ?_
    · norm_num
    · positivity
    · linarith
  have B8 : jsMod ((-90 + (f2 : ℚ) * 10 + (s2 : ℚ) * 1 + (u2 : ℚ) * (1 / 24)
      + (e2 : ℚ) * (1 / 240) + (v2 : ℚ) * (1 / 5760) + 1 / 11520) + 90) (1 / 240)
      = (v2 : ℚ) * (1 / 5760) + 1 / 11520 := by
    rw [show (-90 + (f2 : ℚ) * 10 + (s2 : ℚ) * 1 + (u2 : ℚ) * (1 / 24)
        + (e2 : ℚ) * (1 / 240) + (v2 : ℚ) * (1 / 5760) + 1 / 11520) + 90
      = (↑(2400 * (f2 : ℤ) + 240 * (s2 : ℤ) + 10 * (u2 : ℤ) + (e2 : ℤ)) : ℚ)
          * (1 / 240) + ((v2 : ℚ) * (1 / 5760) + 1 / 11520) by push_cast; ring]
    refine jsMod_mul_add _ _ _ ?_ ?_ ?_ ?_
    · norm_num
    · omega
    · positivity
    · linarith
  have B9 : ⌊((v2 : ℚ) * (1 / 5760) + 1 / 11520) / (1 / 5760)⌋ = (v2 : ℤ) := by
    rw [show (v2 : ℚ) * (1 / 5760) + 1 / 11520
      = ((v2 : ℤ) : ℚ) * (1 / 5760) + (1 / 11520) by push_cast; ring]
    refine floor_mul_add _ _ _ ?_ ?_ ?_
    · norm_num
    · norm_num
    · norm_num
  unfold latLngToMaidenhead
  dsimp only
  rw [if_neg (by norm_num), if_neg (by norm_num), if_neg (by norm_num),
    if_neg (by norm_num)]
  rw [A1, B1]
  rw [A2, A3, B2, B3]
  rw [A4, A5, B4, B5]
  rw [A6, A7, B6, B7]
  rw [A8, A9, B8, B9]
  norm_num [Int.toNat_natCast]
theorem decode_center_2 (f1 f2 : ℕ)
    (hf1 : f1 ≤ 25) (hf2 : f2 ≤ 25) :
    (maidenheadToBounds ⟨[Char.ofNat (65 + f1),
        Char.ofNat (65 + f2)]⟩).center
      = ⟨-90 + (f2 : ℚ) * 10 + 5,
         -180 + (f1 : ℚ) * 20 + 10⟩ := by
  have tf1 : (Char.ofNat (65 + f1)).toUpper = Char.ofNat (65 + f1) :=
    toUpper_of_lt _ (by rw [char_toNat_ofNat _ (by omega)]; omega)
  have nf1 : (Char.ofNat (65 + f1)).toNat = 65 + f1 := char_toNat_ofNat _ (by omega)
  have tf2 : (Char.ofNat (65 + f2)).toUpper = Char.ofNat (65 + f2) :=
    toUpper_of_lt _ (by rw [char_toNat_ofNat _ (by omega)]; omega)
  have nf2 : (Char.ofNat (65 + f2)).toNat = 65 + f2 := char_toNat_ofNat _ (by omega)
  unfold maidenheadToBounds
  simp only [List.map_cons, List.map_nil, tf1, tf2,
    List.length_cons, List.length_nil, List.getD_cons_zero, List.getD_cons_succ]
  norm_num [nf1, nf2]

set_option maxHeartbeats 3200000 in
theorem encode_2 (f1 f2 : ℕ)
    (hf1 : f1 ≤ 17) (hf2 : f2 ≤ 17) :
    latLngToMaidenhead
      (-90 + (f2 : ℚ) * 10 + 5)
      (-180 + (f1 : ℚ) * 20 + 10)
      2
      = ⟨[Char.ofNat (65 + f1),
        Char.ofNat (65 + f2)]⟩ := by
  have cf1 : (f1 : ℚ) ≤ 17 := by exact_mod_cast hf1
  have qf1 : (0 : ℚ) ≤ (f1 : ℚ) := Nat.cast_nonneg f1
  have cf2 : (f2 : ℚ) ≤ 17 := by exact_mod_cast hf2
  have qf2 : (0 : ℚ) ≤ (f2 : ℚ) := Nat.cast_nonneg f2
  have AF0 : ⌊((-180 + (f1 : ℚ) * 20 + 10) + 180) / 20⌋ = (f1 : ℤ) := by
    rw [show (-180 + (f1 : ℚ) * 20 + 10) + 180
      = ((f1 : ℤ) : ℚ) * 20 + (10) by push_cast; ring]
    refine floor_mul_add _ _ _ ?_ ?_ ?_
    · norm_num
    · positivity
    · linarith
  have BF0 : ⌊((-90 + (f2 : ℚ) * 10 + 5) + 90) / 10⌋ = (f2 : ℤ) := by
    rw [show (-90 + (f2 : ℚ) * 10 + 5) + 90
      = ((f2 : ℤ) : ℚ) * 10 + (5) by push_cast; ring]
    refine floor_mul_add _ _ _ ?_ ?_ ?_
    · norm_num
    · positivity
    · linarith
  unfold latLngToMaidenhead
  dsimp only
  rw [if_pos rfl]
  rw [AF0, BF0]
  norm_num [Int.toNat_natCast]

theorem decode_center_4 (f1 f2 s1 s2 : ℕ)
    (hf1 : f1 ≤ 25) (hf2 : f2 ≤ 25) (hs1 : s1 ≤ 9) (hs2 : s2 ≤ 9) :
    (maidenheadToBounds ⟨[Char.ofNat (65 + f1),
        Char.ofNat (65 + f2),
        Char.ofNat (48 + s1),
        Char.ofNat (48 + s2)]⟩).center
      = ⟨-90 + (f2 : ℚ) * 10 + (s2 : ℚ) * 1 + 1 / 2,
         -180 + (f1 : ℚ) * 20 + (s1 : ℚ) * 2 + 1⟩ := by
  have tf1 : (Char.ofNat (65 + f1)).toUpper = Char.ofNat (65 + f1) :=
    toUpper_of_lt _ (by rw [char_toNat_ofNat _ (by omega)]; omega)
  have nf1 : (Char.ofNat (65 + f1)).toNat = 65 + f1 := char_toNat_ofNat _ (by omega)
  have tf2 : (Char.ofNat (65 + f2)).toUpper = Char.ofNat (65 + f2) :=
    toUpper_of_lt _ (by rw [char_toNat_ofNat _ (by omega)]; omega)
  have nf2 : (Char.ofNat (65 + f2)).toNat = 65 + f2 := char_toNat_ofNat _ (by omega)
  have ts1 : (Char.ofNat (48 + s1)).toUpper = Char.ofNat (48 + s1) :=
    toUpper_of_lt _ (by rw [char_toNat_ofNat _ (by omega)]; omega)
  have ns1 : (Char.ofNat (48 + s1)).toNat = 48 + s1 := char_toNat_ofNat _ (by omega)
  have ts2 : (Char.ofNat (48 + s2)).toUpper = Char.ofNat (48 + s2) :=
    toUpper_of_lt _ (by rw [char_toNat_ofNat _ (by omega)]; omega)
  have ns2 : (Char.ofNat (48 + s2)).toNat = 48 + s2 := char_toNat_ofNat _ (by omega)
  unfold maidenheadToBounds
  simp only [List.map_cons, List.map_nil, tf1, tf2, ts1, ts2,
    List.length_cons, List.length_nil, List.getD_cons_zero, List.getD_cons_succ]
  norm_num [nf1, nf2, ns1, ns2]

set_option maxHeartbeats 3200000 in
theorem encode_4 (f1 f2 s1 s2 : ℕ)
    (hf1 : f1 ≤ 17) (hf2 : f2 ≤ 17) (hs1 : s1 ≤ 9) (hs2 : s2 ≤ 9) :
    latLngToMaidenhead
      (-90 + (f2 : ℚ) * 10 + (s2 : ℚ) * 1 + 1 / 2)
      (-180 + (f1 : ℚ) * 20 + (s1 : ℚ) * 2 + 1)
      4
      = ⟨[Char.ofNat (65 + f1),
        Char.ofNat (65 + f2),
        Char.ofNat (48 + s1),
        Char.ofNat (48 + s2)]⟩ := by
  have cf1 : (f1 : ℚ) ≤ 17 := by exact_mod_cast hf1
  have qf1 : (0 : ℚ) ≤ (f1 : ℚ) := Nat.cast_nonneg f1
  have cf2 : (f2 : ℚ) ≤ 17 := by exact_mod_cast hf2
  have qf2 : (0 : ℚ) ≤ (f2 : ℚ) := Nat.cast_nonneg f2
  have cs1 : (s1 : ℚ) ≤ 9 := by exact_mod_cast hs1
  have qs1 : (0 : ℚ) ≤ (s1 : ℚ) := Nat.cast_nonneg s1
  have cs2 : (s2 : ℚ) ≤ 9 := by exact_mod_cast hs2
  have qs2 : (0 : ℚ) ≤ (s2 : ℚ) := Nat.cast_nonneg s2
  have AF0 : ⌊((-180 + (f1 : ℚ) * 20 + (s1 : ℚ) * 2 + 1) + 180) / 20⌋ = (f1 : ℤ) := by
    rw [show (-180 + (f1 : ℚ) * 20 + (s1 : ℚ) * 2 + 1) + 180
      = ((f1 : ℤ) : ℚ) * 20 + ((s1 : ℚ) * 2 + 1) by push_cast; ring]
    refine floor_mul_add _ _ _ ?_ ?_ ?_
    · norm_num
    · positivity
    · linarith
  have AJ1 : jsMod ((-180 + (f1 : ℚ) * 20 + (s1 : ℚ) * 2 + 1) + 180) 20 = (s1 : ℚ) * 2 + 1 := by
    rw [show (-180 + (f1 : ℚ) * 20 + (s1 : ℚ) * 2 + 1) + 180
      = ((f1 : ℤ) : ℚ) * 20 + ((s1 : ℚ) * 2 + 1) by push_cast; ring]
    refine jsMod_mul_add _ _ _ ?_ ?_ ?_ ?_
    · norm_num
    · omega
    · positivity
    · linarith
  have AF1 : ⌊((s1 : ℚ) * 2 + 1) / 2⌋ = (s1 : ℤ) := by
    rw [show (s1 : ℚ) * 2 + 1
      = ((s1 : ℤ) : ℚ) * 2 + (1) by push_cast; ring]
    refine floor_mul_add _ _ _ ?_ ?_ ?_
    · norm_num
    · positivity
    · linarith
  have BF0 : ⌊((-90 + (f2 : ℚ) * 10 + (s2 : ℚ) * 1 + 1 / 2) + 90) / 10⌋ = (f2 : ℤ) := by
    rw [show (-90 + (f2 : ℚ) * 10 + (s2 : ℚ) * 1 + 1 / 2) + 90
      = ((f2 : ℤ) : ℚ) * 10 + ((s2 : ℚ) * 1 + 1 / 2) by push_cast; ring]
    refine floor_mul_add _ _ _ ?_ ?_ ?_
    · norm_num
    · positivity
    · linarith
  have BJ1 : jsMod ((-90 + (f2 : ℚ) * 10 + (s2 : ℚ) * 1 + 1 / 2) + 90) 10 = (s2 : ℚ) * 1 + 1 / 2 := by
    rw [show (-90 + (f2 : ℚ) * 10 + (s2 : ℚ) * 1 + 1 / 2) + 90
      = ((f2 : ℤ) : ℚ) * 10 + ((s2 : ℚ) * 1 + 1 / 2) by push_cast; ring]
    refine jsMod_mul_add _ _ _ ?_ ?_ ?_ ?_
    · norm_num
    · omega
    · positivity
    · linarith
  have BF1 : ⌊((s2 : ℚ) * 1 + 1 / 2) / 1⌋ = (s2 : ℤ) := by
    rw [show (s2 : ℚ) * 1 + 1 / 2
      = ((s2 : ℤ) : ℚ) * 1 + (1 / 2) by push_cast; ring]
    refine floor_mul_add _ _ _ ?_ ?_ ?_
    · norm_num
    · positivity
    · linarith
  unfold latLngToMaidenhead
  dsimp only
  rw [if_neg (by norm_num)]
  rw [if_pos rfl]
  rw [AF0, AJ1, AF1, BF0, BJ1, BF1]
  norm_num [Int.toNat_natCast]

theorem decode_center_6 (f1 f2 s1 s2 u1 u2 : ℕ)
    (hf1 : f1 ≤ 25) (hf2 : f2 ≤ 25) (hs1 : s1 ≤ 9) (hs2 : s2 ≤ 9) (hu1 : u1 ≤ 25) (hu2 : u2 ≤ 25) :
    (maidenheadToBounds ⟨[Char.ofNat (65 + f1),
        Char.ofNat (65 + f2),
        Char.ofNat (48 + s1),
        Char.ofNat (48 + s2),
        Char.ofNat (97 + u1),
        Char.ofNat (97 + u2)]⟩).center
      = ⟨-90 + (f2 : ℚ) * 10 + (s2 : ℚ) * 1 + (u2 : ℚ) * (1 / 24) + 1 / 48,
         -180 + (f1 : ℚ) * 20 + (s1 : ℚ) * 2 + (u1 : ℚ) * (2 / 24) + 1 / 24⟩ := by
  have tf1 : (Char.ofNat (65 + f1)).toUpper = Char.ofNat (65 + f1) :=
    toUpper_of_lt _ (by rw [char_toNat_ofNat _ (by omega)]; omega)
  have nf1 : (Char.ofNat (65 + f1)).toNat = 65 + f1 := char_toNat_ofNat _ (by omega)
  have tf2 : (Char.ofNat (65 + f2)).toUpper = Char.ofNat (65 + f2) :=
    toUpper_of_lt _ (by rw [char_toNat_ofNat _ (by omega)]; omega)
  have nf2 : (Char.ofNat (65 + f2)).toNat = 65 + f2 := char_toNat_ofNat _ (by omega)
  have ts1 : (Char.ofNat (48 + s1)).toUpper = Char.ofNat (48 + s1) :=
    toUpper_of_lt _ (by rw [char_toNat_ofNat _ (by omega)]; omega)
  have ns1 : (Char.ofNat (48 + s1)).toNat = 48 + s1 := char_toNat_ofNat _ (by omega)
  have ts2 : (Char.ofNat (48 + s2)).toUpper = Char.ofNat (48 + s2) :=
    toUpper_of_lt _ (by rw [char_toNat_ofNat _ (by omega)]; omega)
  have ns2 : (Char.ofNat (48 + s2)).toNat = 48 + s2 := char_toNat_ofNat _ (by omega)
  have tu1 : (Char.ofNat (97 + u1)).toUpper = Char.ofNat (65 + u1) :=
    toUpper_ofNat_lower u1 (by omega)
  have nu1 : (Char.ofNat (65 + u1)).toNat = 65 + u1 := char_toNat_ofNat _ (by omega)
  have tu2 : (Char.ofNat (97 + u2)).toUpper = Char.ofNat (65 + u2) :=
    toUpper_ofNat_lower u2 (by omega)
  have nu2 : (Char.ofNat (65 + u2)).toNat = 65 + u2 := char_toNat_ofNat _ (by omega)
  unfold maidenheadToBounds
  simp only [List.map_cons, List.map_nil, tf1, tf2, ts1, ts2, tu1, tu2,
    List.length_cons, List.length_nil, List.getD_cons_zero, List.getD_cons_succ]
  norm_num [nf1, nf2, ns1, ns2, nu1, nu2]

set_option maxHeartbeats 3200000 in
theorem encode_6 (f1 f2 s1 s2 u1 u2 : ℕ)
    (hf1 : f1 ≤ 17) (hf2 : f2 ≤ 17) (hs1 : s1 ≤ 9) (hs2 : s2 ≤ 9) (hu1 : u1 ≤ 23) (hu2 : u2 ≤ 23) :
    latLngToMaidenhead
      (-90 + (f2 : ℚ) * 10 + (s2 : ℚ) * 1 + (u2 : ℚ) * (1 / 24) + 1 / 48)
      (-180 + (f1 : ℚ) * 20 + (s1 : ℚ) * 2 + (u1 : ℚ) * (2 / 24) + 1 / 24)
      6
      = ⟨[Char.ofNat (65 + f1),
        Char.ofNat (65 + f2),
        Char.ofNat (48 + s1),
        Char.ofNat (48 + s2),
        Char.ofNat (97 + u1),
        Char.ofNat (97 + u2)]⟩ := by
  have cf1 : (f1 : ℚ) ≤ 17 := by exact_mod_cast hf1
  have qf1 : (0 : ℚ) ≤ (f1 : ℚ) := Nat.cast_nonneg f1
  have cf2 : (f2 : ℚ) ≤ 17 := by exact_mod_cast hf2
  have qf2 : (0 : ℚ) ≤ (f2 : ℚ) := Nat.cast_nonneg f2
  have cs1 : (s1 : ℚ) ≤ 9 := by exact_mod_cast hs1
  have qs1 : (0 : ℚ) ≤ (s1 : ℚ) := Nat.cast_nonneg s1
  have cs2 : (s2 : ℚ) ≤ 9 := by exact_mod_cast hs2
  have qs2 : (0 : ℚ) ≤ (s2 : ℚ) := Nat.cast_nonneg s2
  have cu1 : (u1 : ℚ) ≤ 23 := by exact_mod_cast hu1
  have qu1 : (0 : ℚ) ≤ (u1 : ℚ) := Nat.cast_nonneg u1
  have cu2 : (u2 : ℚ) ≤ 23 := by exact_mod_cast hu2
  have qu2 : (0 : ℚ) ≤ (u2 : ℚ) := Nat.cast_nonneg u2
  have AF0 : ⌊((-180 + (f1 : ℚ) * 20 + (s1 : ℚ) * 2 + (u1 : ℚ) * (2 / 24) + 1 / 24) + 180) / 20⌋ = (f1 : ℤ) := by
    rw [show (-180 + (f1 : ℚ) * 20 + (s1 : ℚ) * 2 + (u1 : ℚ) * (2 / 24) + 1 / 24) + 180
      = ((f1 : ℤ) : ℚ) * 20 + ((s1 : ℚ) * 2 + (u1 : ℚ) * (2 / 24) + 1 / 24) by push_cast; ring]
    refine floor_mul_add _ _ _ ?_ ?_ ?_
    · norm_num
    · positivity
    · linarith
  have AJ1 : jsMod ((-180 + (f1 : ℚ) * 20 + (s1 : ℚ) * 2 + (u1 : ℚ) * (2 / 24) + 1 / 24) + 180) 20 = (s1 : ℚ) * 2 + (u1 : ℚ) * (2 / 24) + 1 / 24 := by
    rw [show (-180 + (f1 : ℚ) * 20 + (s1 : ℚ) * 2 + (u1 : ℚ) * (2 / 24) + 1 / 24) + 180
      = ((f1 : ℤ) : ℚ) * 20 + ((s1 : ℚ) * 2 + (u1 : ℚ) * (2 / 24) + 1 / 24) by push_cast; ring]
    refine jsMod_mul_add _ _ _ ?_ ?_ ?_ ?_
    · norm_num
    · omega
    · positivity
    · linarith
  have AF1 : ⌊((s1 : ℚ) * 2 + (u1 : ℚ) * (2 / 24) + 1 / 24) / 2⌋ = (s1 : ℤ) := by
    rw [show (s1 : ℚ) * 2 + (u1 : ℚ) * (2 / 24) + 1 / 24
      = ((s1 : ℤ) : ℚ) * 2 + ((u1 : ℚ) * (2 / 24) + 1 / 24) by push_cast; ring]
    refine floor_mul_add _ _ _ ?_ ?_ ?_
    · norm_num
    · positivity
    · linarith
  have AJ2 : jsMod ((-180 + (f1 : ℚ) * 20 + (s1 : ℚ) * 2 + (u1 : ℚ) * (2 / 24) + 1 / 24) + 180) 2 = (u1 : ℚ) * (2 / 24) + 1 / 24 := by
    rw [show (-180 + (f1 : ℚ) * 20 + (s1 : ℚ) * 2 + (u1 : ℚ) * (2 / 24) + 1 / 24) + 180
      = (↑(10 * (f1 : ℤ) + (s1 : ℤ)) : ℚ) * 2 + ((u1 : ℚ) * (2 / 24) + 1 / 24) by push_cast; ring]
    refine jsMod_mul_add _ _ _ ?_ ?_ ?_ ?_
    · norm_num
    · omega
    · positivity
    · linarith
  have AF2 : ⌊((u1 : ℚ) * (2 / 24) + 1 / 24) / (2 / 24)⌋ = (u1 : ℤ) := by
    rw [show (u1 : ℚ) * (2 / 24) + 1 / 24
      = ((u1 : ℤ) : ℚ) * (2 / 24) + (1 / 24) by push_cast; ring]
    refine floor_mul_add _ _ _ ?_ ?_ ?_
    · norm_num
    · positivity
    · linarith
  have BF0 : ⌊((-90 + (f2 : ℚ) * 10 + (s2 : ℚ) * 1 + (u2 : ℚ) * (1 / 24) + 1 / 48) + 90) / 10⌋ = (f2 : ℤ) := by
    rw [show (-90 + (f2 : ℚ) * 10 + (s2 : ℚ) * 1 + (u2 : ℚ) * (1 / 24) + 1 / 48) + 90
      = ((f2 : ℤ) : ℚ) * 10 + ((s2 : ℚ) * 1 + (u2 : ℚ) * (1 / 24) + 1 / 48) by push_cast; ring]
    refine floor_mul_add _ _ _ ?_ ?_ ?_
    · norm_num
    · positivity
    · linarith
  have BJ1 : jsMod ((-90 + (f2 : ℚ) * 10 + (s2 : ℚ) * 1 + (u2 : ℚ) * (1 / 24) + 1 / 48) + 90) 10 = (s2 : ℚ) * 1 + (u2 : ℚ) * (1 / 24) + 1 / 48 := by
    rw [show (-90 + (f2 : ℚ) * 10 + (s2 : ℚ) * 1 + (u2 : ℚ) * (1 / 24) + 1 / 48) + 90
      = ((f2 : ℤ) : ℚ) * 10 + ((s2 : ℚ) * 1 + (u2 : ℚ) * (1 / 24) + 1 / 48) by push_cast; ring]
    refine jsMod_mul_add _ _ _ ?_ ?_ ?_ ?_
    · norm_num
    · omega
    · positivity
    · linarith
  have BF1 : ⌊((s2 : ℚ) * 1 + (u2 : ℚ) * (1 / 24) + 1 / 48) / 1⌋ = (s2 : ℤ) := by
    rw [show (s2 : ℚ) * 1 + (u2 : ℚ) * (1 / 24) + 1 / 48
      = ((s2 : ℤ) : ℚ) * 1 + ((u2 : ℚ) * (1 / 24) + 1 / 48) by push_cast; ring]
    refine floor_mul_add _ _ _ ?_ ?_ ?_
    · norm_num
    · positivity
    · linarith
  have BJ2 : jsMod ((-90 + (f2 : ℚ) * 10 + (s2 : ℚ) * 1 + (u2 : ℚ) * (1 / 24) + 1 / 48) + 90) 1 = (u2 : ℚ) * (1 / 24) + 1 / 48 := by
    rw [show (-90 + (f2 : ℚ) * 10 + (s2 : ℚ) * 1 + (u2 : ℚ) * (1 / 24) + 1 / 48) + 90
      = (↑(10 * (f2 : ℤ) + (s2 : ℤ)) : ℚ) * 1 + ((u2 : ℚ) * (1 / 24) + 1 / 48) by push_cast; ring]
    refine jsMod_mul_add _ _ _ ?_ ?_ ?_ ?_
    · norm_num
    · omega
    · positivity
    · linarith
  have BF2 : ⌊((u2 : ℚ) * (1 / 24) + 1 / 48) / (1 / 24)⌋ = (u2 : ℤ) := by
    rw [show (u2 : ℚ) * (1 / 24) + 1 / 48
      = ((u2 : ℤ) : ℚ) * (1 / 24) + (1 / 48) by push_cast; ring]
    refine floor_mul_add _ _ _ ?_ ?_ ?_
    · norm_num
    · positivity
    · linarith
  unfold latLngToMaidenhead
  dsimp only
  rw [if_neg (by norm_num), if_neg (by norm_num)]
  rw [if_pos rfl]
  rw [AF0, AJ1, AF1, AJ2, AF2, BF0, BJ1, BF1, BJ2, BF2]
  norm_num [Int.toNat_natCast]

theorem decode_center_8 (f1 f2 s1 s2 u1 u2 e1 e2 : ℕ)
    (hf1 : f1 ≤ 25) (hf2 : f2 ≤ 25) (hs1 : s1 ≤ 9) (hs2 : s2 ≤ 9) (hu1 : u1 ≤ 25) (hu2 : u2 ≤ 25) (he1 : e1 ≤ 9) (he2 : e2 ≤ 9) :
    (maidenheadToBounds ⟨[Char.ofNat (65 + f1),
        Char.ofNat (65 + f2),
        Char.ofNat (48 + s1),
        Char.ofNat (48 + s2),
        Char.ofNat (97 + u1),
        Char.ofNat (97 + u2),
        Char.ofNat (48 + e1),
        Char.ofNat (48 + e2)]⟩).center
      = ⟨-90 + (f2 : ℚ) * 10 + (s2 : ℚ) * 1 + (u2 : ℚ) * (1 / 24) + (e2 : ℚ) * (1 / 240) + 1 / 480,
         -180 + (f1 : ℚ) * 20 + (s1 : ℚ) * 2 + (u1 : ℚ) * (2 / 24) + (e1 : ℚ) * (2 / 240) + 1 / 240⟩ := by
  have tf1 : (Char.ofNat (65 + f1)).toUpper = Char.ofNat (65 + f1) :=
    toUpper_of_lt _ (by rw [char_toNat_ofNat _ (by omega)]; omega)
  have nf1 : (Char.ofNat (65 + f1)).toNat = 65 + f1 := char_toNat_ofNat _ (by omega)
  have tf2 : (Char.ofNat (65 + f2)).toUpper = Char.ofNat (65 + f2) :=
    toUpper_of_lt _ (by rw [char_toNat_ofNat _ (by omega)]; omega)
  have nf2 : (Char.ofNat (65 + f2)).toNat = 65 + f2 := char_toNat_ofNat _ (by omega)
  have ts1 : (Char.ofNat (48 + s1)).toUpper = Char.ofNat (48 + s1) :=
    toUpper_of_lt _ (by rw [char_toNat_ofNat _ (by omega)]; omega)
  have ns1 : (Char.ofNat (48 + s1)).toNat = 48 + s1 := char_toNat_ofNat _ (by omega)
  have ts2 : (Char.ofNat (48 + s2)).toUpper = Char.ofNat (48 + s2) :=
    toUpper_of_lt _ (by rw [char_toNat_ofNat _ (by omega)]; omega)
  have ns2 : (Char.ofNat (48 + s2)).toNat = 48 + s2 := char_toNat_ofNat _ (by omega)
  have tu1 : (Char.ofNat (97 + u1)).toUpper = Char.ofNat (65 + u1) :=
    toUpper_ofNat_lower u1 (by omega)
  have nu1 : (Char.ofNat (65 + u1)).toNat = 65 + u1 := char_toNat_ofNat _ (by omega)
  have tu2 : (Char.ofNat (97 + u2)).toUpper = Char.ofNat (65 + u2) :=
    toUpper_ofNat_lower u2 (by omega)
  have nu2 : (Char.ofNat (65 + u2)).toNat = 65 + u2 := char_toNat_ofNat _ (by omega)
  have te1 : (Char.ofNat (48 + e1)).toUpper = Char.ofNat (48 + e1) :=
    toUpper_of_lt _ (by rw [char_toNat_ofNat _ (by omega)]; omega)
  have ne1 : (Char.ofNat (48 + e1)).toNat = 48 + e1 := char_toNat_ofNat _ (by omega)
  have te2 : (Char.ofNat (48 + e2)).toUpper = Char.ofNat (48 + e2) :=
    toUpper_of_lt _ (by rw [char_toNat_ofNat _ (by omega)]; omega)
  have ne2 : (Char.ofNat (48 + e2)).toNat = 48 + e2 := char_toNat_ofNat _ (by omega)
  unfold maidenheadToBounds
  simp only [List.map_cons, List.map_nil, tf1, tf2, ts1, ts2, tu1, tu2, te1, te2,
    List.length_cons, List.length_nil, List.getD_cons_zero, List.getD_cons_succ]
  norm_num [nf1, nf2, ns1, ns2, nu1, nu2, ne1, ne2]

set_option maxHeartbeats 3200000 in
theorem encode_8 (f1 f2 s1 s2 u1 u2 e1 e2 : ℕ)
    (hf1 : f1 ≤ 17) (hf2 : f2 ≤ 17) (hs1 : s1 ≤ 9) (hs2 : s2 ≤ 9) (hu1 : u1 ≤ 23) (hu2 : u2 ≤ 23) (he1 : e1 ≤ 9) (he2 : e2 ≤ 9) :
    latLngToMaidenhead
      (-90 + (f2 : ℚ) * 10 + (s2 : ℚ) * 1 + (u2 : ℚ) * (1 / 24) + (e2 : ℚ) * (1 / 240) + 1 / 480)
      (-180 + (f1 : ℚ) * 20 + (s1 : ℚ) * 2 + (u1 : ℚ) * (2 / 24) + (e1 : ℚ) * (2 / 240) + 1 / 240)
      8
      = ⟨[Char.ofNat (65 + f1),
        Char.ofNat (65 + f2),
        Char.ofNat (48 + s1),
        Char.ofNat (48 + s2),
        Char.ofNat (97 + u1),
        Char.ofNat (97 + u2),
        Char.ofNat (48 + e1),
        Char.ofNat (48 + e2)]⟩ := by
  have cf1 : (f1 : ℚ) ≤ 17 := by exact_mod_cast hf1
  have qf1 : (0 : ℚ) ≤ (f1 : ℚ) := Nat.cast_nonneg f1
  have cf2 : (f2 : ℚ) ≤ 17 := by exact_mod_cast hf2
  have qf2 : (0 : ℚ) ≤ (f2 : ℚ) := Nat.cast_nonneg f2
  have cs1 : (s1 : ℚ) ≤ 9 := by exact_mod_cast hs1
  have qs1 : (0 : ℚ) ≤ (s1 : ℚ) := Nat.cast_nonneg s1
  have cs2 : (s2 : ℚ) ≤ 9 := by exact_mod_cast hs2
  have qs2 : (0 : ℚ) ≤ (s2 : ℚ) := Nat.cast_nonneg s2
  have cu1 : (u1 : ℚ) ≤ 23 := by exact_mod_cast hu1
  have qu1 : (0 : ℚ) ≤ (u1 : ℚ) := Nat.cast_nonneg u1
  have cu2 : (u2 : ℚ) ≤ 23 := by exact_mod_cast hu2
  have qu2 : (0 : ℚ) ≤ (u2 : ℚ) := Nat.cast_nonneg u2
  have ce1 : (e1 : ℚ) ≤ 9 := by exact_mod_cast he1
  have qe1 : (0 : ℚ) ≤ (e1 : ℚ) := Nat.cast_nonneg e1
  have ce2 : (e2 : ℚ) ≤ 9 := by exact_mod_cast he2
  have qe2 : (0 : ℚ) ≤ (e2 : ℚ) := Nat.cast_nonneg e2
  have AF0 : ⌊((-180 + (f1 : ℚ) * 20 + (s1 : ℚ) * 2 + (u1 : ℚ) * (2 / 24) + (e1 : ℚ) * (2 / 240) + 1 / 240) + 180) / 20⌋ = (f1 : ℤ) := by
    rw [show (-180 + (f1 : ℚ) * 20 + (s1 : ℚ) * 2 + (u1 : ℚ) * (2 / 24) + (e1 : ℚ) * (2 / 240) + 1 / 240) + 180
      = ((f1 : ℤ) : ℚ) * 20 + ((s1 : ℚ) * 2 + (u1 : ℚ) * (2 / 24) + (e1 : ℚ) * (2 / 240) + 1 / 240) by push_cast; ring]
    refine floor_mul_add _ _ _ ?_ ?_ ?_
    · norm_num
    · positivity
    · linarith
  have AJ1 : jsMod ((-180 + (f1 : ℚ) * 20 + (s1 : ℚ) * 2 + (u1 : ℚ) * (2 / 24) + (e1 : ℚ) * (2 / 240) + 1 / 240) + 180) 20 = (s1 : ℚ) * 2 + (u1 : ℚ) * (2 / 24) + (e1 : ℚ) * (2 / 240) + 1 / 240 := by
    rw [show (-180 + (f1 : ℚ) * 20 + (s1 : ℚ) * 2 + (u1 : ℚ) * (2 / 24) + (e1 : ℚ) * (2 / 240) + 1 / 240) + 180
      = ((f1 : ℤ) : ℚ) * 20 + ((s1 : ℚ) * 2 + (u1 : ℚ) * (2 / 24) + (e1 : ℚ) * (2 / 240) + 1 / 240) by push_cast; ring]
    refine jsMod_mul_add _ _ _ ?_ ?_ ?_ ?_
    · norm_num
    · omega
    · positivity
    · linarith
  have AF1 : ⌊((s1 : ℚ) * 2 + (u1 : ℚ) * (2 / 24) + (e1 : ℚ) * (2 / 240) + 1 / 240) / 2⌋ = (s1 : ℤ) := by
    rw [show (s1 : ℚ) * 2 + (u1 : ℚ) * (2 / 24) + (e1 : ℚ) * (2 / 240) + 1 / 240
      = ((s1 : ℤ) : ℚ) * 2 + ((u1 : ℚ) * (2 / 24) + (e1 : ℚ) * (2 / 240) + 1 / 240) by push_cast; ring]
    refine floor_mul_add _ _ _ ?_ ?_ ?_
    · norm_num
    · positivity
    · linarith
  have AJ2 : jsMod ((-180 + (f1 : ℚ) * 20 + (s1 : ℚ) * 2 + (u1 : ℚ) * (2 / 24) + (e1 : ℚ) * (2 / 240) + 1 / 240) + 180) 2 = (u1 : ℚ) * (2 / 24) + (e1 : ℚ) * (2 / 240) + 1 / 240 := by
    rw [show (-180 + (f1 : ℚ) * 20 + (s1 : ℚ) * 2 + (u1 : ℚ) * (2 / 24) + (e1 : ℚ) * (2 / 240) + 1 / 240) + 180
      = (↑(10 * (f1 : ℤ) + (s1 : ℤ)) : ℚ) * 2 + ((u1 : ℚ) * (2 / 24) + (e1 : ℚ) * (2 / 240) + 1 / 240) by push_cast; ring]
    refine jsMod_mul_add _ _ _ ?_ ?_ ?_ ?_
    · norm_num
    · omega
    · positivity
    · linarith
  have AF2 : ⌊((u1 : ℚ) * (2 / 24) + (e1 : ℚ) * (2 / 240) + 1 / 240) / (2 / 24)⌋ = (u1 : ℤ) := by
    rw [show (u1 : ℚ) * (2 / 24) + (e1 : ℚ) * (2 / 240) + 1 / 240
      = ((u1 : ℤ) : ℚ) * (2 / 24) + ((e1 : ℚ) * (2 / 240) + 1 / 240) by push_cast; ring]
    refine floor_mul_add _ _ _ ?_ ?_ ?_
    · norm_num
    · positivity
    · linarith
  have AJ3 : jsMod ((-180 + (f1 : ℚ) * 20 + (s1 : ℚ) * 2 + (u1 : ℚ) * (2 / 24) + (e1 : ℚ) * (2 / 240) + 1 / 240) + 180) (2 / 24) = (e1 : ℚ) * (2 / 240) + 1 / 240 := by
    rw [show (-180 + (f1 : ℚ) * 20 + (s1 : ℚ) * 2 + (u1 : ℚ) * (2 / 24) + (e1 : ℚ) * (2 / 240) + 1 / 240) + 180
      = (↑(240 * (f1 : ℤ) + 24 * (s1 : ℤ) + (u1 : ℤ)) : ℚ) * (2 / 24) + ((e1 : ℚ) * (2 / 240) + 1 / 240) by push_cast; ring]
    refine jsMod_mul_add _ _ _ ?_ ?_ ?_ ?_
    · norm_num
    · omega
    · positivity
    · linarith
  have AF3 : ⌊((e1 : ℚ) * (2 / 240) + 1 / 240) / (2 / 240)⌋ = (e1 : ℤ) := by
    rw [show (e1 : ℚ) * (2 / 240) + 1 / 240
      = ((e1 : ℤ) : ℚ) * (2 / 240) + (1 / 240) by push_cast; ring]
    refine floor_mul_add _ _ _ ?_ ?_ ?_
    · norm_num
    · positivity
    · linarith
  have BF0 : ⌊((-90 + (f2 : ℚ) * 10 + (s2 : ℚ) * 1 + (u2 : ℚ) * (1 / 24) + (e2 : ℚ) * (1 / 240) + 1 / 480) + 90) / 10⌋ = (f2 : ℤ) := by
    rw [show (-90 + (f2 : ℚ) * 10 + (s2 : ℚ) * 1 + (u2 : ℚ) * (1 / 24) + (e2 : ℚ) * (1 / 240) + 1 / 480) + 90
      = ((f2 : ℤ) : ℚ) * 10 + ((s2 : ℚ) * 1 + (u2 : ℚ) * (1 / 24) + (e2 : ℚ) * (1 / 240) + 1 / 480) by push_cast; ring]
    refine floor_mul_add _ _ _ ?_ ?_ ?_
    · norm_num
    · positivity
    · linarith
  have BJ1 : jsMod ((-90 + (f2 : ℚ) * 10 + (s2 : ℚ) * 1 + (u2 : ℚ) * (1 / 24) + (e2 : ℚ) * (1 / 240) + 1 / 480) + 90) 10 = (s2 : ℚ) * 1 + (u2 : ℚ) * (1 / 24) + (e2 : ℚ) * (1 / 240) + 1 / 480 := by
    rw [show (-90 + (f2 : ℚ) * 10 + (s2 : ℚ) * 1 + (u2 : ℚ) * (1 / 24) + (e2 : ℚ) * (1 / 240) + 1 / 480) + 90
      = ((f2 : ℤ) : ℚ) * 10 + ((s2 : ℚ) * 1 + (u2 : ℚ) * (1 / 24) + (e2 : ℚ) * (1 / 240) + 1 / 480) by push_cast; ring]
    refine jsMod_mul_add _ _ _ ?_ ?_ ?_ ?_
    · norm_num
    · omega
    · positivity
    · linarith
  have BF1 : ⌊((s2 : ℚ) * 1 + (u2 : ℚ) * (1 / 24) + (e2 : ℚ) * (1 / 240) + 1 / 480) / 1⌋ = (s2 : ℤ) := by
    rw [show (s2 : ℚ) * 1 + (u2 : ℚ) * (1 / 24) + (e2 : ℚ) * (1 / 240) + 1 / 480
      = ((s2 : ℤ) : ℚ) * 1 + ((u2 : ℚ) * (1 / 24) + (e2 : ℚ) * (1 / 240) + 1 / 480) by push_cast; ring]
    refine floor_mul_add _ _ _ ?_ ?_ ?_
    · norm_num
    · positivity
    · linarith
  have BJ2 : jsMod ((-90 + (f2 : ℚ) * 10 + (s2 : ℚ) * 1 + (u2 : ℚ) * (1 / 24) + (e2 : ℚ) * (1 / 240) + 1 / 480) + 90) 1 = (u2 : ℚ) * (1 / 24) + (e2 : ℚ) * (1 / 240) + 1 / 480 := by
    rw [show (-90 + (f2 : ℚ) * 10 + (s2 : ℚ) * 1 + (u2 : ℚ) * (1 / 24) + (e2 : ℚ) * (1 / 240) + 1 / 480) + 90
      = (↑(10 * (f2 : ℤ) + (s2 : ℤ)) : ℚ) * 1 + ((u2 : ℚ) * (1 / 24) + (e2 : ℚ) * (1 / 240) + 1 / 480) by push_cast; ring]
    refine jsMod_mul_add _ _ _ ?_ ?_ ?_ ?_
    · norm_num
    · omega
    · positivity
    · linarith
  have BF2 : ⌊((u2 : ℚ) * (1 / 24) + (e2 : ℚ) * (1 / 240) + 1 / 480) / (1 / 24)⌋ = (u2 : ℤ) := by
    rw [show (u2 : ℚ) * (1 / 24) + (e2 : ℚ) * (1 / 240) + 1 / 480
      = ((u2 : ℤ) : ℚ) * (1 / 24) + ((e2 : ℚ) * (1 / 240) + 1 / 480) by push_cast; ring]
    refine floor_mul_add _ _ _ ?_ ?_ ?_
    · norm_num
    · positivity
    · linarith
  have BJ3 : jsMod ((-90 + (f2 : ℚ) * 10 + (s2 : ℚ) * 1 + (u2 : ℚ) * (1 / 24) + (e2 : ℚ) * (1 / 240) + 1 / 480) + 90) (1 / 24) = (e2 : ℚ) * (1 / 240) + 1 / 480 := by
    rw [show (-90 + (f2 : ℚ) * 10 + (s2 : ℚ) * 1 + (u2 : ℚ) * (1 / 24) + (e2 : ℚ) * (1 / 240) + 1 / 480) + 90
      = (↑(240 * (f2 : ℤ) + 24 * (s2 : ℤ) + (u2 : ℤ)) : ℚ) * (1 / 24) + ((e2 : ℚ) * (1 / 240) + 1 / 480) by push_cast; ring]
    refine jsMod_mul_add _ _ _ ?_ ?_ ?_ ?_
    · norm_num
    · omega
    · positivity
    · linarith
  have BF3 : ⌊((e2 : ℚ) * (1 / 240) + 1 / 480) / (1 / 240)⌋ = (e2 : ℤ) := by
    rw [show (e2 : ℚ) * (1 / 240) + 1 / 480
      = ((e2 : ℤ) : ℚ) * (1 / 240) + (1 / 480) by push_cast; ring]
    refine floor_mul_add _ _ _ ?_ ?_ ?_
    · norm_num
    · positivity
    · linarith
  unfold latLngToMaidenhead
  dsimp only
  rw [if_neg (by norm_num), if_neg (by norm_num), if_neg (by norm_num)]
  rw [if_pos rfl]
  rw [AF0, AJ1, AF1, AJ2, AF2, AJ3, AF3, BF0, BJ1, BF1, BJ2, BF2, BJ3, BF3]
  norm_num [Int.toNat_natCast]


theorem char_toNat_le_of_le {a b : Char} (h : a ≤ b) : a.toNat ≤ b.toNat := by
  simp [Char.toNat]
  exact h

theorem char_upper_form (c : Char) (h1 : 'A' ≤ c) (h2 : c ≤ 'R') :
    ∃ k, k ≤ 17 ∧ c = Char.ofNat (65 + k) := by
  have hh1 := char_toNat_le_of_le h1
  have hh2 := char_toNat_le_of_le h2
  have e1 : ('A' : Char).toNat = 65 := rfl
  have e2 : ('R' : Char).toNat = 82 := rfl
  rw [e1] at hh1
  rw [e2] at hh2
  refine ⟨c.toNat - 65, by omega, ?_⟩
  rw [show 65 + (c.toNat - 65) = c.toNat by omega, char_ofNat_toNat]

theorem char_lower_form (c : Char) (h1 : 'a' ≤ c) (h2 : c ≤ 'x') :
    ∃ k, k ≤ 23 ∧ c = Char.ofNat (97 + k) := by
  have hh1 := char_toNat_le_of_le h1
  have hh2 := char_toNat_le_of_le h2
  have e1 : ('a' : Char).toNat = 97 := rfl
  have e2 : ('x' : Char).toNat = 120 := rfl
  rw [e1] at hh1
  rw [e2] at hh2
  refine ⟨c.toNat - 97, by omega, ?_⟩
  rw [show 97 + (c.toNat - 97) = c.toNat by omega, char_ofNat_toNat]

theorem char_digit_form (c : Char) (h1 : '0' ≤ c) (h2 : c ≤ '9') :
    ∃ k, k ≤ 9 ∧ c = Char.ofNat (48 + k) := by
  have hh1 := char_toNat_le_of_le h1
  have hh2 := char_toNat_le_of_le h2
  have e1 : ('0' : Char).toNat = 48 := rfl
  have e2 : ('9' : Char).toNat = 57 := rfl
  rw [e1] at hh1
  rw [e2] at hh2
  refine ⟨c.toNat - 48, by omega, ?_⟩
  rw [show 48 + (c.toNat - 48) = c.toNat by omega, char_ofNat_toNat]

theorem canonical_roundtrip_len2 (c0 c1 : Char)
    (h0 : 'A' ≤ c0 ∧ c0 ≤ 'R') (h1 : 'A' ≤ c1 ∧ c1 ≤ 'R') :
    latLngToMaidenhead (maidenheadToBounds ⟨[c0, c1]⟩).center.lat
      (maidenheadToBounds ⟨[c0, c1]⟩).center.lng 2 = ⟨[c0, c1]⟩ := by
  obtain ⟨k0, hk0, rfl⟩ := char_upper_form c0 h0.1 h0.2
  obtain ⟨k1, hk1, rfl⟩ := char_upper_form c1 h1.1 h1.2
  rw [decode_center_2 k0 k1 (by omega) (by omega)]
  exact encode_2 k0 k1 hk0 hk1
theorem canonical_roundtrip_len4 (c0 c1 c2 c3 : Char)
    (h0 : 'A' ≤ c0 ∧ c0 ≤ 'R')
    (h1 : 'A' ≤ c1 ∧ c1 ≤ 'R')
    (h2 : '0' ≤ c2 ∧ c2 ≤ '9')
    (h3 : '0' ≤ c3 ∧ c3 ≤ '9') :
    latLngToMaidenhead (maidenheadToBounds ⟨[c0, c1, c2, c3]⟩).center.lat
      (maidenheadToBounds ⟨[c0, c1, c2, c3]⟩).center.lng 4 = ⟨[c0, c1, c2, c3]⟩ := by
  obtain ⟨k0, hk0, rfl⟩ := char_upper_form c0 h0.1 h0.2
  obtain ⟨k1, hk1, rfl⟩ := char_upper_form c1 h1.1 h1.2
  obtain ⟨k2, hk2, rfl⟩ := char_digit_form c2 h2.1 h2.2
  obtain ⟨k3, hk3, rfl⟩ := char_digit_form c3 h3.1 h3.2
  rw [decode_center_4 k0 k1 k2 k3 (by omega) (by omega) (by omega) (by omega)]
  exact encode_4 k0 k1 k2 k3 hk0 hk1 hk2 hk3

theorem canonical_roundtrip_len6 (c0 c1 c2 c3 c4 c5 : Char)
    (h0 : 'A' ≤ c0 ∧ c0 ≤ 'R')
    (h1 : 'A' ≤ c1 ∧ c1 ≤ 'R')
    (h2 : '0' ≤ c2 ∧ c2 ≤ '9')
    (h3 : '0' ≤ c3 ∧ c3 ≤ '9')
    (h4 : 'a' ≤ c4 ∧ c4 ≤ 'x')
    (h5 : 'a' ≤ c5 ∧ c5 ≤ 'x') :
    latLngToMaidenhead (maidenheadToBounds ⟨[c0, c1, c2, c3, c4, c5]⟩).center.lat
      (maidenheadToBounds ⟨[c0, c1, c2, c3, c4, c5]⟩).center.lng 6 = ⟨[c0, c1, c2, c3, c4, c5]⟩ := by
  obtain ⟨k0, hk0, rfl⟩ := char_upper_form c0 h0.1 h0.2
  obtain ⟨k1, hk1, rfl⟩ := char_upper_form c1 h1.1 h1.2
  obtain ⟨k2, hk2, rfl⟩ := char_digit_form c2 h2.1 h2.2
  obtain ⟨k3, hk3, rfl⟩ := char_digit_form c3 h3.1 h3.2
  obtain ⟨k4, hk4, rfl⟩ := char_lower_form c4 h4.1 h4.2
  obtain ⟨k5, hk5, rfl⟩ := char_lower_form c5 h5.1 h5.2
  rw [decode_center_6 k0 k1 k2 k3 k4 k5 (by omega) (by omega) (by omega) (by omega) (by omega) (by omega)]
  exact encode_6 k0 k1 k2 k3 k4 k5 hk0 hk1 hk2 hk3 hk4 hk5

theorem canonical_roundtrip_len8 (c0 c1 c2 c3 c4 c5 c6 c7 : Char)
    (h0 : 'A' ≤ c0 ∧ c0 ≤ 'R')
    (h1 : 'A' ≤ c1 ∧ c1 ≤ 'R')
    (h2 : '0' ≤ c2 ∧ c2 ≤ '9')
    (h3 : '0' ≤ c3 ∧ c3 ≤ '9')
    (h4 : 'a' ≤ c4 ∧ c4 ≤ 'x')
    (h5 : 'a' ≤ c5 ∧ c5 ≤ 'x')
    (h6 : '0' ≤ c6 ∧ c6 ≤ '9')
    (h7 : '0' ≤ c7 ∧ c7 ≤ '9') :
    latLngToMaidenhead (maidenheadToBounds ⟨[c0, c1, c2, c3, c4, c5, c6, c7]⟩).center.lat
      (maidenheadToBounds ⟨[c0, c1, c2, c3, c4, c5, c6, c7]⟩).center.lng 8 = ⟨[c0, c1, c2, c3, c4, c5, c6, c7]⟩ := by
  obtain ⟨k0, hk0, rfl⟩ := char_upper_form c0 h0.1 h0.2
  obtain ⟨k1, hk1, rfl⟩ := char_upper_form c1 h1.1 h1.2
  obtain ⟨k2, hk2, rfl⟩ := char_digit_form c2 h2.1 h2.2
  obtain ⟨k3, hk3, rfl⟩ := char_digit_form c3 h3.1 h3.2
  obtain ⟨k4, hk4, rfl⟩ := char_lower_form c4 h4.1 h4.2
  obtain ⟨k5, hk5, rfl⟩ := char_lower_form c5 h5.1 h5.2
  obtain ⟨k6, hk6, rfl⟩ := char_digit_form c6 h6.1 h6.2
  obtain ⟨k7, hk7, rfl⟩ := char_digit_form c7 h7.1 h7.2
  rw [decode_center_8 k0 k1 k2 k3 k4 k5 k6 k7 (by omega) (by omega) (by omega) (by omega) (by omega) (by omega) (by omega) (by omega)]
  exact encode_8 k0 k1 k2 k3 k4 k5 k6 k7 hk0 hk1 hk2 hk3 hk4 hk5 hk6 hk7

theorem canonical_roundtrip_len10 (c0 c1 c2 c3 c4 c5 c6 c7 c8 c9 : Char)
    (h0 : 'A' ≤ c0 ∧ c0 ≤ 'R')
    (h1 : 'A' ≤ c1 ∧ c1 ≤ 'R')
    (h2 : '0' ≤ c2 ∧ c2 ≤ '9')
    (h3 : '0' ≤ c3 ∧ c3 ≤ '9')
    (h4 : 'a' ≤ c4 ∧ c4 ≤ 'x')
    (h5 : 'a' ≤ c5 ∧ c5 ≤ 'x')
    (h6 : '0' ≤ c6 ∧ c6 ≤ '9')
    (h7 : '0' ≤ c7 ∧ c7 ≤ '9')
    (h8 : 'a' ≤ c8 ∧ c8 ≤ 'x')
    (h9 : 'a' ≤ c9 ∧ c9 ≤ 'x') :
    latLngToMaidenhead (maidenheadToBounds ⟨[c0, c1, c2, c3, c4, c5, c6, c7, c8, c9]⟩).center.lat
      (maidenheadToBounds ⟨[c0, c1, c2, c3, c4, c5, c6, c7, c8, c9]⟩).center.lng 10 = ⟨[c0, c1, c2, c3, c4, c5, c6, c7, c8, c9]⟩ := by
  obtain ⟨k0, hk0, rfl⟩ := char_upper_form c0 h0.1 h0.2
  obtain ⟨k1, hk1, rfl⟩ := char_upper_form c1 h1.1 h1.2
  obtain ⟨k2, hk2, rfl⟩ := char_digit_form c2 h2.1 h2.2
  obtain ⟨k3, hk3, rfl⟩ := char_digit_form c3 h3.1 h3.2
  obtain ⟨k4, hk4, rfl⟩ := char_lower_form c4 h4.1 h4.2
  obtain ⟨k5, hk5, rfl⟩ := char_lower_form c5 h5.1 h5.2
  obtain ⟨k6, hk6, rfl⟩ := char_digit_form c6 h6.1 h6.2
  obtain ⟨k7, hk7, rfl⟩ := char_digit_form c7 h7.1 h7.2
  obtain ⟨k8, hk8, rfl⟩ := char_lower_form c8 h8.1 h8.2
  obtain ⟨k9, hk9, rfl⟩ := char_lower_form c9 h9.1 h9.2
  rw [decode_center_10 k0 k1 k2 k3 k4 k5 k6 k7 k8 k9 (by omega) (by omega) (by omega) (by omega) (by omega) (by omega) (by omega) (by omega) (by omega) (by omega)]
  exact encode_10 k0 k1 k2 k3 k4 k5 k6 k7 k8 k9 hk0 hk1 hk2 hk3 hk4 hk5 hk6 hk7 hk8 hk9

set_option maxRecDepth 4000 in
/-- C7 (amended): encoding the center of a decoded locator at the locator's
own precision reproduces the locator for every *canonical-form* locator —
field letters `A`–`R`, digits, subsquare/super-extended letters `a`–`x` in
the encoder's case convention (uppercase fields, lowercase subsquares).
Outside that alphabet the identity fails: out-of-range letters overflow into
coarser tiers and the encoder's case convention differs from upper-cased
input (see the counterexample). -/
theorem canonicalLocator_roundtrip (s : String) (hc : canonicalLocator s = true) :
    latLngToMaidenhead (maidenheadToBounds s).center.lat
      (maidenheadToBounds s).center.lng s.length = s := by
  obtain ⟨cs⟩ := s
  unfold canonicalLocator at hc
  simp only [Bool.and_eq_true, Bool.or_eq_true, decide_eq_true_eq,
    List.all_eq_true] at hc
  obtain ⟨hlen, hall⟩ := hc
  rcases cs with _|⟨c0,_|⟨c1,_|⟨c2,_|⟨c3,_|⟨c4,_|⟨c5,_|⟨c6,_|⟨c7,_|⟨c8,_|⟨c9,_|⟨c10,rest⟩⟩⟩⟩⟩⟩⟩⟩⟩⟩⟩
  · exfalso
    simp only [String.length, List.length_cons, List.length_nil] at hlen
    omega
  · exfalso
    simp only [String.length, List.length_cons, List.length_nil] at hlen
    omega
  · -- length 2
    have henum : ([c0, c1] : List Char).enum = [(0, c0), (1, c1)] := rfl
    rw [henum] at hall
    have h0 := hall (0, c0) (by simp)
    have h1 := hall (1, c1) (by simp)
    simp only [canonicalGridChar] at h0 h1
    norm_num [Bool.and_eq_true] at h0 h1
    exact canonical_roundtrip_len2 c0 c1 h0 h1
  · exfalso
    simp only [String.length, List.length_cons, List.length_nil] at hlen
    omega
  · -- length 4
    have henum : ([c0, c1, c2, c3] : List Char).enum = [(0, c0), (1, c1), (2, c2), (3, c3)] := rfl
    rw [henum] at hall
    have h0 := hall (0, c0) (by simp)
    have h1 := hall (1, c1) (by simp)
    have h2 := hall (2, c2) (by simp)
    have h3 := hall (3, c3) (by simp)
    simp only [canonicalGridChar] at h0 h1 h2 h3
    norm_num [Bool.and_eq_true] at h0 h1 h2 h3
    exact canonical_roundtrip_len4 c0 c1 c2 c3 h0 h1 h2 h3
  · exfalso
    simp only [String.length, List.length_cons, List.length_nil] at hlen
    omega
  · -- length 6
    have henum : ([c0, c1, c2, c3, c4, c5] : List Char).enum = [(0, c0), (1, c1), (2, c2), (3, c3), (4, c4), (5, c5)] := rfl
    rw [henum] at hall
    have h0 := hall (0, c0) (by simp)
    have h1 := hall (1, c1) (by simp)
    have h2 := hall (2, c2) (by simp)
    have h3 := hall (3, c3) (by simp)
    have h4 := hall (4, c4) (by simp)
    have h5 := hall (5, c5) (by simp)
    simp only [canonicalGridChar] at h0 h1 h2 h3 h4 h5
    norm_num [Bool.and_eq_true] at h0 h1 h2 h3 h4 h5
    exact canonical_roundtrip_len6 c0 c1 c2 c3 c4 c5 h0 h1 h2 h3 h4 h5
  · exfalso
    simp only [String.length, List.length_cons, List.length_nil] at hlen
    omega
  · -- length 8
    have henum : ([c0, c1, c2, c3, c4, c5, c6, c7] : List Char).enum = [(0, c0), (1, c1), (2, c2), (3, c3), (4, c4), (5, c5), (6, c6), (7, c7)] := rfl
    rw [henum] at hall
    have h0 := hall (0, c0) (by simp)
    have h1 := hall (1, c1) (by simp)
    have h2 := hall (2, c2) (by simp)
    have h3 := hall (3, c3) (by simp)
    have h4 := hall (4, c4) (by simp)
    have h5 := hall (5, c5) (by simp)
    have h6 := hall (6, c6) (by simp)
    have h7 := hall (7, c7) (by simp)
    simp only [canonicalGridChar] at h0 h1 h2 h3 h4 h5 h6 h7
    norm_num [Bool.and_eq_true] at h0 h1 h2 h3 h4 h5 h6 h7
    exact canonical_roundtrip_len8 c0 c1 c2 c3 c4 c5 c6 c7 h0 h1 h2 h3 h4 h5 h6 h7
  · exfalso
    simp only [String.length, List.length_cons, List.length_nil] at hlen
    omega
  · -- length 10
    have henum : ([c0, c1, c2, c3, c4, c5, c6, c7, c8, c9] : List Char).enum = [(0, c0), (1, c1), (2, c2), (3, c3), (4, c4), (5, c5), (6, c6), (7, c7), (8, c8), (9, c9)] := rfl
    rw [henum] at hall
    have h0 := hall (0, c0) (by simp)
    have h1 := hall (1, c1) (by simp)
    have h2 := hall (2, c2) (by simp)
    have h3 := hall (3, c3) (by simp)
    have h4 := hall (4, c4) (by simp)
    have h5 := hall (5, c5) (by simp)
    have h6 := hall (6, c6) (by simp)
    have h7 := hall (7, c7) (by simp)
    have h8 := hall (8, c8) (by simp)
    have h9 := hall (9, c9) (by simp)
    simp only [canonicalGridChar] at h0 h1 h2 h3 h4 h5 h6 h7 h8 h9
    norm_num [Bool.and_eq_true] at h0 h1 h2 h3 h4 h5 h6 h7 h8 h9
    exact canonical_roundtrip_len10 c0 c1 c2 c3 c4 c5 c6 c7 c8 c9 h0 h1 h2 h3 h4 h5 h6 h7 h8 h9
  · exfalso
    simp only [String.length, List.length_cons, List.length_nil] at hlen
    omega

attribute [local semireducible] Rat.add Rat.mul Rat.inv Rat.sub in
/-- C7, counterexample: `"AA00yy"` is accepted by the code's validator, yet
`toLocator(center(toBounds "AA00yy")), 6) = "AA11aa" ≠ "AA00yy"`: the
subsquare letters `y` beyond the Maidenhead subsquare range `a`–`x` overflow
into the square digits. -/
theorem roundtrip_fails_for_AA00yy :
    isValidGridSquare "AA00yy" = true
      ∧ latLngToMaidenhead (maidenheadToBounds "AA00yy").center.lat
          (maidenheadToBounds "AA00yy").center.lng "AA00yy".length = "AA11aa"
      ∧ ("AA11aa" : String) ≠ "AA00yy" :=
  ⟨by decide, by decide, by decide⟩

/-- C7 witness: the amended round trip applied to the canonical locator
`"KN41kb"` (the spec's own concrete example). -/
theorem canonicalLocator_roundtrip_witness :
    canonicalLocator "KN41kb" = true
      ∧ latLngToMaidenhead (maidenheadToBounds "KN41kb").center.lat
          (maidenheadToBounds "KN41kb").center.lng "KN41kb".length = "KN41kb" :=
  ⟨by decide, canonicalLocator_roundtrip "KN41kb" (by decide)⟩

/-! ## C8 — decoded bounds contain the encoded point -/

theorem jsMod_chain (x t s : ℚ) (m : ℤ) (hx : 0 ≤ x) (hs : 0 < s) (hm : 0 < m)
    (ht : t = m * s) : jsMod x s = jsMod (jsMod x t) s := by
  have htpos : 0 < t := by
    rw [ht]
    have : (0 : ℚ) < (m : ℚ) := by exact_mod_cast hm
    positivity
  have hr := jsMod_bounds x t hx htpos
  have hxdec : x = t * ⌊x / t⌋ + jsMod x t := by
    rw [jsMod_eq_floor x t hx htpos]
    ring
  have hfl : ⌊x / s⌋ = m * ⌊x / t⌋ + ⌊jsMod x t / s⌋ := by
    rw [show x / s = ((m * ⌊x / t⌋ : ℤ) : ℚ) + jsMod x t / s by
      push_cast
      rw [div_eq_iff (ne_of_gt hs)]
      calc x = t * ⌊x / t⌋ + jsMod x t := hxdec
        _ = ((m : ℚ) * ⌊x / t⌋ + jsMod x t / s) * s := by
            rw [ht]; field_simp; ring]
    rw [Int.floor_int_add]
  rw [jsMod_eq_floor x s hx hs, jsMod_eq_floor (jsMod x t) s hr.1 hs, hfl]
  push_cast
  linear_combination hxdec + (↑⌊x / t⌋ : ℚ) * ht

theorem tier_step (x t s : ℚ) (m : ℤ) (hx : 0 ≤ x) (hs : 0 < s) (hm : 0 < m)
    (ht : t = m * s) : s * ⌊jsMod x t / s⌋ = jsMod x t - jsMod x s := by
  have htpos : 0 < t := by
    rw [ht]
    have : (0 : ℚ) < (m : ℚ) := by exact_mod_cast hm
    positivity
  have hr := jsMod_bounds x t hx htpos
  rw [jsMod_chain x t s m hx hs hm ht,
    jsMod_eq_floor (jsMod x t) s hr.1 hs]
  ring

theorem floor_div_range (r s : ℚ) (m : ℤ) (hr0 : 0 ≤ r) (hs : 0 < s)
    (hrm : r < m * s) : 0 ≤ ⌊r / s⌋ ∧ ⌊r / s⌋ < m :=
  ⟨Int.floor_nonneg.mpr (div_nonneg hr0 hs.le),
    Int.floor_lt.mpr (by rw [div_lt_iff₀ hs]; linarith)⟩

set_option maxHeartbeats 3200000 in
theorem decode_bounds_2 (f1 f2 : ℕ)
    (hf1 : f1 ≤ 25) (hf2 : f2 ≤ 25) :
    maidenheadToBounds ⟨[Char.ofNat (65 + f1),
        Char.ofNat (65 + f2)]⟩
      = ⟨⟨-90 + (f2 : ℚ) * 10,
          -180 + (f1 : ℚ) * 20⟩,
        ⟨-90 + (f2 : ℚ) * 10 + 10,
          -180 + (f1 : ℚ) * 20 + 20⟩,
        ⟨-90 + (f2 : ℚ) * 10 + 5,
          -180 + (f1 : ℚ) * 20 + 10⟩⟩ := by
  have tf1 : (Char.ofNat (65 + f1)).toUpper = Char.ofNat (65 + f1) :=
    toUpper_of_lt _ (by rw [char_toNat_ofNat _ (by omega)]; omega)
  have nf1 : (Char.ofNat (65 + f1)).toNat = 65 + f1 := char_toNat_ofNat _ (by omega)
  have tf2 : (Char.ofNat (65 + f2)).toUpper = Char.ofNat (65 + f2) :=
    toUpper_of_lt _ (by rw [char_toNat_ofNat _ (by omega)]; omega)
  have nf2 : (Char.ofNat (65 + f2)).toNat = 65 + f2 := char_toNat_ofNat _ (by omega)
  unfold maidenheadToBounds
  simp only [List.map_cons, List.map_nil, tf1, tf2,
    List.length_cons, List.length_nil, List.getD_cons_zero, List.getD_cons_succ]
  norm_num [nf1, nf2]

set_option maxHeartbeats 3200000 in
theorem contains_2 (lat lng : ℚ)
    (hlat1 : -90 ≤ lat) (hlat2 : lat ≤ 90)
    (hlng1 : -180 ≤ lng) (hlng2 : lng ≤ 180) :
    containsPoint (maidenheadToBounds (latLngToMaidenhead lat lng 2)) ⟨lat, lng⟩ := by
  have hx0 : (0 : ℚ) ≤ lng + 180 := by linarith
  have hy0 : (0 : ℚ) ≤ lat + 90 := by linarith
  have hxm0 := jsMod_bounds (lng + 180) 20 hx0 (by norm_num)
  have hxa0 := floor_div_range (lng + 180) 20 19 hx0 (by norm_num) (by push_cast; linarith)
  have Ex0 := jsMod_eq_floor (lng + 180) 20 hx0 (by norm_num)
  have cx0 : ((⌊(lng + 180) / 20⌋.toNat : ℕ) : ℚ) = ((⌊(lng + 180) / 20⌋ : ℤ) : ℚ) := by
    exact_mod_cast Int.toNat_of_nonneg hxa0.1
  have hym0 := jsMod_bounds (lat + 90) 10 hy0 (by norm_num)
  have hya0 := floor_div_range (lat + 90) 10 19 hy0 (by norm_num) (by push_cast; linarith)
  have Ey0 := jsMod_eq_floor (lat + 90) 10 hy0 (by norm_num)
  have cy0 : ((⌊(lat + 90) / 10⌋.toNat : ℕ) : ℚ) = ((⌊(lat + 90) / 10⌋ : ℤ) : ℚ) := by
    exact_mod_cast Int.toNat_of_nonneg hya0.1
  rw [show latLngToMaidenhead lat lng 2 = ⟨[Char.ofNat (65 + ⌊(lng + 180) / 20⌋.toNat),
      Char.ofNat (65 + ⌊(lat + 90) / 10⌋.toNat)]⟩ from rfl]
  rw [decode_bounds_2 (⌊(lng + 180) / 20⌋.toNat) (⌊(lat + 90) / 10⌋.toNat)
    (by omega) (by omega)]
  unfold containsPoint
  dsimp only
  rw [cx0, cy0]
  refine ⟨?_, ?_, ?_, ?_⟩
  · linarith
  · linarith
  · linarith
  · linarith

set_option maxHeartbeats 3200000 in
theorem decode_bounds_4 (f1 f2 s1 s2 : ℕ)
    (hf1 : f1 ≤ 25) (hf2 : f2 ≤ 25) (hs1 : s1 ≤ 9) (hs2 : s2 ≤ 9) :
    maidenheadToBounds ⟨[Char.ofNat (65 + f1),
        Char.ofNat (65 + f2),
        Char.ofNat (48 + s1),
        Char.ofNat (48 + s2)]⟩
      = ⟨⟨-90 + (f2 : ℚ) * 10 + (s2 : ℚ) * 1,
          -180 + (f1 : ℚ) * 20 + (s1 : ℚ) * 2⟩,
        ⟨-90 + (f2 : ℚ) * 10 + (s2 : ℚ) * 1 + 1,
          -180 + (f1 : ℚ) * 20 + (s1 : ℚ) * 2 + 2⟩,
        ⟨-90 + (f2 : ℚ) * 10 + (s2 : ℚ) * 1 + 1 / 2,
          -180 + (f1 : ℚ) * 20 + (s1 : ℚ) * 2 + 1⟩⟩ := by
  have tf1 : (Char.ofNat (65 + f1)).toUpper = Char.ofNat (65 + f1) :=
    toUpper_of_lt _ (by rw [char_toNat_ofNat _ (by omega)]; omega)
  have nf1 : (Char.ofNat (65 + f1)).toNat = 65 + f1 := char_toNat_ofNat _ (by omega)
  have tf2 : (Char.ofNat (65 + f2)).toUpper = Char.ofNat (65 + f2) :=
    toUpper_of_lt _ (by rw [char_toNat_ofNat _ (by omega)]; omega)
  have nf2 : (Char.ofNat (65 + f2)).toNat = 65 + f2 := char_toNat_ofNat _ (by omega)
  have ts1 : (Char.ofNat (48 + s1)).toUpper = Char.ofNat (48 + s1) :=
    toUpper_of_lt _ (by rw [char_toNat_ofNat _ (by omega)]; omega)
  have ns1 : (Char.ofNat (48 + s1)).toNat = 48 + s1 := char_toNat_ofNat _ (by omega)
  have ts2 : (Char.ofNat (48 + s2)).toUpper = Char.ofNat (48 + s2) :=
    toUpper_of_lt _ (by rw [char_toNat_ofNat _ (by omega)]; omega)
  have ns2 : (Char.ofNat (48 + s2)).toNat = 48 + s2 := char_toNat_ofNat _ (by omega)
  unfold maidenheadToBounds
  simp only [List.map_cons, List.map_nil, tf1, tf2, ts1, ts2,
    List.length_cons, List.length_nil, List.getD_cons_zero, List.getD_cons_succ]
  norm_num [nf1, nf2, ns1, ns2]

set_option maxHeartbeats 3200000 in
theorem contains_4 (lat lng : ℚ)
    (hlat1 : -90 ≤ lat) (hlat2 : lat ≤ 90)
    (hlng1 : -180 ≤ lng) (hlng2 : lng ≤ 180) :
    containsPoint (maidenheadToBounds (latLngToMaidenhead lat lng 4)) ⟨lat, lng⟩ := by
  have hx0 : (0 : ℚ) ≤ lng + 180 := by linarith
  have hy0 : (0 : ℚ) ≤ lat + 90 := by linarith
  have hxm0 := jsMod_bounds (lng + 180) 20 hx0 (by norm_num)
  have hxm1 := jsMod_bounds (lng + 180) 2 hx0 (by norm_num)
  have hxa0 := floor_div_range (lng + 180) 20 19 hx0 (by norm_num) (by push_cast; linarith)
  have hxa1 := floor_div_range (jsMod (lng + 180) 20) 2 10 hxm0.1 (by norm_num) (by push_cast; linarith [hxm0.2])
  have Ex0 := jsMod_eq_floor (lng + 180) 20 hx0 (by norm_num)
  have Ex1 := tier_step (lng + 180) 20 2 10 hx0 (by norm_num) (by norm_num) (by norm_num)
  have cx0 : ((⌊(lng + 180) / 20⌋.toNat : ℕ) : ℚ) = ((⌊(lng + 180) / 20⌋ : ℤ) : ℚ) := by
    exact_mod_cast Int.toNat_of_nonneg hxa0.1
  have cx1 : ((⌊jsMod (lng + 180) 20 / 2⌋.toNat : ℕ) : ℚ) = ((⌊jsMod (lng + 180) 20 / 2⌋ : ℤ) : ℚ) := by
    exact_mod_cast Int.toNat_of_nonneg hxa1.1
  have hym0 := jsMod_bounds (lat + 90) 10 hy0 (by norm_num)
  have hym1 := jsMod_bounds (lat + 90) 1 hy0 (by norm_num)
  have hya0 := floor_div_range (lat + 90) 10 19 hy0 (by norm_num) (by push_cast; linarith)
  have hya1 := floor_div_range (jsMod (lat + 90) 10) 1 10 hym0.1 (by norm_num) (by push_cast; linarith [hym0.2])
  have Ey0 := jsMod_eq_floor (lat + 90) 10 hy0 (by norm_num)
  have Ey1 := tier_step (lat + 90) 10 1 10 hy0 (by norm_num) (by norm_num) (by norm_num)
  have cy0 : ((⌊(lat + 90) / 10⌋.toNat : ℕ) : ℚ) = ((⌊(lat + 90) / 10⌋ : ℤ) : ℚ) := by
    exact_mod_cast Int.toNat_of_nonneg hya0.1
  have cy1 : ((⌊jsMod (lat + 90) 10 / 1⌋.toNat : ℕ) : ℚ) = ((⌊jsMod (lat + 90) 10 / 1⌋ : ℤ) : ℚ) := by
    exact_mod_cast Int.toNat_of_nonneg hya1.1
  rw [show latLngToMaidenhead lat lng 4 = ⟨[Char.ofNat (65 + ⌊(lng + 180) / 20⌋.toNat),
      Char.ofNat (65 + ⌊(lat + 90) / 10⌋.toNat),
      Char.ofNat (48 + ⌊jsMod (lng + 180) 20 / 2⌋.toNat),
      Char.ofNat (48 + ⌊jsMod (lat + 90) 10 / 1⌋.toNat)]⟩ from rfl]
  rw [decode_bounds_4 (⌊(lng + 180) / 20⌋.toNat) (⌊(lat + 90) / 10⌋.toNat) (⌊jsMod (lng + 180) 20 / 2⌋.toNat) (⌊jsMod (lat + 90) 10 / 1⌋.toNat)
    (by omega) (by omega) (by omega) (by omega)]
  unfold containsPoint
  dsimp only
  rw [cx0, cx1, cy0, cy1]
  refine ⟨?_, ?_, ?_, ?_⟩
  · linarith
  · linarith
  · linarith
  · linarith

set_option maxHeartbeats 3200000 in
theorem decode_bounds_6 (f1 f2 s1 s2 u1 u2 : ℕ)
    (hf1 : f1 ≤ 25) (hf2 : f2 ≤ 25) (hs1 : s1 ≤ 9) (hs2 : s2 ≤ 9) (hu1 : u1 ≤ 25) (hu2 : u2 ≤ 25) :
    maidenheadToBounds ⟨[Char.ofNat (65 + f1),
        Char.ofNat (65 + f2),
        Char.ofNat (48 + s1),
        Char.ofNat (48 + s2),
        Char.ofNat (97 + u1),
        Char.ofNat (97 + u2)]⟩
      = ⟨⟨-90 + (f2 : ℚ) * 10 + (s2 : ℚ) * 1 + (u2 : ℚ) * (1 / 24),
          -180 + (f1 : ℚ) * 20 + (s1 : ℚ) * 2 + (u1 : ℚ) * (2 / 24)⟩,
        ⟨-90 + (f2 : ℚ) * 10 + (s2 : ℚ) * 1 + (u2 : ℚ) * (1 / 24) + 1 / 24,
          -180 + (f1 : ℚ) * 20 + (s1 : ℚ) * 2 + (u1 : ℚ) * (2 / 24) + 2 / 24⟩,
        ⟨-90 + (f2 : ℚ) * 10 + (s2 : ℚ) * 1 + (u2 : ℚ) * (1 / 24) + 1 / 48,
          -180 + (f1 : ℚ) * 20 + (s1 : ℚ) * 2 + (u1 : ℚ) * (2 / 24) + 1 / 24⟩⟩ := by
  have tf1 : (Char.ofNat (65 + f1)).toUpper = Char.ofNat (65 + f1) :=
    toUpper_of_lt _ (by rw [char_toNat_ofNat _ (by omega)]; omega)
  have nf1 : (Char.ofNat (65 + f1)).toNat = 65 + f1 := char_toNat_ofNat _ (by omega)
  have tf2 : (Char.ofNat (65 + f2)).toUpper = Char.ofNat (65 + f2) :=
    toUpper_of_lt _ (by rw [char_toNat_ofNat _ (by omega)]; omega)
  have nf2 : (Char.ofNat (65 + f2)).toNat = 65 + f2 := char_toNat_ofNat _ (by omega)
  have ts1 : (Char.ofNat (48 + s1)).toUpper = Char.ofNat (48 + s1) :=
    toUpper_of_lt _ (by rw [char_toNat_ofNat _ (by omega)]; omega)
  have ns1 : (Char.ofNat (48 + s1)).toNat = 48 + s1 := char_toNat_ofNat _ (by omega)
  have ts2 : (Char.ofNat (48 + s2)).toUpper = Char.ofNat (48 + s2) :=
    toUpper_of_lt _ (by rw [char_toNat_ofNat _ (by omega)]; omega)
  have ns2 : (Char.ofNat (48 + s2)).toNat = 48 + s2 := char_toNat_ofNat _ (by omega)
  have tu1 : (Char.ofNat (97 + u1)).toUpper = Char.ofNat (65 + u1) :=
    toUpper_ofNat_lower u1 (by omega)
  have nu1 : (Char.ofNat (65 + u1)).toNat = 65 + u1 := char_toNat_ofNat _ (by omega)
  have tu2 : (Char.ofNat (97 + u2)).toUpper = Char.ofNat (65 + u2) :=
    toUpper_ofNat_lower u2 (by omega)
  have nu2 : (Char.ofNat (65 + u2)).toNat = 65 + u2 := char_toNat_ofNat _ (by omega)
  unfold maidenheadToBounds
  simp only [List.map_cons, List.map_nil, tf1, tf2, ts1, ts2, tu1, tu2,
    List.length_cons, List.length_nil, List.getD_cons_zero, List.getD_cons_succ]
  norm_num [nf1, nf2, ns1, ns2, nu1, nu2]

set_option maxHeartbeats 3200000 in
theorem contains_6 (lat lng : ℚ)
    (hlat1 : -90 ≤ lat) (hlat2 : lat ≤ 90)
    (hlng1 : -180 ≤ lng) (hlng2 : lng ≤ 180) :
    containsPoint (maidenheadToBounds (latLngToMaidenhead lat lng 6)) ⟨lat, lng⟩ := by
  have hx0 : (0 : ℚ) ≤ lng + 180 := by linarith
  have hy0 : (0 : ℚ) ≤ lat + 90 := by linarith
  have hxm0 := jsMod_bounds (lng + 180) 20 hx0 (by norm_num)
  have hxm1 := jsMod_bounds (lng + 180) 2 hx0 (by norm_num)
  have hxm2 := jsMod_bounds (lng + 180) (2 / 24) hx0 (by norm_num)
  have hxa0 := floor_div_range (lng + 180) 20 19 hx0 (by norm_num) (by push_cast; linarith)
  have hxa1 := floor_div_range (jsMod (lng + 180) 20) 2 10 hxm0.1 (by norm_num) (by push_cast; linarith [hxm0.2])
  have hxa2 := floor_div_range (jsMod (lng + 180) 2) (2 / 24) 24 hxm1.1 (by norm_num) (by push_cast; linarith [hxm1.2])
  have Ex0 := jsMod_eq_floor (lng + 180) 20 hx0 (by norm_num)
  have Ex1 := tier_step (lng + 180) 20 2 10 hx0 (by norm_num) (by norm_num) (by norm_num)
  have Ex2 := tier_step (lng + 180) 2 (2 / 24) 24 hx0 (by norm_num) (by norm_num) (by norm_num)
  have cx0 : ((⌊(lng + 180) / 20⌋.toNat : ℕ) : ℚ) = ((⌊(lng + 180) / 20⌋ : ℤ) : ℚ) := by
    exact_mod_cast Int.toNat_of_nonneg hxa0.1
  have cx1 : ((⌊jsMod (lng + 180) 20 / 2⌋.toNat : ℕ) : ℚ) = ((⌊jsMod (lng + 180) 20 / 2⌋ : ℤ) : ℚ) := by
    exact_mod_cast Int.toNat_of_nonneg hxa1.1
  have cx2 : ((⌊jsMod (lng + 180) 2 / (2 / 24)⌋.toNat : ℕ) : ℚ) = ((⌊jsMod (lng + 180) 2 / (2 / 24)⌋ : ℤ) : ℚ) := by
    exact_mod_cast Int.toNat_of_nonneg hxa2.1
  have hym0 := jsMod_bounds (lat + 90) 10 hy0 (by norm_num)
  have hym1 := jsMod_bounds (lat + 90) 1 hy0 (by norm_num)
  have hym2 := jsMod_bounds (lat + 90) (1 / 24) hy0 (by norm_num)
  have hya0 := floor_div_range (lat + 90) 10 19 hy0 (by norm_num) (by push_cast; linarith)
  have hya1 := floor_div_range (jsMod (lat + 90) 10) 1 10 hym0.1 (by norm_num) (by push_cast; linarith [hym0.2])
  have hya2 := floor_div_range (jsMod (lat + 90) 1) (1 / 24) 24 hym1.1 (by norm_num) (by push_cast; linarith [hym1.2])
  have Ey0 := jsMod_eq_floor (lat + 90) 10 hy0 (by norm_num)
  have Ey1 := tier_step (lat + 90) 10 1 10 hy0 (by norm_num) (by norm_num) (by norm_num)
  have Ey2 := tier_step (lat + 90) 1 (1 / 24) 24 hy0 (by norm_num) (by norm_num) (by norm_num)
  have cy0 : ((⌊(lat + 90) / 10⌋.toNat : ℕ) : ℚ) = ((⌊(lat + 90) / 10⌋ : ℤ) : ℚ) := by
    exact_mod_cast Int.toNat_of_nonneg hya0.1
  have cy1 : ((⌊jsMod (lat + 90) 10 / 1⌋.toNat : ℕ) : ℚ) = ((⌊jsMod (lat + 90) 10 / 1⌋ : ℤ) : ℚ) := by
    exact_mod_cast Int.toNat_of_nonneg hya1.1
  have cy2 : ((⌊jsMod (lat + 90) 1 / (1 / 24)⌋.toNat : ℕ) : ℚ) = ((⌊jsMod (lat + 90) 1 / (1 / 24)⌋ : ℤ) : ℚ) := by
    exact_mod_cast Int.toNat_of_nonneg hya2.1
  rw [show latLngToMaidenhead lat lng 6 = ⟨[Char.ofNat (65 + ⌊(lng + 180) / 20⌋.toNat),
      Char.ofNat (65 + ⌊(lat + 90) / 10⌋.toNat),
      Char.ofNat (48 + ⌊jsMod (lng + 180) 20 / 2⌋.toNat),
      Char.ofNat (48 + ⌊jsMod (lat + 90) 10 / 1⌋.toNat),
      Char.ofNat (97 + ⌊jsMod (lng + 180) 2 / (2 / 24)⌋.toNat),
      Char.ofNat (97 + ⌊jsMod (lat + 90) 1 / (1 / 24)⌋.toNat)]⟩ from rfl]
  rw [decode_bounds_6 (⌊(lng + 180) / 20⌋.toNat) (⌊(lat + 90) / 10⌋.toNat) (⌊jsMod (lng + 180) 20 / 2⌋.toNat) (⌊jsMod (lat + 90) 10 / 1⌋.toNat) (⌊jsMod (lng + 180) 2 / (2 / 24)⌋.toNat) (⌊jsMod (lat + 90) 1 / (1 / 24)⌋.toNat)
    (by omega) (by omega) (by omega) (by omega) (by omega) (by omega)]
  unfold containsPoint
  dsimp only
  rw [cx0, cx1, cx2, cy0, cy1, cy2]
  refine ⟨?_, ?_, ?_, ?_⟩
  · linarith
  · linarith
  · linarith
  · linarith

set_option maxHeartbeats 3200000 in
theorem decode_bounds_8 (f1 f2 s1 s2 u1 u2 e1 e2 : ℕ)
    (hf1 : f1 ≤ 25) (hf2 : f2 ≤ 25) (hs1 : s1 ≤ 9) (hs2 : s2 ≤ 9) (hu1 : u1 ≤ 25) (hu2 : u2 ≤ 25) (he1 : e1 ≤ 9) (he2 : e2 ≤ 9) :
    maidenheadToBounds ⟨[Char.ofNat (65 + f1),
        Char.ofNat (65 + f2),
        Char.ofNat (48 + s1),
        Char.ofNat (48 + s2),
        Char.ofNat (97 + u1),
        Char.ofNat (97 + u2),
        Char.ofNat (48 + e1),
        Char.ofNat (48 + e2)]⟩
      = ⟨⟨-90 + (f2 : ℚ) * 10 + (s2 : ℚ) * 1 + (u2 : ℚ) * (1 / 24) + (e2 : ℚ) * (1 / 240),
          -180 + (f1 : ℚ) * 20 + (s1 : ℚ) * 2 + (u1 : ℚ) * (2 / 24) + (e1 : ℚ) * (2 / 240)⟩,
        ⟨-90 + (f2 : ℚ) * 10 + (s2 : ℚ) * 1 + (u2 : ℚ) * (1 / 24) + (e2 : ℚ) * (1 / 240) + 1 / 240,
          -180 + (f1 : ℚ) * 20 + (s1 : ℚ) * 2 + (u1 : ℚ) * (2 / 24) + (e1 : ℚ) * (2 / 240) + 2 / 240⟩,
        ⟨-90 + (f2 : ℚ) * 10 + (s2 : ℚ) * 1 + (u2 : ℚ) * (1 / 24) + (e2 : ℚ) * (1 / 240) + 1 / 480,
          -180 + (f1 : ℚ) * 20 + (s1 : ℚ) * 2 + (u1 : ℚ) * (2 / 24) + (e1 : ℚ) * (2 / 240) + 1 / 240⟩⟩ := by
  have tf1 : (Char.ofNat (65 + f1)).toUpper = Char.ofNat (65 + f1) :=
    toUpper_of_lt _ (by rw [char_toNat_ofNat _ (by omega)]; omega)
  have nf1 : (Char.ofNat (65 + f1)).toNat = 65 + f1 := char_toNat_ofNat _ (by omega)
  have tf2 : (Char.ofNat (65 + f2)).toUpper = Char.ofNat (65 + f2) :=
    toUpper_of_lt _ (by rw [char_toNat_ofNat _ (by omega)]; omega)
  have nf2 : (Char.ofNat (65 + f2)).toNat = 65 + f2 := char_toNat_ofNat _ (by omega)
  have ts1 : (Char.ofNat (48 + s1)).toUpper = Char.ofNat (48 + s1) :=
    toUpper_of_lt _ (by rw [char_toNat_ofNat _ (by omega)]; omega)
  have ns1 : (Char.ofNat (48 + s1)).toNat = 48 + s1 := char_toNat_ofNat _ (by omega)
  have ts2 : (Char.ofNat (48 + s2)).toUpper = Char.ofNat (48 + s2) :=
    toUpper_of_lt _ (by rw [char_toNat_ofNat _ (by omega)]; omega)
  have ns2 : (Char.ofNat (48 + s2)).toNat = 48 + s2 := char_toNat_ofNat _ (by omega)
  have tu1 : (Char.ofNat (97 + u1)).toUpper = Char.ofNat (65 + u1) :=
    toUpper_ofNat_lower u1 (by omega)
  have nu1 : (Char.ofNat (65 + u1)).toNat = 65 + u1 := char_toNat_ofNat _ (by omega)
  have tu2 : (Char.ofNat (97 + u2)).toUpper = Char.ofNat (65 + u2) :=
    toUpper_ofNat_lower u2 (by omega)
  have nu2 : (Char.ofNat (65 + u2)).toNat = 65 + u2 := char_toNat_ofNat _ (by omega)
  have te1 : (Char.ofNat (48 + e1)).toUpper = Char.ofNat (48 + e1) :=
    toUpper_of_lt _ (by rw [char_toNat_ofNat _ (by omega)]; omega)
  have ne1 : (Char.ofNat (48 + e1)).toNat = 48 + e1 := char_toNat_ofNat _ (by omega)
  have te2 : (Char.ofNat (48 + e2)).toUpper = Char.ofNat (48 + e2) :=
    toUpper_of_lt _ (by rw [char_toNat_ofNat _ (by omega)]; omega)
  have ne2 : (Char.ofNat (48 + e2)).toNat = 48 + e2 := char_toNat_ofNat _ (by omega)
  unfold maidenheadToBounds
  simp only [List.map_cons, List.map_nil, tf1, tf2, ts1, ts2, tu1, tu2, te1, te2,
    List.length_cons, List.length_nil, List.getD_cons_zero, List.getD_cons_succ]
  norm_num [nf1, nf2, ns1, ns2, nu1, nu2, ne1, ne2]

set_option maxHeartbeats 3200000 in
theorem contains_8 (lat lng : ℚ)
    (hlat1 : -90 ≤ lat) (hlat2 : lat ≤ 90)
    (hlng1 : -180 ≤ lng) (hlng2 : lng ≤ 180) :
    containsPoint (maidenheadToBounds (latLngToMaidenhead lat lng 8)) ⟨lat, lng⟩ := by
  have hx0 : (0 : ℚ) ≤ lng + 180 := by linarith
  have hy0 : (0 : ℚ) ≤ lat + 90 := by linarith
  have hxm0 := jsMod_bounds (lng + 180) 20 hx0 (by norm_num)
  have hxm1 := jsMod_bounds (lng + 180) 2 hx0 (by norm_num)
  have hxm2 := jsMod_bounds (lng + 180) (2 / 24) hx0 (by norm_num)
  have hxm3 := jsMod_bounds (lng + 180) (2 / 240) hx0 (by norm_num)
  have hxa0 := floor_div_range (lng + 180) 20 19 hx0 (by norm_num) (by push_cast; linarith)
  have hxa1 := floor_div_range (jsMod (lng + 180) 20) 2 10 hxm0.1 (by norm_num) (by push_cast; linarith [hxm0.2])
  have hxa2 := floor_div_range (jsMod (lng + 180) 2) (2 / 24) 24 hxm1.1 (by norm_num) (by push_cast; linarith [hxm1.2])
  have hxa3 := floor_div_range (jsMod (lng + 180) (2 / 24)) (2 / 240) 10 hxm2.1 (by norm_num) (by push_cast; linarith [hxm2.2])
  have Ex0 := jsMod_eq_floor (lng + 180) 20 hx0 (by norm_num)
  have Ex1 := tier_step (lng + 180) 20 2 10 hx0 (by norm_num) (by norm_num) (by norm_num)
  have Ex2 := tier_step (lng + 180) 2 (2 / 24) 24 hx0 (by norm_num) (by norm_num) (by norm_num)
  have Ex3 := tier_step (lng + 180) (2 / 24) (2 / 240) 10 hx0 (by norm_num) (by norm_num) (by norm_num)
  have cx0 : ((⌊(lng + 180) / 20⌋.toNat : ℕ) : ℚ) = ((⌊(lng + 180) / 20⌋ : ℤ) : ℚ) := by
    exact_mod_cast Int.toNat_of_nonneg hxa0.1
  have cx1 : ((⌊jsMod (lng + 180) 20 / 2⌋.toNat : ℕ) : ℚ) = ((⌊jsMod (lng + 180) 20 / 2⌋ : ℤ) : ℚ) := by
    exact_mod_cast Int.toNat_of_nonneg hxa1.1
  have cx2 : ((⌊jsMod (lng + 180) 2 / (2 / 24)⌋.toNat : ℕ) : ℚ) = ((⌊jsMod (lng + 180) 2 / (2 / 24)⌋ : ℤ) : ℚ) := by
    exact_mod_cast Int.toNat_of_nonneg hxa2.1
  have cx3 : ((⌊jsMod (lng + 180) (2 / 24) / (2 / 240)⌋.toNat : ℕ) : ℚ) = ((⌊jsMod (lng + 180) (2 / 24) / (2 / 240)⌋ : ℤ) : ℚ) := by
    exact_mod_cast Int.toNat_of_nonneg hxa3.1
  have hym0 := jsMod_bounds (lat + 90) 10 hy0 (by norm_num)
  have hym1 := jsMod_bounds (lat + 90) 1 hy0 (by norm_num)
  have hym2 := jsMod_bounds (lat + 90) (1 / 24) hy0 (by norm_num)
  have hym3 := jsMod_bounds (lat + 90) (1 / 240) hy0 (by norm_num)
  have hya0 := floor_div_range (lat + 90) 10 19 hy0 (by norm_num) (by push_cast; linarith)
  have hya1 := floor_div_range (jsMod (lat + 90) 10) 1 10 hym0.1 (by norm_num) (by push_cast; linarith [hym0.2])
  have hya2 := floor_div_range (jsMod (lat + 90) 1) (1 / 24) 24 hym1.1 (by norm_num) (by push_cast; linarith [hym1.2])
  have hya3 := floor_div_range (jsMod (lat + 90) (1 / 24)) (1 / 240) 10 hym2.1 (by norm_num) (by push_cast; linarith [hym2.2])
  have Ey0 := jsMod_eq_floor (lat + 90) 10 hy0 (by norm_num)
  have Ey1 := tier_step (lat + 90) 10 1 10 hy0 (by norm_num) (by norm_num) (by norm_num)
  have Ey2 := tier_step (lat + 90) 1 (1 / 24) 24 hy0 (by norm_num) (by norm_num) (by norm_num)
  have Ey3 := tier_step (lat + 90) (1 / 24) (1 / 240) 10 hy0 (by norm_num) (by norm_num) (by norm_num)
  have cy0 : ((⌊(lat + 90) / 10⌋.toNat : ℕ) : ℚ) = ((⌊(lat + 90) / 10⌋ : ℤ) : ℚ) := by
    exact_mod_cast Int.toNat_of_nonneg hya0.1
  have cy1 : ((⌊jsMod (lat + 90) 10 / 1⌋.toNat : ℕ) : ℚ) = ((⌊jsMod (lat + 90) 10 / 1⌋ : ℤ) : ℚ) := by
    exact_mod_cast Int.toNat_of_nonneg hya1.1
  have cy2 : ((⌊jsMod (lat + 90) 1 / (1 / 24)⌋.toNat : ℕ) : ℚ) = ((⌊jsMod (lat + 90) 1 / (1 / 24)⌋ : ℤ) : ℚ) := by
    exact_mod_cast Int.toNat_of_nonneg hya2.1
  have cy3 : ((⌊jsMod (lat + 90) (1 / 24) / (1 / 240)⌋.toNat : ℕ) : ℚ) = ((⌊jsMod (lat + 90) (1 / 24) / (1 / 240)⌋ : ℤ) : ℚ) := by
    exact_mod_cast Int.toNat_of_nonneg hya3.1
  rw [show latLngToMaidenhead lat lng 8 = ⟨[Char.ofNat (65 + ⌊(lng + 180) / 20⌋.toNat),
      Char.ofNat (65 + ⌊(lat + 90) / 10⌋.toNat),
      Char.ofNat (48 + ⌊jsMod (lng + 180) 20 / 2⌋.toNat),
      Char.ofNat (48 + ⌊jsMod (lat + 90) 10 / 1⌋.toNat),
      Char.ofNat (97 + ⌊jsMod (lng + 180) 2 / (2 / 24)⌋.toNat),
      Char.ofNat (97 + ⌊jsMod (lat + 90) 1 / (1 / 24)⌋.toNat),
      Char.ofNat (48 + ⌊jsMod (lng + 180) (2 / 24) / (2 / 240)⌋.toNat),
      Char.ofNat (48 + ⌊jsMod (lat + 90) (1 / 24) / (1 / 240)⌋.toNat)]⟩ from rfl]
  rw [decode_bounds_8 (⌊(lng + 180) / 20⌋.toNat) (⌊(lat + 90) / 10⌋.toNat) (⌊jsMod (lng + 180) 20 / 2⌋.toNat) (⌊jsMod (lat + 90) 10 / 1⌋.toNat) (⌊jsMod (lng + 180) 2 / (2 / 24)⌋.toNat) (⌊jsMod (lat + 90) 1 / (1 / 24)⌋.toNat) (⌊jsMod (lng + 180) (2 / 24) / (2 / 240)⌋.toNat) (⌊jsMod (lat + 90) (1 / 24) / (1 / 240)⌋.toNat)
    (by omega) (by omega) (by omega) (by omega) (by omega) (by omega) (by omega) (by omega)]
  unfold containsPoint
  dsimp only
  rw [cx0, cx1, cx2, cx3, cy0, cy1, cy2, cy3]
  refine ⟨?_, ?_, ?_, ?_⟩
  · linarith
  · linarith
  · linarith
  · linarith

set_option maxHeartbeats 3200000 in
theorem decode_bounds_10 (f1 f2 s1 s2 u1 u2 e1 e2 v1 v2 : ℕ)
    (hf1 : f1 ≤ 25) (hf2 : f2 ≤ 25) (hs1 : s1 ≤ 9) (hs2 : s2 ≤ 9) (hu1 : u1 ≤ 25) (hu2 : u2 ≤ 25) (he1 : e1 ≤ 9) (he2 : e2 ≤ 9) (hv1 : v1 ≤ 25) (hv2 : v2 ≤ 25) :
    maidenheadToBounds ⟨[Char.ofNat (65 + f1),
        Char.ofNat (65 + f2),
        Char.ofNat (48 + s1),
        Char.ofNat (48 + s2),
        Char.ofNat (97 + u1),
        Char.ofNat (97 + u2),
        Char.ofNat (48 + e1),
        Char.ofNat (48 + e2),
        Char.ofNat (97 + v1),
        Char.ofNat (97 + v2)]⟩
      = ⟨⟨-90 + (f2 : ℚ) * 10 + (s2 : ℚ) * 1 + (u2 : ℚ) * (1 / 24) + (e2 : ℚ) * (1 / 240) + (v2 : ℚ) * (1 / 5760),
          -180 + (f1 : ℚ) * 20 + (s1 : ℚ) * 2 + (u1 : ℚ) * (2 / 24) + (e1 : ℚ) * (2 / 240) + (v1 : ℚ) * (2 / 5760)⟩,
        ⟨-90 + (f2 : ℚ) * 10 + (s2 : ℚ) * 1 + (u2 : ℚ) * (1 / 24) + (e2 : ℚ) * (1 / 240) + (v2 : ℚ) * (1 / 5760) + 1 / 5760,
          -180 + (f1 : ℚ) * 20 + (s1 : ℚ) * 2 + (u1 : ℚ) * (2 / 24) + (e1 : ℚ) * (2 / 240) + (v1 : ℚ) * (2 / 5760) + 2 / 5760⟩,
        ⟨-90 + (f2 : ℚ) * 10 + (s2 : ℚ) * 1 + (u2 : ℚ) * (1 / 24) + (e2 : ℚ) * (1 / 240) + (v2 : ℚ) * (1 / 5760) + 1 / 11520,
          -180 + (f1 : ℚ) * 20 + (s1 : ℚ) * 2 + (u1 : ℚ) * (2 / 24) + (e1 : ℚ) * (2 / 240) + (v1 : ℚ) * (2 / 5760) + 1 / 5760⟩⟩ := by
  have tf1 : (Char.ofNat (65 + f1)).toUpper = Char.ofNat (65 + f1) :=
    toUpper_of_lt _ (by rw [char_toNat_ofNat _ (by omega)]; omega)
  have nf1 : (Char.ofNat (65 + f1)).toNat = 65 + f1 := char_toNat_ofNat _ (by omega)
  have tf2 : (Char.ofNat (65 + f2)).toUpper = Char.ofNat (65 + f2) :=
    toUpper_of_lt _ (by rw [char_toNat_ofNat _ (by omega)]; omega)
  have nf2 : (Char.ofNat (65 + f2)).toNat = 65 + f2 := char_toNat_ofNat _ (by omega)
  have ts1 : (Char.ofNat (48 + s1)).toUpper = Char.ofNat (48 + s1) :=
    toUpper_of_lt _ (by rw [char_toNat_ofNat _ (by omega)]; omega)
  have ns1 : (Char.ofNat (48 + s1)).toNat = 48 + s1 := char_toNat_ofNat _ (by omega)
  have ts2 : (Char.ofNat (48 + s2)).toUpper = Char.ofNat (48 + s2) :=
    toUpper_of_lt _ (by rw [char_toNat_ofNat _ (by omega)]; omega)
  have ns2 : (Char.ofNat (48 + s2)).toNat = 48 + s2 := char_toNat_ofNat _ (by omega)
  have tu1 : (Char.ofNat (97 + u1)).toUpper = Char.ofNat (65 + u1) :=
    toUpper_ofNat_lower u1 (by omega)
  have nu1 : (Char.ofNat (65 + u1)).toNat = 65 + u1 := char_toNat_ofNat _ (by omega)
  have tu2 : (Char.ofNat (97 + u2)).toUpper = Char.ofNat (65 + u2) :=
    toUpper_ofNat_lower u2 (by omega)
  have nu2 : (Char.ofNat (65 + u2)).toNat = 65 + u2 := char_toNat_ofNat _ (by omega)
  have te1 : (Char.ofNat (48 + e1)).toUpper = Char.ofNat (48 + e1) :=
    toUpper_of_lt _ (by rw [char_toNat_ofNat _ (by omega)]; omega)
  have ne1 : (Char.ofNat (48 + e1)).toNat = 48 + e1 := char_toNat_ofNat _ (by omega)
  have te2 : (Char.ofNat (48 + e2)).toUpper = Char.ofNat (48 + e2) :=
    toUpper_of_lt _ (by rw [char_toNat_ofNat _ (by omega)]; omega)
  have ne2 : (Char.ofNat (48 + e2)).toNat = 48 + e2 := char_toNat_ofNat _ (by omega)
  have tv1 : (Char.ofNat (97 + v1)).toUpper = Char.ofNat (65 + v1) :=
    toUpper_ofNat_lower v1 (by omega)
  have nv1 : (Char.ofNat (65 + v1)).toNat = 65 + v1 := char_toNat_ofNat _ (by omega)
  have tv2 : (Char.ofNat (97 + v2)).toUpper = Char.ofNat (65 + v2) :=
    toUpper_ofNat_lower v2 (by omega)
  have nv2 : (Char.ofNat (65 + v2)).toNat = 65 + v2 := char_toNat_ofNat _ (by omega)
  unfold maidenheadToBounds
  simp only [List.map_cons, List.map_nil, tf1, tf2, ts1, ts2, tu1, tu2, te1, te2, tv1, tv2,
    List.length_cons, List.length_nil, List.getD_cons_zero, List.getD_cons_succ]
  norm_num [nf1, nf2, ns1, ns2, nu1, nu2, ne1, ne2, nv1, nv2]

set_option maxHeartbeats 3200000 in
theorem contains_10 (lat lng : ℚ)
    (hlat1 : -90 ≤ lat) (hlat2 : lat ≤ 90)
    (hlng1 : -180 ≤ lng) (hlng2 : lng ≤ 180) :
    containsPoint (maidenheadToBounds (latLngToMaidenhead lat lng 10)) ⟨lat, lng⟩ := by
  have hx0 : (0 : ℚ) ≤ lng + 180 := by linarith
  have hy0 : (0 : ℚ) ≤ lat + 90 := by linarith
  have hxm0 := jsMod_bounds (lng + 180) 20 hx0 (by norm_num)
  have hxm1 := jsMod_bounds (lng + 180) 2 hx0 (by norm_num)
  have hxm2 := jsMod_bounds (lng + 180) (2 / 24) hx0 (by norm_num)
  have hxm3 := jsMod_bounds (lng + 180) (2 / 240) hx0 (by norm_num)
  have hxm4 := jsMod_bounds (lng + 180) (2 / 5760) hx0 (by norm_num)
  have hxa0 := floor_div_range (lng + 180) 20 19 hx0 (by norm_num) (by push_cast; linarith)
  have hxa1 := floor_div_range (jsMod (lng + 180) 20) 2 10 hxm0.1 (by norm_num) (by push_cast; linarith [hxm0.2])
  have hxa2 := floor_div_range (jsMod (lng + 180) 2) (2 / 24) 24 hxm1.1 (by norm_num) (by push_cast; linarith [hxm1.2])
  have hxa3 := floor_div_range (jsMod (lng + 180) (2 / 24)) (2 / 240) 10 hxm2.1 (by norm_num) (by push_cast; linarith [hxm2.2])
  have hxa4 := floor_div_range (jsMod (lng + 180) (2 / 240)) (2 / 5760) 24 hxm3.1 (by norm_num) (by push_cast; linarith [hxm3.2])
  have Ex0 := jsMod_eq_floor (lng + 180) 20 hx0 (by norm_num)
  have Ex1 := tier_step (lng + 180) 20 2 10 hx0 (by norm_num) (by norm_num) (by norm_num)
  have Ex2 := tier_step (lng + 180) 2 (2 / 24) 24 hx0 (by norm_num) (by norm_num) (by norm_num)
  have Ex3 := tier_step (lng + 180) (2 / 24) (2 / 240) 10 hx0 (by norm_num) (by norm_num) (by norm_num)
  have Ex4 := tier_step (lng + 180) (2 / 240) (2 / 5760) 24 hx0 (by norm_num) (by norm_num) (by norm_num)
  have cx0 : ((⌊(lng + 180) / 20⌋.toNat : ℕ) : ℚ) = ((⌊(lng + 180) / 20⌋ : ℤ) : ℚ) := by
    exact_mod_cast Int.toNat_of_nonneg hxa0.1
  have cx1 : ((⌊jsMod (lng + 180) 20 / 2⌋.toNat : ℕ) : ℚ) = ((⌊jsMod (lng + 180) 20 / 2⌋ : ℤ) : ℚ) := by
    exact_mod_cast Int.toNat_of_nonneg hxa1.1
  have cx2 : ((⌊jsMod (lng + 180) 2 / (2 / 24)⌋.toNat : ℕ) : ℚ) = ((⌊jsMod (lng + 180) 2 / (2 / 24)⌋ : ℤ) : ℚ) := by
    exact_mod_cast Int.toNat_of_nonneg hxa2.1
  have cx3 : ((⌊jsMod (lng + 180) (2 / 24) / (2 / 240)⌋.toNat : ℕ) : ℚ) = ((⌊jsMod (lng + 180) (2 / 24) / (2 / 240)⌋ : ℤ) : ℚ) := by
    exact_mod_cast Int.toNat_of_nonneg hxa3.1
  have cx4 : ((⌊jsMod (lng + 180) (2 / 240) / (2 / 5760)⌋.toNat : ℕ) : ℚ) = ((⌊jsMod (lng + 180) (2 / 240) / (2 / 5760)⌋ : ℤ) : ℚ) := by
    exact_mod_cast Int.toNat_of_nonneg hxa4.1
  have hym0 := jsMod_bounds (lat + 90) 10 hy0 (by norm_num)
  have hym1 := jsMod_bounds (lat + 90) 1 hy0 (by norm_num)
  have hym2 := jsMod_bounds (lat + 90) (1 / 24) hy0 (by norm_num)
  have hym3 := jsMod_bounds (lat + 90) (1 / 240) hy0 (by norm_num)
  have hym4 := jsMod_bounds (lat + 90) (1 / 5760) hy0 (by norm_num)
  have hya0 := floor_div_range (lat + 90) 10 19 hy0 (by norm_num) (by push_cast; linarith)
  have hya1 := floor_div_range (jsMod (lat + 90) 10) 1 10 hym0.1 (by norm_num) (by push_cast; linarith [hym0.2])
  have hya2 := floor_div_range (jsMod (lat + 90) 1) (1 / 24) 24 hym1.1 (by norm_num) (by push_cast; linarith [hym1.2])
  have hya3 := floor_div_range (jsMod (lat + 90) (1 / 24)) (1 / 240) 10 hym2.1 (by norm_num) (by push_cast; linarith [hym2.2])
  have hya4 := floor_div_range (jsMod (lat + 90) (1 / 240)) (1 / 5760) 24 hym3.1 (by norm_num) (by push_cast; linarith [hym3.2])
  have Ey0 := jsMod_eq_floor (lat + 90) 10 hy0 (by norm_num)
  have Ey1 := tier_step (lat + 90) 10 1 10 hy0 (by norm_num) (by norm_num) (by norm_num)
  have Ey2 := tier_step (lat + 90) 1 (1 / 24) 24 hy0 (by norm_num) (by norm_num) (by norm_num)
  have Ey3 := tier_step (lat + 90) (1 / 24) (1 / 240) 10 hy0 (by norm_num) (by norm_num) (by norm_num)
  have Ey4 := tier_step (lat + 90) (1 / 240) (1 / 5760) 24 hy0 (by norm_num) (by norm_num) (by norm_num)
  have cy0 : ((⌊(lat + 90) / 10⌋.toNat : ℕ) : ℚ) = ((⌊(lat + 90) / 10⌋ : ℤ) : ℚ) := by
    exact_mod_cast Int.toNat_of_nonneg hya0.1
  have cy1 : ((⌊jsMod (lat + 90) 10 / 1⌋.toNat : ℕ) : ℚ) = ((⌊jsMod (lat + 90) 10 / 1⌋ : ℤ) : ℚ) := by
    exact_mod_cast Int.toNat_of_nonneg hya1.1
  have cy2 : ((⌊jsMod (lat + 90) 1 / (1 / 24)⌋.toNat : ℕ) : ℚ) = ((⌊jsMod (lat + 90) 1 / (1 / 24)⌋ : ℤ) : ℚ) := by
    exact_mod_cast Int.toNat_of_nonneg hya2.1
  have cy3 : ((⌊jsMod (lat + 90) (1 / 24) / (1 / 240)⌋.toNat : ℕ) : ℚ) = ((⌊jsMod (lat + 90) (1 / 24) / (1 / 240)⌋ : ℤ) : ℚ) := by
    exact_mod_cast Int.toNat_of_nonneg hya3.1
  have cy4 : ((⌊jsMod (lat + 90) (1 / 240) / (1 / 5760)⌋.toNat : ℕ) : ℚ) = ((⌊jsMod (lat + 90) (1 / 240) / (1 / 5760)⌋ : ℤ) : ℚ) := by
    exact_mod_cast Int.toNat_of_nonneg hya4.1
  rw [show latLngToMaidenhead lat lng 10 = ⟨[Char.ofNat (65 + ⌊(lng + 180) / 20⌋.toNat),
      Char.ofNat (65 + ⌊(lat + 90) / 10⌋.toNat),
      Char.ofNat (48 + ⌊jsMod (lng + 180) 20 / 2⌋.toNat),
      Char.ofNat (48 + ⌊jsMod (lat + 90) 10 / 1⌋.toNat),
      Char.ofNat (97 + ⌊jsMod (lng + 180) 2 / (2 / 24)⌋.toNat),
      Char.ofNat (97 + ⌊jsMod (lat + 90) 1 / (1 / 24)⌋.toNat),
      Char.ofNat (48 + ⌊jsMod (lng + 180) (2 / 24) / (2 / 240)⌋.toNat),
      Char.ofNat (48 + ⌊jsMod (lat + 90) (1 / 24) / (1 / 240)⌋.toNat),
      Char.ofNat (97 + ⌊jsMod (lng + 180) (2 / 240) / (2 / 5760)⌋.toNat),
      Char.ofNat (97 + ⌊jsMod (lat + 90) (1 / 240) / (1 / 5760)⌋.toNat)]⟩ from rfl]
  rw [decode_bounds_10 (⌊(lng + 180) / 20⌋.toNat) (⌊(lat + 90) / 10⌋.toNat) (⌊jsMod (lng + 180) 20 / 2⌋.toNat) (⌊jsMod (lat + 90) 10 / 1⌋.toNat) (⌊jsMod (lng + 180) 2 / (2 / 24)⌋.toNat) (⌊jsMod (lat + 90) 1 / (1 / 24)⌋.toNat) (⌊jsMod (lng + 180) (2 / 24) / (2 / 240)⌋.toNat) (⌊jsMod (lat + 90) (1 / 24) / (1 / 240)⌋.toNat) (⌊jsMod (lng + 180) (2 / 240) / (2 / 5760)⌋.toNat) (⌊jsMod (lat + 90) (1 / 240) / (1 / 5760)⌋.toNat)
    (by omega) (by omega) (by omega) (by omega) (by omega) (by omega) (by omega) (by omega) (by omega) (by omega)]
  unfold containsPoint
  dsimp only
  rw [cx0, cx1, cx2, cx3, cx4, cy0, cy1, cy2, cy3, cy4]
  refine ⟨?_, ?_, ?_, ?_⟩
  · linarith
  · linarith
  · linarith
  · linarith

/-- C8: for every precision p in {2,4,6,8,10} and every world-range point not
on a tile boundary of the precision-`p` grid, the bounds decoded from the
point's encoded locator contain the point:
`toBounds(toLocator(point,p)).contains(point)`.  (The proof in fact shows
containment for every in-range point; the claim's strictly-inside hypothesis
`hb` is kept but is not needed, since `contains` includes the tile edges.) -/
theorem toBounds_toLocator_contains (pt : LatLng) (p : ℕ)
    (hp : p = 2 ∨ p = 4 ∨ p = 6 ∨ p = 8 ∨ p = 10)
    (hlat1 : -90 ≤ pt.lat) (hlat2 : pt.lat ≤ 90)
    (hlng1 : -180 ≤ pt.lng) (hlng2 : pt.lng ≤ 180)
    (hb : onTileBoundary pt.lat pt.lng p = false) :
    containsPoint (maidenheadToBounds (latLngToMaidenhead pt.lat pt.lng p)) pt := by
  obtain ⟨lat, lng⟩ := pt
  rcases hp with rfl | rfl | rfl | rfl | rfl
  · exact contains_2 lat lng hlat1 hlat2 hlng1 hlng2
  · exact contains_4 lat lng hlat1 hlat2 hlng1 hlng2
  · exact contains_6 lat lng hlat1 hlat2 hlng1 hlng2
  · exact contains_8 lat lng hlat1 hlat2 hlng1 hlng2
  · exact contains_10 lat lng hlat1 hlat2 hlng1 hlng2

set_option maxRecDepth 10000 in
attribute [local semireducible] Rat.add Rat.mul Rat.inv Rat.sub Rat.ofScientific in
theorem toBounds_toLocator_contains_witness :
    onTileBoundary 41.0082 28.9784 6 = false ∧
      containsPoint
        (maidenheadToBounds (latLngToMaidenhead (41.0082 : ℚ) 28.9784 6))
        ⟨41.0082, 28.9784⟩ :=
  ⟨by decide,
    toBounds_toLocator_contains ⟨41.0082, 28.9784⟩ 6
      (by norm_num) (by norm_num) (by norm_num) (by norm_num) (by norm_num)
      (by decide)⟩
